import Mathlib

/-!
# Transient-fetch protection layer of the fleet Argo CD plugin

A shallow embedding of `fleet-argocd-plugin/protection/detector.go` and
`fleet-argocd-plugin/protection/cache.go`, of `FleetSync.Refresh` in
`fleet-argocd-plugin/fleetclient/fleetclient.go` and of the secret handling of
`argocd-clusterprofile-syncer/cmd/main.go`, and the properties their
specification states about them.

Modelling conventions

* A `time.Time` is the integer reading of the process clock in nanoseconds and a
  `time.Duration` is an integer number of nanoseconds; `t.After(u)` is `u < t`
  and `t.Add(-w)` is `t - w`.
* `Detector.IsTransientIssue` reads the clock twice (`time.Now()` for the
  snapshot, `time.Now()` again for the cut-off); the two readings are the
  arguments `now1` and `now2` of the embedding.
* A Go `int` has 64 bits: a record count is an `Int`, and the sum that
  `IsTransientIssue` accumulates is taken modulo `2^64` in the range from
  `-2^63` to `2^63 - 1` (`wrapInt`).
* A finite `float64` is the rational number it denotes. A conversion to
  `float64` and each operation on `float64` values round the exact result to the
  nearest binary64 number, ties to the even significand (`toFloat64`). The
  exponent range of binary64 is not reached by the values of this program (the
  integers are below `2^63` in absolute value and a history has fewer than `2^63`
  entries), so a binary64 number is a significand of at most 53 bits times a
  power of two. The thresholds of a detector are finite: `dropThreshold` is the
  rational number that the `float64` denotes, and a theorem that needs the
  threshold to be a binary64 number says so (`toFloat64 thr = thr`).
* `sync.Mutex` and `sync.RWMutex` serialise the calls: one call is one
  transition of the state.
* In `cache.go` a Go slice is an `Option (List _)`: `none` is the nil slice,
  `some l` a non-nil slice with the elements `l`. The history of the detector is
  read and replaced by `IsTransientIssue` only, so that the detector state is
  the list of its elements; for `GetHistory`, which hands a slice to the caller,
  a slice is a window on a backing array of a memory (`Slice`, `Memory`) and the
  detector state is the view of its slice in that memory.
* The library formatting of a `float64` with the verb `%.0f` and of a
  `time.Time` with the layout `15:04:05` is a parameter (`Formatter`): every
  theorem holds for every such formatting.
-/

namespace Protection

/-! ## Data model -/

/-- Snapshot represents a point-in-time Fleet API response. -/
structure Snapshot where
  ItemCount : Int
  Timestamp : Int
deriving DecidableEq, Repr

/-- Detector state: the history and the three configuration fields. -/
structure Detector where
  history : List Snapshot
  windowDuration : Int
  oscillationThreshold : Int
  dropThreshold : ℚ
deriving DecidableEq

/-- Library formatting used by the reason strings: `float0` is the verb `%.0f`
on a `float64`, `clock` is `Time.Format("15:04:05")`. -/
structure Formatter where
  float0 : ℚ → String
  clock : Int → String

/-- NewDetector creates a detector with an empty history. -/
def NewDetector (windowDuration : Int) (oscillationThreshold : Int) (dropThreshold : ℚ) :
    Detector :=
  ⟨[], windowDuration, oscillationThreshold, dropThreshold⟩

/-! ## Machine arithmetic -/

/-- The value of a Go `int` expression whose exact result is `x`: the integer
congruent to `x` modulo `2^64` in the range from `-2^63` to `2^63 - 1`. -/
def wrapInt (x : Int) : Int :=
  (x + 9223372036854775808) % 18446744073709551616 - 9223372036854775808

/-- Round to the nearest integer, ties to the even one. -/
def roundHalfEven (q : ℚ) : Int :=
  let f := Int.floor q
  let r := q - (f : ℚ)
  if r < 1 / 2 then f else if 1 / 2 < r then f + 1 else if f % 2 = 0 then f else f + 1

/-- The `float64` nearest to a rational number, ties to the even significand:
the number is rounded to a multiple of `2^(e - 52)`, where `2^e` is the largest
power of two that is at most its absolute value. This is what a conversion to
`float64` and one `float64` operation do to their exact result. -/
def toFloat64 (q : ℚ) : ℚ :=
  if q = 0 then 0
  else
    let ulp : ℚ := (2 : ℚ) ^ (Int.log 2 |q| - 52)
    (roundHalfEven (q / ulp) : ℚ) * ulp

/-! ## Operations -/

/-- The constant `time.Minute`, in nanoseconds. -/
def Minute : Int := 60 * 1000000000

/-- Duration.Minutes: `float64(d / Minute) + float64(d % Minute) / (60 * 1e9)`,
with the truncating division and remainder of Go. -/
def Minutes (d : Int) : ℚ :=
  toFloat64 (toFloat64 ((Int.tdiv d Minute : Int) : ℚ)
    + toFloat64 (toFloat64 ((Int.tmod d Minute : Int) : ℚ) / 60000000000))

/-- One entry of the pattern string: `fmt.Sprintf("%d@%s", count, time)`. -/
def formatEntry (F : Formatter) (s : Snapshot) : String :=
  toString s.ItemCount ++ "@" ++ F.clock s.Timestamp

/-- The loop of `formatPattern`: entry `i` is preceded by an arrow when `i > 0`. -/
def formatPatternLoop (F : Formatter) : Nat → List Snapshot → String → String
  | _, [], pattern => pattern
  | i, s :: rest, pattern =>
    formatPatternLoop F (i + 1) rest
      ((if i > 0 then pattern ++ " → " else pattern) ++ formatEntry F s)

/-- Detector.formatPattern returns a human-readable pattern string. -/
def formatPattern (F : Formatter) (d : Detector) : String :=
  formatPatternLoop F 0 d.history ""

/-- The oscillation loop `for i := 1; i < len(history); i++`: `changes` is
incremented when entry `i` and entry `i-1` have different counts. -/
def changesLoop : List Snapshot → Int → Int
  | prev :: cur :: rest, changes =>
    changesLoop (cur :: rest) (if cur.ItemCount ≠ prev.ItemCount then changes + 1 else changes)
  | _, changes => changes

/-- The averaging loop `for i := 0; i < len(history)-1; i++`: accumulates
`(sum, count)` over every entry but the last; `sum += ...` is an addition of
Go `int`s. -/
def sumLoop : List Snapshot → Int × Int → Int × Int
  | s :: next :: rest, (sum, count) =>
    sumLoop (next :: rest) (wrapInt (sum + s.ItemCount), count + 1)
  | _, acc => acc

/-- The pruning loop of `IsTransientIssue`: keeps the snapshots whose timestamp
is after the cut-off. -/
def pruneHistory (cutoff : Int) (history : List Snapshot) : List Snapshot :=
  history.filter (fun s => decide (cutoff < s.Timestamp))

/-- The reason of the oscillation rule:
`fmt.Sprintf("Oscillation detected: %d count changes in last %.0f minutes. Pattern: %s", ...)`. -/
def oscillationReason (F : Formatter) (d : Detector) (changes : Int) : String :=
  "Oscillation detected: " ++ toString changes ++ " count changes in last "
    ++ F.float0 (Minutes d.windowDuration) ++ " minutes. Pattern: " ++ formatPattern F d

/-- The reason of the sudden-drop rule:
`fmt.Sprintf("Sudden drop detected: %.0f%% decrease (avg %.0f to %d)", ...)`. -/
def suddenDropReason (F : Formatter) (decrease avgPrev : ℚ) (currentCount : Int) : String :=
  "Sudden drop detected: " ++ F.float0 (toFloat64 (decrease * 100)) ++ "% decrease (avg "
    ++ F.float0 avgPrev ++ " to " ++ toString currentCount ++ ")"

/-- The classification part of `IsTransientIssue` (the code after the history
has been replaced by the filtered one). The sum is a Go `int`; `avgPrev` and
`decrease` are `float64` values, each conversion and each operation rounding
its result. -/
def classify (F : Formatter) (d : Detector) (currentCount : Int) : Bool × String :=
  if d.history.length < 3 then (false, "")
  else
    let changes := changesLoop d.history 0
    if changes ≥ d.oscillationThreshold then
      (true, oscillationReason F d changes)
    else if d.history.length ≥ 2 then
      let acc := sumLoop d.history (0, 0)
      let sum := acc.1
      let count := acc.2
      if count > 0 then
        let avgPrev : ℚ := toFloat64 (toFloat64 (sum : ℚ) / toFloat64 (count : ℚ))
        if avgPrev > 0 then
          let decrease : ℚ :=
            toFloat64 (toFloat64 (avgPrev - toFloat64 (currentCount : ℚ)) / avgPrev)
          if decrease > d.dropThreshold then
            (true, suddenDropReason F decrease avgPrev currentCount)
          else (false, "")
        else (false, "")
      else (false, "")
    else (false, "")

/-- Detector.IsTransientIssue: appends the snapshot taken at `now1`, prunes with
the cut-off `now2 - windowDuration`, stores the filtered history and classifies.
Returns the new detector state and the pair `(isTransient, reason)`. -/
def IsTransientIssue (F : Formatter) (d : Detector) (currentCount : Int) (now1 now2 : Int) :
    Detector × (Bool × String) :=
  let snapshot : Snapshot := ⟨currentCount, now1⟩
  let appended := d.history ++ [snapshot]
  let cutoff := now2 - d.windowDuration
  let d1 : Detector :=
    ⟨pruneHistory cutoff appended, d.windowDuration, d.oscillationThreshold, d.dropThreshold⟩
  (d1, classify F d1 currentCount)

/-! ## Slices in memory -/

/-- A Go slice value: the backing array it points into, the offset of its first
element in that array, its length and its capacity. -/
structure Slice where
  array : Nat
  offset : Nat
  len : Nat
  cap : Nat
deriving DecidableEq, Repr

/-- The memory that holds the backing arrays of the `[]Snapshot` slices: the
array with address `a` is entry `a`; an allocation adds an entry at the end. -/
abbrev Memory : Type := List (List Snapshot)

/-- The zero value of `Snapshot`. -/
def Snapshot.zero : Snapshot := ⟨0, 0⟩

/-- The elements `s[0]`, ..., `s[len(s)-1]` of a slice. -/
def Memory.elems (m : Memory) (s : Slice) : List Snapshot :=
  ((m.getD s.array []).drop s.offset).take s.len

/-- The assignment `s[i] = v` through a slice, also through a slice of the
same array resliced up to its capacity. -/
def Memory.store (m : Memory) (s : Slice) (i : Nat) (v : Snapshot) : Memory :=
  m.set s.array ((m.getD s.array []).set (s.offset + i) v)

/-- A sequence of assignments `s[i] = v` through one slice. -/
def Memory.storeMany (m : Memory) (s : Slice) : List (Nat × Snapshot) → Memory
  | [] => m
  | (i, v) :: rest => Memory.storeMany (m.store s i v) s rest

/-- The composite literal `[]Snapshot{}`: a slice of length and capacity 0, on a
new array that has no element. -/
def emptySlice (m : Memory) : Memory × Slice :=
  (m ++ [[]], ⟨m.length, 0, 0, 0⟩)

/-- The elements `xs` written into the array `a` from the position `pos` on. -/
def Memory.storeAll (m : Memory) (a pos : Nat) : List Snapshot → Memory
  | [] => m
  | x :: xs => Memory.storeAll (m.set a ((m.getD a []).set pos x)) a (pos + 1) xs

/-- The built-in `append(s, xs...)`: when the capacity of `s` suffices the
elements are written into its backing array after the last element of `s` and
the slice returned shares that array; otherwise a new array is allocated, with
the elements of `s` followed by `xs`, and the slice returned lies on it. The
capacity of a new array is at least the length needed and otherwise left to the
run time (`grow`). -/
def appendSlice (grow : Nat → Nat → Nat) (m : Memory) (s : Slice) (xs : List Snapshot) :
    Memory × Slice :=
  if s.len + xs.length ≤ s.cap then
    (m.storeAll s.array (s.offset + s.len) xs, ⟨s.array, s.offset, s.len + xs.length, s.cap⟩)
  else
    let newcap := max (s.len + xs.length) (grow s.cap (s.len + xs.length))
    (m ++ [m.elems s ++ xs ++ List.replicate (newcap - (s.len + xs.length)) Snapshot.zero],
      ⟨m.length, 0, s.len + xs.length, newcap⟩)

/-- The detector as it lies in memory: its field `history` is a slice. -/
structure DetectorRef where
  history : Slice
  windowDuration : Int
  oscillationThreshold : Int
  dropThreshold : ℚ
deriving DecidableEq

/-- The state of a detector in a memory: the elements of its history and its
configuration. -/
def DetectorRef.view (r : DetectorRef) (m : Memory) : Detector :=
  ⟨m.elems r.history, r.windowDuration, r.oscillationThreshold, r.dropThreshold⟩

/-- Detector.GetHistory returns the current history for debugging:
`return append([]Snapshot{}, d.history...)`. The method assigns to no field of
the detector; it returns the memory after the call and the slice handed to the
caller. -/
def GetHistory (grow : Nat → Nat → Nat) (m : Memory) (d : DetectorRef) : Memory × Slice :=
  let empty := emptySlice m
  appendSlice grow empty.1 empty.2 (empty.1.elems d.history)

/-! ## Sequences of calls -/

/-- One call `IsTransientIssue(count)` with the two clock readings it makes. -/
structure Call where
  count : Int
  now1 : Int
  now2 : Int
deriving DecidableEq, Repr

/-- The snapshot a call appends to the history. -/
def snapshotOf (c : Call) : Snapshot :=
  ⟨c.count, c.now1⟩

/-- The loops of the tests, `for _, count := range counts`: feeds the calls to
the detector one after the other and collects what each call returns. -/
def runDetector (F : Formatter) : Detector → List Call → Detector × List (Bool × String)
  | d, [] => (d, [])
  | d, c :: rest =>
    let r := IsTransientIssue F d c.count c.now1 c.now2
    let rr := runDetector F r.1 rest
    (rr.1, r.2 :: rr.2)

/-! ## Vocabulary of the statements -/

/-- Number of adjacent pairs of history entries whose counts differ. -/
def adjacentChanges (h : List Snapshot) : Nat :=
  ((h.zip h.tail).filter (fun p => decide (p.1.ItemCount ≠ p.2.ItemCount))).length

/-- The mean of the counts of all entries of a history but the newest, as the
code computes it: the sum is a Go `int`, the sum and the number of entries are
converted to `float64` and divided. -/
def priorMean (h : List Snapshot) : ℚ :=
  toFloat64 (toFloat64 ((wrapInt (h.dropLast.map Snapshot.ItemCount).sum : Int) : ℚ)
    / toFloat64 ((h.dropLast.length : Nat) : ℚ))

/-- The relative decrease `(m - currentCount) / m` from the prior mean `m`, as
the code computes it in `float64`. -/
def priorDecrease (h : List Snapshot) (currentCount : Int) : ℚ :=
  toFloat64 (toFloat64 (priorMean h - toFloat64 (currentCount : ℚ)) / priorMean h)

/-- The arithmetic mean of the counts of all entries of a history but the
newest, as the specification states it: in exact arithmetic. -/
def exactMean (h : List Snapshot) : ℚ :=
  (((h.dropLast.map Snapshot.ItemCount).sum : Int) : ℚ) / ((h.dropLast.length : Nat) : ℚ)

/-- The relative decrease `(m - currentCount) / m` from the arithmetic mean `m`,
as the specification states it: in exact arithmetic. -/
def exactDecrease (h : List Snapshot) (currentCount : Int) : ℚ :=
  (exactMean h - (currentCount : ℚ)) / exactMean h

/-- All the calls of a sequence stay inside one detection window of length `w`:
no cut-off used by a call of the sequence reaches the snapshot of another. -/
def insideWindow (w : Int) (calls : List Call) : Prop :=
  ∀ c ∈ calls, ∀ c1 ∈ calls, c1.now2 - w < c.now1

instance (w : Int) (calls : List Call) : Decidable (insideWindow w calls) := by
  unfold insideWindow
  infer_instance

/-- Two decimal digits of a number below one hundred. -/
def twoDigits (n : Int) : String :=
  (if n < 10 then "0" else "") ++ toString n

/-- A formatting on which the definitions can be evaluated: `%.0f` rounds to the
nearest integer (ties to even, sign kept), the time of day is taken in UTC from
a clock that counts nanoseconds since the epoch. -/
def utcFormatter : Formatter :=
  ⟨fun q => (if q < 0 then "-" else "") ++ toString (roundHalfEven |q|),
   fun t =>
    let s := (t / 1000000000) % 86400
    twoDigits (s / 3600) ++ ":" ++ twoDigits ((s % 3600) / 60) ++ ":" ++ twoDigits (s % 60)⟩

/-- Ten minutes in nanoseconds, the window of the tests. -/
def tenMinutes : Int := 10 * Minute

/-- The constant `0.1` of the tests: the `float64` nearest to 1/10. -/
def float01 : ℚ := 3602879701896397 / 36028797018963968

/-- The constant `0.3` of the tests: the `float64` nearest to 3/10. -/
def float03 : ℚ := 5404319552844595 / 18014398509481984

/-- The constant `0.6` of the tests: the `float64` nearest to 6/10. -/
def float06 : ℚ := 5404319552844595 / 9007199254740992

/-- The largest Go `int`, `math.MaxInt64`. -/
def MaxInt64 : Int := 9223372036854775807

/-- Calls made one second apart from time 0, each reading the clock at one instant. -/
def callsOf (counts : List Int) : List Call :=
  (List.range counts.length).zipWith (fun i c => ⟨c, 1000000000 * (i : Int), 1000000000 * (i : Int)⟩)
    counts

/-! ## States used by the examples -/

/-- Three stable observations of 12 one second apart, thresholds `(2, 0.5)`. -/
def stable12 : Detector :=
  ⟨[⟨12, 0⟩, ⟨12, 1000000000⟩, ⟨12, 2000000000⟩], tenMinutes, 2, 1 / 2⟩

/-- The history 12, 11, 12 of the lenient test case, thresholds `(3, 0.5)`. -/
def flapping : Detector :=
  ⟨[⟨12, 0⟩, ⟨11, 1000000000⟩, ⟨12, 2000000000⟩], tenMinutes, 3, 1 / 2⟩

/-- The history 12, 6, 12 of a flapping upstream, thresholds `(2, 0.3)`. -/
def swinging : Detector :=
  ⟨[⟨12, 0⟩, ⟨6, 1000000000⟩, ⟨12, 2000000000⟩], tenMinutes, 2, float03⟩

/-- An observation of 0 with both clock readings at instant 0. -/
def zeroCall : Call := ⟨0, 0, 0⟩

/-- Two observations of 12 followed by `n` observations of 0, all of them made
at instant 0 (the clock does not advance, so nothing leaves the window). -/
def dropToZero (n : Nat) : List Call :=
  List.replicate 2 ⟨12, 0, 0⟩ ++ List.replicate n zeroCall

/-- The detector of the expiration test before the sleep: window of one second,
two observations made in the first tenth of a second. -/
def expired : Detector :=
  ⟨[⟨12, 0⟩, ⟨6, 100000000⟩], 1000000000, 2, float03⟩

/-- The detector of the tests, thresholds `(2, 0.3)` and a window of ten minutes. -/
def testDetector : Detector :=
  NewDetector tenMinutes 2 float03

/-! ## Cache (cache.go) -/

/-- Cache stores the last known good Fleet API response. A Go slice is `none`
when it is the nil slice and `some l` when it is a non-nil slice with the
elements `l`; `β` is the type of the elements (`*fleet.MembershipBinding`).
The mutex is left out: the calls are serialised. -/
structure Cache (β : Type) where
  membershipBindings : Option (List β)
  timestamp : Int
  maxAge : Int

/-- NewCache creates a new cache with specified TTL; the other fields have
their zero value. -/
def NewCache (β : Type) (maxAge : Int) : Cache β :=
  ⟨none, 0, maxAge⟩

/-- Cache.Get returns cached data if valid; `now` is the clock reading of
`time.Since`. The log line it prints is left out. -/
def Cache.Get {β : Type} (c : Cache β) (now : Int) : Option (List β) × Bool :=
  match c.membershipBindings with
  | none => (none, false)
  | some data =>
    let age := now - c.timestamp
    if age > c.maxAge then (none, false) else (some data, true)

/-- Cache.Set stores data in cache; `now` is the reading of `time.Now()`. -/
def Cache.Set {β : Type} (c : Cache β) (data : Option (List β)) (now : Int) : Cache β :=
  ⟨data, now, c.maxAge⟩

/-- Cache.Age returns age of cached data. -/
def Cache.Age {β : Type} (c : Cache β) (now : Int) : Int :=
  match c.membershipBindings with
  | none => 0
  | some _ => now - c.timestamp

/-- A sequence of `Set` calls, each with its data and the time it is made at. -/
def Cache.setAll {β : Type} (c : Cache β) : List (Option (List β) × Int) → Cache β
  | [] => c
  | (data, now) :: rest => Cache.setAll (c.Set data now) rest

/-- One hour in nanoseconds, the `maxAge` of the cache tests. -/
def hour : Int := 60 * Minute

/-- The constant `time.Millisecond`, in nanoseconds. -/
def Millisecond : Int := 1000000

/-- The names of the two bindings of the round-trip test, standing for the
records themselves. -/
def testData : List String :=
  ["projects/123/locations/us-central1/memberships/cluster1/bindings/binding1",
   "projects/123/locations/us-east4/memberships/cluster2/bindings/binding2"]

/-- A memory with one array of capacity 4 that holds the observations 12 and 6. -/
def testMemory : Memory :=
  [[⟨12, 0⟩, ⟨6, 1000000000⟩, Snapshot.zero, Snapshot.zero]]

/-- A detector whose history is the slice of length 2 on the array of `testMemory`. -/
def testDetectorRef : DetectorRef :=
  ⟨⟨0, 0, 2, 4⟩, tenMinutes, 2, float03⟩

/-- Three further observations of 12, made at seconds 3, 4 and 5. -/
def stableTail : List Call :=
  [⟨12, 3000000000, 3000000000⟩, ⟨12, 4000000000, 4000000000⟩, ⟨12, 5000000000, 5000000000⟩]

end Protection

/-! # The fleet client (fleetclient.go)

`FleetSync.Refresh` and the loops that build the two tenancy maps. A Go
`map[string][]string` is a function `String → Option (List String)`: `none`
means that the key is absent, and the slice read under an absent key is empty.
The Fleet API behind `c.svc` is a parameter (`FleetService`); the test double
`MockFleetService` of `fleetclient_test.go` is one such service. -/

namespace FleetClient

/-- The library function `strings.Split(s, sep)` for a separator of one
character, on the characters of `s`: the pieces between the separators, so that
a string without separator (the empty string too) gives one piece. -/
def splitChars (sep : Char) : List Char → List (List Char)
  | [] => [[]]
  | c :: cs =>
    if c = sep then [] :: splitChars sep cs
    else
      match splitChars sep cs with
      | [] => [[c]]
      | p :: ps => (c :: p) :: ps

/-- The call `strings.Split(s, "/")` and its like. -/
def stringsSplit (s : String) (sep : Char) : List String :=
  (splitChars sep s.data).map String.mk

/-- The call `strings.Join(parts, sep)`. -/
def stringsJoin (parts : List String) (sep : String) : String :=
  String.intercalate sep parts

/-- The field of `fleet.Membership` that `Refresh` reads. -/
structure Membership where
  Name : String

/-- The field of `fleet.Scope` that `Refresh` reads. -/
structure Scope where
  Name : String

/-- The fields of `fleet.MembershipBinding` that `Refresh` reads. -/
structure MembershipBinding where
  Name : String
  Scope : String
deriving DecidableEq, Repr

/-- The assignment `m[k] = v`. -/
def mapSet (m : String → Option (List String)) (k : String) (v : List String) :
    String → Option (List String) :=
  fun x => if x = k then some v else m x

/-- The read `m[k]`: the nil slice, here the empty list, when the key is absent. -/
def mapGet (m : String → Option (List String)) (k : String) : List String :=
  (m k).getD []

/-- The body of the loop over the bindings in `Refresh`: a binding whose name is
not of the 8-part form is skipped, and so is one whose scope splits into no
part; otherwise the last part of the scope is appended under the membership
and the membership under that scope ID. -/
def bindingStep (maps : (String → Option (List String)) × (String → Option (List String)))
    (binding : MembershipBinding) :
    (String → Option (List String)) × (String → Option (List String)) :=
  let bindingName := binding.Name
  let parts := stringsSplit bindingName '/'
  if parts.length ≠ 8 ∨ parts.getD 0 "" ≠ "projects" ∨ parts.getD 2 "" ≠ "locations" ∨
      parts.getD 4 "" ≠ "memberships" ∨ parts.getD 6 "" ≠ "bindings" then
    maps
  else
    let membership := stringsJoin (parts.take 6) "/"
    let scopeParts := stringsSplit binding.Scope '/'
    if scopeParts.length = 0 then
      maps
    else
      let scope := scopeParts.getD (scopeParts.length - 1) ""
      (mapSet maps.1 membership (mapGet maps.1 membership ++ [scope]),
        mapSet maps.2 scope (mapGet maps.2 scope ++ [membership]))

/-- The three loops of `Refresh`: every listed membership and every listed
scope gets an empty list, then the bindings are recorded. -/
def buildTenancyMaps (mems : List Membership) (scopes : List Scope)
    (mbs : List MembershipBinding) :
    (String → Option (List String)) × (String → Option (List String)) :=
  let memTenancyMap := mems.foldl (fun m mem => mapSet m mem.Name []) (fun _ => none)
  let scopeTenancyMap := scopes.foldl (fun m s => mapSet m s.Name []) (fun _ => none)
  mbs.foldl bindingStep (memTenancyMap, scopeTenancyMap)

/-- The three list calls of the Fleet API that `Refresh` makes, as transitions
of the state `σ` of the service; the first argument is the project number. -/
structure FleetService (σ : Type) where
  listMemberships : String → σ → Except String (List Membership) × σ
  listScopes : String → σ → Except String (List Scope) × σ
  listMembershipBindings : String → σ → Except String (List MembershipBinding) × σ

/-- FleetSync without its service handle: the project number and the two cached
maps (`none` is the nil map). -/
structure FleetSync where
  ProjectNum : String
  MembershipTenancyMapCache : Option (String → Option (List String))
  ScopeTenancyMapCache : Option (String → Option (List String))

/-- FleetSync.Refresh polls fleet API, rebuilds the local cached fleet topology
map, and updates cluster secrets. It returns the error (`none` is `nil`), the
new `FleetSync` and the new state of the service. The update of the cluster
secrets is the parameter `reconcileClusterSecrets`, of which only the error it
returns is kept. -/
def Refresh {σ : Type} (svc : FleetService σ) (reconcileClusterSecrets : FleetSync → Option String)
    (c : FleetSync) (s : σ) : (Option String × FleetSync) × σ :=
  match svc.listMemberships c.ProjectNum s with
  | (Except.error err, s1) => ((some ("failed to list memberships: " ++ err), c), s1)
  | (Except.ok mems, s1) =>
    match svc.listScopes c.ProjectNum s1 with
    | (Except.error err, s2) => ((some ("failed to list scopes: " ++ err), c), s2)
    | (Except.ok scopes, s2) =>
      match svc.listMembershipBindings c.ProjectNum s2 with
      | (Except.error err, s3) =>
        ((some ("failed to list membership bindings: " ++ err), c), s3)
      | (Except.ok mbs, s3) =>
        let maps := buildTenancyMaps mems scopes mbs
        let c1 : FleetSync := ⟨c.ProjectNum, some maps.1, some maps.2⟩
        match reconcileClusterSecrets c1 with
        | some err => ((some ("failed to reconcile cluster secrets: " ++ err), c1), s3)
        | none => ((none, c1), s3)

/-- The loop of `startReconcile` run `n` times: the errors of the successive
`Refresh` calls and the final state. -/
def refreshTimes {σ : Type} (svc : FleetService σ)
    (reconcileClusterSecrets : FleetSync → Option String) :
    Nat → FleetSync × σ → List (Option String) × (FleetSync × σ)
  | 0, st => ([], st)
  | n + 1, st =>
    let r := Refresh svc reconcileClusterSecrets st.1 st.2
    let rr := refreshTimes svc reconcileClusterSecrets n (r.1.2, r.2)
    (r.1.1 :: rr.1, rr.2)

/-- MockFleetService simulates Fleet API behavior (fleetclient_test.go); the
counts are natural numbers. -/
structure MockFleetService where
  shouldFail : Bool
  returnCount : Nat
  callCount : Nat
  oscillatePattern : List Nat
deriving DecidableEq, Repr

/-- The bindings generated by the mock: binding `i` of cluster `i` in scope `i`. -/
def mockBindings (n : Nat) : List MembershipBinding :=
  (List.range n).map (fun i =>
    ⟨"projects/123/locations/us-central1/memberships/cluster" ++ toString i ++ "/bindings/binding"
        ++ toString i,
      "projects/123/locations/global/scopes/scope" ++ toString i⟩)

/-- MockFleetService.ListMembershipBindings: counts the call, fails when
`shouldFail` is set, and otherwise returns as many bindings as the pattern, or
`returnCount`, says. -/
def MockFleetService.ListMembershipBindings (m : MockFleetService) :
    Except String (List MembershipBinding) × MockFleetService :=
  let callCount := m.callCount + 1
  if m.shouldFail then
    (Except.error "simulated API error", ⟨m.shouldFail, m.returnCount, callCount, m.oscillatePattern⟩)
  else
    let returnCount :=
      if m.oscillatePattern.length > 0 then
        m.oscillatePattern.getD ((callCount - 1) % m.oscillatePattern.length) 0
      else m.returnCount
    (Except.ok (mockBindings returnCount),
      ⟨m.shouldFail, returnCount, callCount, m.oscillatePattern⟩)

/-- The mock as a Fleet service: it lists no membership and no scope, and its
bindings are those of `ListMembershipBindings`. -/
def mockService : FleetService MockFleetService :=
  ⟨fun _ m => (Except.ok [], m), fun _ m => (Except.ok [], m),
    fun _ m => m.ListMembershipBindings⟩

/-- The mock of the incident replay test. -/
def incidentMock : MockFleetService :=
  ⟨false, 0, 0, [12, 12, 12, 12, 12, 12, 12, 6, 12, 12, 12]⟩

/-- A mock whose every call fails. -/
def failingMock : MockFleetService :=
  ⟨true, 12, 0, []⟩

/-- A FleetSync of project 123 before its first `Refresh`. -/
def emptyFleetSync : FleetSync :=
  ⟨"123", none, none⟩

/-- The read `c.ScopeTenancyMapCache[k]`, with `none` for an absent key. -/
def scopeKeys (c : FleetSync) (k : String) : Option (List String) :=
  match c.ScopeTenancyMapCache with
  | none => none
  | some m => m k

/-! ## Vocabulary of the statements -/

/-- The 8-part form `projects/_/locations/_/memberships/_/bindings/_` of a
binding name. -/
def wellFormedBindingName (name : String) : Prop :=
  let parts := stringsSplit name '/'
  parts.length = 8 ∧ parts.getD 0 "" = "projects" ∧ parts.getD 2 "" = "locations" ∧
    parts.getD 4 "" = "memberships" ∧ parts.getD 6 "" = "bindings"

instance (name : String) : Decidable (wellFormedBindingName name) := by
  unfold wellFormedBindingName
  infer_instance

/-- The membership name of a binding: its first six parts. -/
def membershipOf (binding : MembershipBinding) : String :=
  stringsJoin ((stringsSplit binding.Name '/').take 6) "/"

/-- The last part of a string split on the slash. -/
def lastSegment (s : String) : String :=
  (stringsSplit s '/').getLast?.getD ""

/-- The pairs (membership, scope ID) of the bindings with a well-formed name, in
the order of the bindings. -/
def recordedPairs (mbs : List MembershipBinding) : List (String × String) :=
  (mbs.filter (fun b => decide (wellFormedBindingName b.Name))).map
    (fun b => (membershipOf b, lastSegment b.Scope))

end FleetClient

/-! # The ClusterProfile syncer (argocd-clusterprofile-syncer/cmd/main.go)

A Go `map[string]string` (labels, annotations, data with its byte slices read
as strings) is an `Option (String → Option String)`: the outer `none` is the
nil map, the inner `none` an absent key. The Kubernetes client is the store of
the tests: a map from (namespace, name) to the secret, with the errors that the
test clients `errorClient` and `errorOnCreateClient` inject. -/

namespace Syncer

/-- The constant `argoCDNamespace`. -/
def argoCDNamespace : String := "argocd"

/-- The constant `argoCDSecretType`. -/
def argoCDSecretType : String := "argocd.argoproj.io/secret-type"

/-- The constant `managedByAnnotation`. -/
def managedByAnnotation : String := "multicluster.x-k8s.io/managed-by-cp-syncer"

/-- The constant `clusterProfileOrigin`. -/
def clusterProfileOrigin : String := "clusterprofile.x-k8s.io/origin"

/-- The constant `gkeEndpointAnnotation`. -/
def gkeEndpointAnnotation : String := "gateway.gke.io/endpoint"

/-- The constant `secretConfig`, a JSON text. -/
def secretConfig : String :=
  "\x7b\n\t\"execProviderConfig\": \x7b\n\t\t\"command\": \"argocd-k8s-auth\",\n\t\t\"args\": [\"gcp\"],\n\t\t\"apiVersion\": \"client.authentication.k8s.io/v1beta1\"\n\t\x7d,\n\t\"tlsClientConfig\": \x7b\n\t\t\"insecure\": false,\n\t\t\"caData\": \"\"\n\t\x7d\n\x7d"

/-- The constant `corev1.SecretTypeOpaque`. -/
def SecretTypeOpaque : String := "Opaque"

/-- The fields of `corev1.Secret` that the syncer reads or writes (`SecretType`
is the field `Type`). -/
structure Secret where
  Name : String
  Namespace : String
  Labels : Option (String → Option String)
  Annotations : Option (String → Option String)
  SecretType : String
  Data : Option (String → Option String)

/-- The fields of a ClusterProfile that the syncer reads. -/
structure ClusterProfile where
  Name : String
  Namespace : String
  Annotations : Option (String → Option String)

/-- The `ctrl.Request`: a namespaced name. -/
structure Request where
  Namespace : String
  Name : String

/-- The method `NamespacedName.String`: namespace, slash, name. -/
def Request.String (req : Request) : String :=
  req.Namespace ++ "/" ++ req.Name

/-- The read `m[k]` of a Go map of strings: the empty string when the map is nil
or the key is absent. -/
def mapIndex (m : Option (String → Option String)) (k : String) : String :=
  match m with
  | none => ""
  | some f => (f k).getD ""

/-- The read `v, ok := m[k]`: `none` when `ok` is false. -/
def mapIndexOk (m : Option (String → Option String)) (k : String) : Option String :=
  match m with
  | none => none
  | some f => f k

/-- The write `m[k] = v` on a non-nil map. -/
def mapAssign (f : String → Option String) (k v : String) : String → Option String :=
  fun x => if x = k then some v else f x

/-- An error of the client: whether `apierrors.IsNotFound` holds of it, and its text. -/
structure APIError where
  isNotFound : Bool
  message : String

/-- The client: the stored secrets by (namespace, name), the error every `Get`
returns (`errorClient`) and the error every `Create` returns
(`errorOnCreateClient`), if any. -/
structure Client where
  store : String × String → Option Secret
  getError : Option String
  createError : Option String

/-- The call `Get(ctx, key, obj)`: the object read carries the name and the
namespace of the key. -/
def Client.Get (c : Client) (key : String × String) : Except APIError Secret :=
  match c.getError with
  | some e => Except.error ⟨false, e⟩
  | none =>
    match c.store key with
    | none => Except.error ⟨true, "secrets \"" ++ key.2 ++ "\" not found"⟩
    | some s => Except.ok ⟨key.2, key.1, s.Labels, s.Annotations, s.SecretType, s.Data⟩

/-- The call `Delete(ctx, obj)`: removes the object stored under the key of `obj`. -/
def Client.Delete (c : Client) (obj : Secret) : Except APIError Client :=
  match c.store (obj.Namespace, obj.Name) with
  | none => Except.error ⟨true, "secrets \"" ++ obj.Name ++ "\" not found"⟩
  | some _ =>
    Except.ok ⟨fun k => if k = (obj.Namespace, obj.Name) then none else c.store k, c.getError,
      c.createError⟩

/-- The call `Create(ctx, obj)`. -/
def Client.Create (c : Client) (obj : Secret) : Except APIError Client :=
  match c.createError with
  | some e => Except.error ⟨false, e⟩
  | none =>
    match c.store (obj.Namespace, obj.Name) with
    | some _ => Except.error ⟨false, "secrets \"" ++ obj.Name ++ "\" already exists"⟩
    | none =>
      Except.ok ⟨fun k => if k = (obj.Namespace, obj.Name) then some obj else c.store k,
        c.getError, c.createError⟩

/-- The call `Update(ctx, obj)`. -/
def Client.Update (c : Client) (obj : Secret) : Except APIError Client :=
  match c.store (obj.Namespace, obj.Name) with
  | none => Except.error ⟨true, "secrets \"" ++ obj.Name ++ "\" not found"⟩
  | some _ =>
    Except.ok ⟨fun k => if k = (obj.Namespace, obj.Name) then some obj else c.store k,
      c.getError, c.createError⟩

/-- The function `isSecretManaged`. -/
def isSecretManaged (secret : Secret) (cpOrigin : String) : Bool :=
  match secret.Annotations with
  | none => false
  | some _ =>
    if mapIndex secret.Annotations managedByAnnotation ≠ "true" then false
    else decide (mapIndex secret.Annotations clusterProfileOrigin = cpOrigin)

/-- ClusterProfileReconciler.deleteClusterSecret removes the associated secret
if it exists and is managed by this controller. Returns the client after the
call and the error (`none` is `nil`). -/
def deleteClusterSecret (c : Client) (req : Request) : Client × Option String :=
  let secretName : String × String := (argoCDNamespace, req.Namespace ++ "." ++ req.Name)
  match c.Get secretName with
  | Except.error err =>
    if err.isNotFound then (c, none)
    else (c, some ("failed to get secret: " ++ err.message))
  | Except.ok secret =>
    if !isSecretManaged secret req.String then (c, none)
    else
      match c.Delete secret with
      | Except.error err => (c, some ("failed to delete secret: " ++ err.message))
      | Except.ok c1 => (c1, none)

/-- ClusterProfileReconciler.mutateSecret: the secret after the mutation and
the error, which is always `nil`. -/
def mutateSecret (secret : Secret) (cp : ClusterProfile) (serverURL secretName : String) :
    Secret × Option String :=
  let labels : String → Option String :=
    match secret.Labels with
    | none => fun _ => none
    | some f => f
  let labels := mapAssign labels argoCDSecretType "cluster"
  let annotations : String → Option String :=
    match secret.Annotations with
    | none => fun _ => none
    | some f => f
  let annotations := mapAssign annotations managedByAnnotation "true"
  let annotations := mapAssign annotations clusterProfileOrigin (cp.Namespace ++ "/" ++ cp.Name)
  let data : String → Option String :=
    mapAssign (mapAssign (mapAssign (fun _ => none) "name" secretName) "server" serverURL)
      "config" secretConfig
  (⟨secret.Name, secret.Namespace, some labels, some annotations, SecretTypeOpaque, some data⟩,
    none)

/-- The helper `mutate` of the library package controllerutil: runs the mutate
function and rejects a change of the object key. -/
def mutate (f : Secret → Secret × Option String) (key : String × String) (obj : Secret) :
    Secret × Option String :=
  match f obj with
  | (obj1, some err) => (obj1, some err)
  | (obj1, none) =>
    if (obj1.Namespace, obj1.Name) ≠ key then
      (obj1, some "MutateFn cannot mutate object name and/or object namespace")
    else (obj1, none)

/-- The library function `controllerutil.CreateOrUpdate`: reads the object;
when it is not found, mutates the given object and creates it; when it is
found, mutates the object read and updates it (the library skips the update of
an object the mutation left equal, which leaves the same store). -/
def CreateOrUpdate (c : Client) (obj : Secret) (f : Secret → Secret × Option String) :
    Client × Option String :=
  let key : String × String := (obj.Namespace, obj.Name)
  match c.Get key with
  | Except.error err =>
    if !err.isNotFound then (c, some err.message)
    else
      match mutate f key obj with
      | (_, some e) => (c, some e)
      | (obj1, none) =>
        match c.Create obj1 with
        | Except.error e => (c, some e.message)
        | Except.ok c1 => (c1, none)
  | Except.ok existing =>
    match mutate f key existing with
    | (_, some e) => (c, some e)
    | (obj1, none) =>
      match c.Update obj1 with
      | Except.error e => (c, some e.message)
      | Except.ok c1 => (c1, none)

/-- ClusterProfileReconciler.createOrUpdateClusterSecret. Returns the client
after the call and the error (`none` is `nil`). -/
def createOrUpdateClusterSecret (c : Client) (cp : ClusterProfile) : Client × Option String :=
  match mapIndexOk cp.Annotations gkeEndpointAnnotation with
  | none =>
    (c, some ("cluster endpoint annotation \"" ++ gkeEndpointAnnotation ++ "\" not found"))
  | some serverURL =>
    let secretName := cp.Namespace ++ "." ++ cp.Name
    let secret : Secret := ⟨secretName, argoCDNamespace, none, none, "", none⟩
    match CreateOrUpdate c secret (fun s => mutateSecret s cp serverURL secretName) with
    | (c1, some err) => (c1, some ("failed to create/update secret: " ++ err))
    | (c1, none) => (c1, none)

/-! ## Vocabulary and examples -/

/-- The secret found under the key of a ClusterProfile, carrying that key, or
the empty secret of that key when there is none: what `mutateSecret` is run on. -/
def secretBefore (c : Client) (cp : ClusterProfile) : Secret :=
  match c.store (argoCDNamespace, cp.Namespace ++ "." ++ cp.Name) with
  | none => ⟨cp.Namespace ++ "." ++ cp.Name, argoCDNamespace, none, none, "", none⟩
  | some s =>
    ⟨cp.Namespace ++ "." ++ cp.Name, argoCDNamespace, s.Labels, s.Annotations, s.SecretType,
      s.Data⟩

/-- A secret that carries the managed-by annotation and no origin annotation. -/
def originlessSecret : Secret :=
  ⟨"test-namespace.test-name", argoCDNamespace, none,
    some (mapAssign (fun _ => none) managedByAnnotation "true"), SecretTypeOpaque, none⟩

/-- The managed secret of the tests. -/
def managedSecret : Secret :=
  ⟨"test-namespace.test-name", argoCDNamespace, none,
    some (mapAssign (mapAssign (fun _ => none) managedByAnnotation "true") clusterProfileOrigin
      "test-namespace/test-name"), SecretTypeOpaque, none⟩

/-- The fake client with no object. -/
def emptyClient : Client :=
  ⟨fun _ => none, none, none⟩

/-- The fake client holding one secret. -/
def clientWith (s : Secret) : Client :=
  ⟨fun k => if k = (s.Namespace, s.Name) then some s else none, none, none⟩

/-- The ClusterProfile of the tests, with its endpoint annotation. -/
def testProfile : ClusterProfile :=
  ⟨"test-name", "test-namespace",
    some (mapAssign (fun _ => none) gkeEndpointAnnotation "https://test-server")⟩

/-- The request of the tests. -/
def testRequest : Request :=
  ⟨"test-namespace", "test-name"⟩

end Syncer

namespace Protection

/-! ## Rounding to the nearest integer -/

theorem roundHalfEven_cases (z : ℚ) :
    roundHalfEven z = Int.floor z ∧ z - (Int.floor z : ℚ) ≤ 1 / 2 ∨
      roundHalfEven z = Int.floor z + 1 ∧ 1 / 2 ≤ z - (Int.floor z : ℚ) := by
  unfold roundHalfEven
  simp only
  split_ifs with h1 h2 h3
  · exact Or.inl ⟨rfl, le_of_lt h1⟩
  · exact Or.inr ⟨rfl, le_of_lt h2⟩
  · exact Or.inl ⟨rfl, not_lt.mp h2⟩
  · exact Or.inr ⟨rfl, not_lt.mp h1⟩

theorem roundHalfEven_intCast (n : Int) : roundHalfEven (n : ℚ) = n := by
  unfold roundHalfEven
  simp

theorem roundHalfEven_sub_le (z : ℚ) : |(roundHalfEven z : ℚ) - z| ≤ 1 / 2 := by
  have h1 := Int.floor_le z
  have h2 := Int.lt_floor_add_one z
  rcases roundHalfEven_cases z with ⟨h, hr⟩ | ⟨h, hr⟩
  · rw [h, abs_le]
    constructor <;> linarith
  · rw [h, abs_le]
    push_cast
    constructor <;> linarith

theorem roundHalfEven_le_of_le (z : ℚ) (n : Int) (h : z ≤ (n : ℚ)) : roundHalfEven z ≤ n := by
  have h1 := Int.floor_le z
  rcases roundHalfEven_cases z with ⟨e, _⟩ | ⟨e, hr⟩
  · rw [e]
    exact_mod_cast le_trans h1 h
  · rw [e]
    have : ((Int.floor z : Int) : ℚ) < (n : ℚ) := by linarith
    have : Int.floor z < n := by exact_mod_cast this
    omega

theorem le_roundHalfEven_of_le (z : ℚ) (n : Int) (h : (n : ℚ) ≤ z) : n ≤ roundHalfEven z := by
  have h1 : n ≤ Int.floor z := Int.le_floor.mpr h
  rcases roundHalfEven_cases z with ⟨e, _⟩ | ⟨e, _⟩
  · rw [e]; exact h1
  · rw [e]; omega

theorem roundHalfEven_eq_of_lt (z : ℚ) (n : Int) (h : |z - (n : ℚ)| < 1 / 2) :
    roundHalfEven z = n := by
  have h1 := roundHalfEven_sub_le z
  rw [abs_lt] at h
  rw [abs_le] at h1
  have h2 : ((roundHalfEven z : Int) : ℚ) < (n : ℚ) + 1 := by linarith
  have h3 : (n : ℚ) - 1 < ((roundHalfEven z : Int) : ℚ) := by linarith
  have h4 : roundHalfEven z < n + 1 := by exact_mod_cast h2
  have h5 : n - 1 < roundHalfEven z := by exact_mod_cast h3
  omega

/-- A tie goes to the even neighbour. -/
theorem roundHalfEven_tie (n : Int) :
    roundHalfEven ((n : ℚ) + 1 / 2) = if n % 2 = 0 then n else n + 1 := by
  have hf : Int.floor ((n : ℚ) + 1 / 2) = n := by
    rw [Int.floor_eq_iff]
    constructor <;> norm_num
  unfold roundHalfEven
  simp only [hf]
  have hr : (n : ℚ) + 1 / 2 - (n : ℚ) = 1 / 2 := by ring
  rw [hr]
  simp

/-! ## Rounding to binary64 -/

theorem toFloat64_zero : toFloat64 0 = 0 := by
  simp [toFloat64]

theorem log_two_eq (x : ℚ) (e : Int) (h1 : (2 : ℚ) ^ e ≤ x) (h2 : x < (2 : ℚ) ^ (e + 1)) :
    Int.log 2 x = e := by
  have hx : 0 < x := lt_of_lt_of_le (by positivity) h1
  have ha : e ≤ Int.log 2 x := by
    have := (Int.zpow_le_iff_le_log (b := 2) (by norm_num) hx (x := e)).mp (by exact_mod_cast h1)
    exact this
  have hb : Int.log 2 x < e + 1 := by
    have := (Int.lt_zpow_iff_log_lt (b := 2) (by norm_num) hx (x := e + 1)).mp
      (by exact_mod_cast h2)
    exact this
  omega

theorem toFloat64_of_binade (x : ℚ) (e : Int) (h1 : (2 : ℚ) ^ e ≤ |x|)
    (h2 : |x| < (2 : ℚ) ^ (e + 1)) :
    toFloat64 x = (roundHalfEven (x / (2 : ℚ) ^ (e - 52)) : ℚ) * (2 : ℚ) ^ (e - 52) := by
  have hx : x ≠ 0 := by
    intro h
    rw [h, abs_zero] at h1
    have : (0 : ℚ) < (2 : ℚ) ^ e := by positivity
    linarith
  unfold toFloat64
  rw [if_neg hx]
  simp only [log_two_eq |x| e h1 h2]

/-- Every non-zero number lies in a binade. -/
theorem binade_exists (x : ℚ) (hx : x ≠ 0) :
    (2 : ℚ) ^ (Int.log 2 |x|) ≤ |x| ∧ |x| < (2 : ℚ) ^ (Int.log 2 |x| + 1) := by
  have hpos : 0 < |x| := abs_pos.mpr hx
  constructor
  · have := Int.zpow_log_le_self (b := 2) (by norm_num) hpos
    exact_mod_cast this
  · have := Int.lt_zpow_succ_log_self (b := 2) (by norm_num) |x|
    exact_mod_cast this

theorem roundHalfEven_neg (z : ℚ) : roundHalfEven (-z) = - roundHalfEven z := by
  by_cases hint : (Int.floor z : ℚ) = z
  · rw [← hint, ← Int.cast_neg, roundHalfEven_intCast, roundHalfEven_intCast]
  · have h1 := Int.floor_le z
    have h2 := Int.lt_floor_add_one z
    have hlt : (Int.floor z : ℚ) < z := lt_of_le_of_ne h1 hint
    have hf : Int.floor (-z) = - Int.floor z - 1 := by
      rw [Int.floor_eq_iff]
      push_cast
      constructor <;> linarith
    unfold roundHalfEven
    simp only [hf]
    push_cast
    have e1 : -z - (-(Int.floor z : ℚ) - 1) = 1 - (z - (Int.floor z : ℚ)) := by ring
    rw [e1]
    generalize hr : z - (Int.floor z : ℚ) = r
    generalize Int.floor z = f
    rcases lt_trichotomy r (1 / 2) with h | h | h
    · have h3 : ¬ (1 - r < 1 / 2) := by linarith
      have h4 : 1 / 2 < 1 - r := by linarith
      rw [if_neg h3, if_pos h4, if_pos h]
      ring
    · have h3 : ¬ (1 - r < 1 / 2) := by rw [h]; norm_num
      have h4 : ¬ (1 / 2 < 1 - r) := by rw [h]; norm_num
      have h5 : ¬ (r < 1 / 2) := by rw [h]; norm_num
      have h6 : ¬ (1 / 2 < r) := by rw [h]; norm_num
      rw [if_neg h3, if_neg h4, if_neg h5, if_neg h6]
      by_cases hp : f % 2 = 0
      · have : ¬ ((-f - 1) % 2 = 0) := by omega
        rw [if_neg this, if_pos hp]
        ring
      · have : (-f - 1) % 2 = 0 := by omega
        rw [if_pos this, if_neg hp]
        ring
    · have h3 : 1 - r < 1 / 2 := by linarith
      have h5 : ¬ (r < 1 / 2) := by linarith
      rw [if_pos h3, if_neg h5, if_pos h]
      ring

theorem toFloat64_neg (x : ℚ) : toFloat64 (-x) = - toFloat64 x := by
  unfold toFloat64
  by_cases hx : x = 0
  · simp [hx]
  · have hx2 : -x ≠ 0 := neg_ne_zero.mpr hx
    rw [if_neg hx, if_neg hx2]
    simp only [abs_neg, neg_div, roundHalfEven_neg]
    push_cast
    ring

/-- The significand of a rounded number has at most 53 bits. -/
theorem roundHalfEven_significand (x : ℚ) (e : Int) (h2 : |x| < (2 : ℚ) ^ (e + 1)) :
    |roundHalfEven (x / (2 : ℚ) ^ (e - 52))| ≤ 9007199254740992 := by
  have hu : (0 : ℚ) < (2 : ℚ) ^ (e - 52) := by positivity
  have hq : |x / (2 : ℚ) ^ (e - 52)| < 9007199254740992 := by
    rw [abs_div, abs_of_pos hu, div_lt_iff₀ hu]
    have : (9007199254740992 : ℚ) * (2 : ℚ) ^ (e - 52) = (2 : ℚ) ^ (e + 1) := by
      have : (9007199254740992 : ℚ) = (2 : ℚ) ^ (53 : Int) := by norm_num
      rw [this, ← zpow_add₀ (by norm_num : (2 : ℚ) ≠ 0)]
      congr 1
      ring
    rw [this]
    exact h2
  rw [abs_lt] at hq
  rw [abs_le]
  constructor
  · apply le_roundHalfEven_of_le
    push_cast
    linarith
  · apply roundHalfEven_le_of_le
    push_cast
    linarith

/-- Every rounded number is a significand of at most 53 bits times a power of two. -/
theorem toFloat64_exists (x : ℚ) :
    ∃ m k : Int, |m| ≤ 9007199254740992 ∧ toFloat64 x = (m : ℚ) * (2 : ℚ) ^ k ∧
      (x ≠ 0 → k = Int.log 2 |x| - 52) := by
  by_cases hx : x = 0
  · exact ⟨0, 0, by norm_num, by simp [hx, toFloat64_zero], fun h => absurd hx h⟩
  · obtain ⟨h1, h2⟩ := binade_exists x hx
    refine ⟨roundHalfEven (x / (2 : ℚ) ^ (Int.log 2 |x| - 52)), Int.log 2 |x| - 52,
      roundHalfEven_significand x _ h2, toFloat64_of_binade x _ h1 h2, fun _ => rfl⟩

/-- A significand below `2^53` times a power of two is not rounded. -/
theorem toFloat64_mul_zpow_of_lt (m k : Int) (hm : |m| < 9007199254740992) :
    toFloat64 ((m : ℚ) * (2 : ℚ) ^ k) = (m : ℚ) * (2 : ℚ) ^ k := by
  by_cases h0 : m = 0
  · simp [h0, toFloat64_zero]
  · have hp : (0 : ℚ) < (2 : ℚ) ^ k := by positivity
    have hx : (m : ℚ) * (2 : ℚ) ^ k ≠ 0 := by
      apply mul_ne_zero
      · exact_mod_cast h0
      · exact ne_of_gt hp
    obtain ⟨h1, h2⟩ := binade_exists _ hx
    rw [toFloat64_of_binade _ _ h1 h2]
    generalize Int.log 2 |(m : ℚ) * (2 : ℚ) ^ k| = e at h1 h2
    -- the exponent is at most `k + 52`
    have habs : |(m : ℚ) * (2 : ℚ) ^ k| = (|m| : Int) * (2 : ℚ) ^ k := by
      rw [abs_mul, abs_of_pos hp]
      push_cast
      rfl
    have hmq : ((|m| : Int) : ℚ) < 9007199254740992 := by exact_mod_cast hm
    have hlt : (2 : ℚ) ^ e < (2 : ℚ) ^ (k + 53) := by
      calc (2 : ℚ) ^ e ≤ |(m : ℚ) * (2 : ℚ) ^ k| := h1
        _ = ((|m| : Int) : ℚ) * (2 : ℚ) ^ k := habs
        _ < 9007199254740992 * (2 : ℚ) ^ k := by
          exact mul_lt_mul_of_pos_right hmq hp
        _ = (2 : ℚ) ^ (k + 53) := by
          have : (9007199254740992 : ℚ) = (2 : ℚ) ^ (53 : Int) := by norm_num
          rw [this, ← zpow_add₀ (by norm_num : (2 : ℚ) ≠ 0)]
          congr 1
          ring
    have hek : e < k + 53 := (zpow_lt_zpow_iff_right₀ (by norm_num : (1 : ℚ) < 2)).mp hlt
    obtain ⟨j, hj⟩ : ∃ j : Nat, (j : Int) = k - (e - 52) := ⟨(k - (e - 52)).toNat, by omega⟩
    have hq : (m : ℚ) * (2 : ℚ) ^ k / (2 : ℚ) ^ (e - 52) = ((m * 2 ^ j : Int) : ℚ) := by
      have hk : k = (e - 52) + (j : Int) := by omega
      have hu : (2 : ℚ) ^ (e - 52) ≠ 0 := by positivity
      rw [hk, zpow_add₀ (by norm_num : (2 : ℚ) ≠ 0)]
      push_cast
      rw [zpow_natCast]
      field_simp
      ring
    rw [hq, roundHalfEven_intCast]
    have hk : k = (e - 52) + (j : Int) := by omega
    rw [hk, zpow_add₀ (by norm_num : (2 : ℚ) ≠ 0)]
    push_cast
    rw [zpow_natCast]
    ring

/-- A significand of at most 53 bits times a power of two is not rounded. -/
theorem toFloat64_mul_zpow (m k : Int) (hm : |m| ≤ 9007199254740992) :
    toFloat64 ((m : ℚ) * (2 : ℚ) ^ k) = (m : ℚ) * (2 : ℚ) ^ k := by
  by_cases hlt : |m| < 9007199254740992
  · exact toFloat64_mul_zpow_of_lt m k hlt
  · have he : |m| = 9007199254740992 := by omega
    obtain ⟨m1, hm1⟩ : ∃ m1 : Int, m = 2 * m1 := by
      rcases abs_eq (by norm_num : (0 : Int) ≤ 9007199254740992) |>.mp he with h | h
      · exact ⟨4503599627370496, by rw [h]; norm_num⟩
      · exact ⟨-4503599627370496, by rw [h]; norm_num⟩
    have hm2 : |m1| < 9007199254740992 := by
      rw [hm1, abs_mul] at he
      norm_num at he
      omega
    have e1 : (m : ℚ) * (2 : ℚ) ^ k = (m1 : ℚ) * (2 : ℚ) ^ (k + 1) := by
      rw [hm1, zpow_add₀ (by norm_num : (2 : ℚ) ≠ 0)]
      push_cast
      ring
    rw [e1]
    exact toFloat64_mul_zpow_of_lt m1 (k + 1) hm2

theorem toFloat64_intCast (z : Int) (hz : |z| ≤ 9007199254740992) :
    toFloat64 (z : ℚ) = (z : ℚ) := by
  have := toFloat64_mul_zpow z 0 hz
  simpa using this

theorem toFloat64_idem (x : ℚ) : toFloat64 (toFloat64 x) = toFloat64 x := by
  obtain ⟨m, k, hm, h, _⟩ := toFloat64_exists x
  rw [h]
  exact toFloat64_mul_zpow m k hm

/-- The relative error of one rounding is at most `2^-53`. -/
theorem toFloat64_sub_le (x : ℚ) : |toFloat64 x - x| ≤ |x| / 9007199254740992 := by
  by_cases hx : x = 0
  · simp [hx, toFloat64_zero]
  · obtain ⟨h1, h2⟩ := binade_exists x hx
    rw [toFloat64_of_binade x _ h1 h2]
    generalize Int.log 2 |x| = e at h1 h2
    have hu : (0 : ℚ) < (2 : ℚ) ^ (e - 52) := by positivity
    have hr := roundHalfEven_sub_le (x / (2 : ℚ) ^ (e - 52))
    have e1 : (roundHalfEven (x / (2 : ℚ) ^ (e - 52)) : ℚ) * (2 : ℚ) ^ (e - 52) - x
        = ((roundHalfEven (x / (2 : ℚ) ^ (e - 52)) : ℚ) - x / (2 : ℚ) ^ (e - 52))
          * (2 : ℚ) ^ (e - 52) := by
      field_simp
    rw [e1, abs_mul, abs_of_pos hu]
    have e2 : (2 : ℚ) ^ e = 4503599627370496 * (2 : ℚ) ^ (e - 52) := by
      have : (4503599627370496 : ℚ) = (2 : ℚ) ^ (52 : Int) := by norm_num
      rw [this, ← zpow_add₀ (by norm_num : (2 : ℚ) ≠ 0)]
      congr 1
      ring
    rw [e2] at h1
    have h3 : |(roundHalfEven (x / (2 : ℚ) ^ (e - 52)) : ℚ) - x / (2 : ℚ) ^ (e - 52)|
        * (2 : ℚ) ^ (e - 52) ≤ 1 / 2 * (2 : ℚ) ^ (e - 52) :=
      mul_le_mul_of_nonneg_right hr (le_of_lt hu)
    rw [le_div_iff₀ (by norm_num : (0 : ℚ) < 9007199254740992)]
    nlinarith

theorem toFloat64_pos (x : ℚ) (hx : 0 < x) : 0 < toFloat64 x := by
  have h := toFloat64_sub_le x
  rw [abs_of_pos hx, abs_le] at h
  have : x / 9007199254740992 < x := by
    rw [div_lt_iff₀ (by norm_num : (0 : ℚ) < 9007199254740992)]
    linarith
  linarith

/-- Rounding does not cross a binary64 number: from below. -/
theorem toFloat64_le_of_le (x y : ℚ) (hy : toFloat64 y = y) (h : x ≤ y) : toFloat64 x ≤ y := by
  by_cases hx : x = 0
  · rw [hx, toFloat64_zero]
    rw [hx] at h
    exact h
  obtain ⟨h1, h2⟩ := binade_exists x hx
  rw [toFloat64_of_binade x _ h1 h2]
  generalize Int.log 2 |x| = e at h1 h2
  have hu : (0 : ℚ) < (2 : ℚ) ^ (e - 52) := by positivity
  have e2 : (2 : ℚ) ^ e = 4503599627370496 * (2 : ℚ) ^ (e - 52) := by
    have : (4503599627370496 : ℚ) = (2 : ℚ) ^ (52 : Int) := by norm_num
    rw [this, ← zpow_add₀ (by norm_num : (2 : ℚ) ≠ 0)]
    congr 1
    ring
  by_cases hy0 : y = 0
  · -- `x ≤ 0`
    rw [hy0] at h ⊢
    have : roundHalfEven (x / (2 : ℚ) ^ (e - 52)) ≤ 0 := by
      apply roundHalfEven_le_of_le
      push_cast
      exact div_nonpos_of_nonpos_of_nonneg h (le_of_lt hu)
    have : ((roundHalfEven (x / (2 : ℚ) ^ (e - 52)) : Int) : ℚ) ≤ 0 := by exact_mod_cast this
    exact mul_nonpos_of_nonpos_of_nonneg this (le_of_lt hu)
  obtain ⟨g1, g2⟩ := binade_exists y hy0
  obtain ⟨m, k, hm, hmk, hk⟩ := toFloat64_exists y
  rw [hy] at hmk
  have hk2 := hk hy0
  generalize Int.log 2 |y| = ey at g1 g2 hk2
  by_cases hee : e ≤ ey
  · -- `y` is a multiple of the unit of `x`
    obtain ⟨j, hj⟩ : ∃ j : Nat, (j : Int) = k - (e - 52) := ⟨(k - (e - 52)).toNat, by omega⟩
    have hyq : y / (2 : ℚ) ^ (e - 52) = ((m * 2 ^ j : Int) : ℚ) := by
      have hkk : k = (e - 52) + (j : Int) := by omega
      have hu0 : (2 : ℚ) ^ (e - 52) ≠ 0 := by positivity
      rw [hmk, hkk, zpow_add₀ (by norm_num : (2 : ℚ) ≠ 0)]
      push_cast
      rw [zpow_natCast]
      field_simp
      ring
    have hle : roundHalfEven (x / (2 : ℚ) ^ (e - 52)) ≤ m * 2 ^ j := by
      apply roundHalfEven_le_of_le
      rw [← hyq]
      exact div_le_div_of_nonneg_right h (le_of_lt hu)
    have hle2 : ((roundHalfEven (x / (2 : ℚ) ^ (e - 52)) : Int) : ℚ) ≤ y / (2 : ℚ) ^ (e - 52) := by
      rw [hyq]
      exact_mod_cast hle
    calc ((roundHalfEven (x / (2 : ℚ) ^ (e - 52)) : Int) : ℚ) * (2 : ℚ) ^ (e - 52)
        ≤ y / (2 : ℚ) ^ (e - 52) * (2 : ℚ) ^ (e - 52) :=
          mul_le_mul_of_nonneg_right hle2 (le_of_lt hu)
      _ = y := by field_simp
  · -- `|y| < 2^e ≤ |x|` and `x ≤ y`, so `x ≤ -2^e`
    have hlt : ey + 1 ≤ e := by omega
    have hpow : (2 : ℚ) ^ (ey + 1) ≤ (2 : ℚ) ^ e :=
      (zpow_le_zpow_iff_right₀ (by norm_num : (1 : ℚ) < 2)).mpr hlt
    have hyx : |y| < |x| := lt_of_lt_of_le g2 (le_trans hpow h1)
    have hxneg : x < 0 := by
      by_contra hc
      push_neg at hc
      have hy1 : 0 ≤ y := le_trans hc h
      rw [abs_of_nonneg hc, abs_of_nonneg hy1] at hyx
      linarith
    rw [abs_of_neg hxneg] at h1
    have hq : x / (2 : ℚ) ^ (e - 52) ≤ ((-4503599627370496 : Int) : ℚ) := by
      rw [div_le_iff₀ hu]
      push_cast
      rw [e2] at h1
      linarith
    have hle := roundHalfEven_le_of_le _ _ hq
    have hle2 : ((roundHalfEven (x / (2 : ℚ) ^ (e - 52)) : Int) : ℚ) ≤ -4503599627370496 := by
      exact_mod_cast hle
    have h3 : ((roundHalfEven (x / (2 : ℚ) ^ (e - 52)) : Int) : ℚ) * (2 : ℚ) ^ (e - 52)
        ≤ -4503599627370496 * (2 : ℚ) ^ (e - 52) :=
      mul_le_mul_of_nonneg_right hle2 (le_of_lt hu)
    have h4 : -(2 : ℚ) ^ e ≤ y := by
      have := neg_abs_le y
      have : |y| ≤ (2 : ℚ) ^ e := le_of_lt (lt_of_lt_of_le g2 hpow)
      linarith [neg_abs_le y]
    rw [e2] at h4
    linarith

/-- Rounding does not cross a binary64 number: from above. -/
theorem le_toFloat64_of_le (x y : ℚ) (hy : toFloat64 y = y) (h : y ≤ x) : y ≤ toFloat64 x := by
  have hy2 : toFloat64 (-y) = -y := by rw [toFloat64_neg, hy]
  have := toFloat64_le_of_le (-x) (-y) hy2 (by linarith)
  rw [toFloat64_neg] at this
  linarith

theorem toFloat64_nonneg (x : ℚ) (hx : 0 ≤ x) : 0 ≤ toFloat64 x :=
  le_toFloat64_of_le x 0 toFloat64_zero hx

theorem toFloat64_nonpos (x : ℚ) (hx : x ≤ 0) : toFloat64 x ≤ 0 :=
  toFloat64_le_of_le x 0 toFloat64_zero hx

theorem toFloat64_neg_of_neg (x : ℚ) (hx : x < 0) : toFloat64 x < 0 := by
  have := toFloat64_pos (-x) (by linarith)
  rw [toFloat64_neg] at this
  linarith

/-! ## Evaluating a rounding -/

/-- The rounding of a positive number of the binade of `2^e` whose quotient by
the unit `2^(e - 52)` is within one half of the integer `n`. -/
theorem toFloat64_eval (x : ℚ) (e n : Int) (h1 : (2 : ℚ) ^ e ≤ x)
    (h2 : x < (2 : ℚ) ^ (e + 1)) (h3 : (n : ℚ) - 1 / 2 < x / (2 : ℚ) ^ (e - 52))
    (h4 : x / (2 : ℚ) ^ (e - 52) < (n : ℚ) + 1 / 2) :
    toFloat64 x = (n : ℚ) * (2 : ℚ) ^ (e - 52) := by
  have hx : 0 < x := lt_of_lt_of_le (by positivity) h1
  have h5 : |x / (2 : ℚ) ^ (e - 52) - (n : ℚ)| < 1 / 2 := by
    rw [abs_lt]
    constructor <;> linarith
  rw [toFloat64_of_binade x e (by rwa [abs_of_pos hx]) (by rwa [abs_of_pos hx]),
    roundHalfEven_eq_of_lt _ n h5]

/-- The rounding of a positive number half way between two neighbours, the lower
one with an even significand. -/
theorem toFloat64_eval_tie (x : ℚ) (e n : Int) (h1 : (2 : ℚ) ^ e ≤ x)
    (h2 : x < (2 : ℚ) ^ (e + 1)) (h3 : x / (2 : ℚ) ^ (e - 52) = (n : ℚ) + 1 / 2)
    (hn : n % 2 = 0) :
    toFloat64 x = (n : ℚ) * (2 : ℚ) ^ (e - 52) := by
  have hx : 0 < x := lt_of_lt_of_le (by positivity) h1
  rw [toFloat64_of_binade x e (by rwa [abs_of_pos hx]) (by rwa [abs_of_pos hx]), h3,
    roundHalfEven_tie, if_pos hn]

/-- A binary64 number that is at most `2^53` minus a smaller non-negative
integer is a binary64 number: the subtraction is exact. -/
theorem toFloat64_sub_intCast (x : ℚ) (b : Int) (hx : toFloat64 x = x) (hb : 0 ≤ b)
    (hbx : (b : ℚ) ≤ x) (h53 : x ≤ 9007199254740992) :
    toFloat64 (x - (b : ℚ)) = x - (b : ℚ) := by
  have hbQ : (0 : ℚ) ≤ (b : ℚ) := by exact_mod_cast hb
  by_cases hx0 : x = 0
  · have : (b : ℚ) = 0 := by linarith
    rw [hx0, this, sub_zero, toFloat64_zero]
  have hxpos : 0 < x := lt_of_le_of_ne (le_trans hbQ hbx) (Ne.symm hx0)
  obtain ⟨m, k, hm, hmk, hk⟩ := toFloat64_exists x
  rw [hx] at hmk
  have hk2 := hk hx0
  obtain ⟨g1, g2⟩ := binade_exists x hx0
  rw [abs_of_pos hxpos] at g1 g2 hk2
  generalize Int.log 2 x = e at g1 g2 hk2
  have hpk : (0 : ℚ) < (2 : ℚ) ^ k := by positivity
  have hmpos : 0 < m := by
    have : (0 : ℚ) < (m : ℚ) := by
      by_contra hc
      push_neg at hc
      have : (m : ℚ) * (2 : ℚ) ^ k ≤ 0 := mul_nonpos_of_nonpos_of_nonneg hc (le_of_lt hpk)
      linarith
    exact_mod_cast this
  by_cases hk0 : k ≤ 0
  · -- the integer `b` is a multiple of the unit of `x`
    obtain ⟨j, hj⟩ : ∃ j : Nat, (j : Int) = -k := ⟨(-k).toNat, by omega⟩
    have hkj : k = -(j : Int) := by omega
    have hone : (2 : ℚ) ^ (j : Int) * (2 : ℚ) ^ k = 1 := by
      rw [← zpow_add₀ (by norm_num : (2 : ℚ) ≠ 0), hkj]
      simp
    have hbk : (b : ℚ) = ((b * 2 ^ j : Int) : ℚ) * (2 : ℚ) ^ k := by
      push_cast
      rw [mul_assoc, ← zpow_natCast, hone, mul_one]
    have hsub : x - (b : ℚ) = ((m - b * 2 ^ j : Int) : ℚ) * (2 : ℚ) ^ k := by
      rw [hmk]
      conv_lhs => rw [hbk]
      push_cast
      ring
    rw [hsub]
    apply toFloat64_mul_zpow
    have h0 : (0 : ℚ) ≤ ((m - b * 2 ^ j : Int) : ℚ) * (2 : ℚ) ^ k := by
      rw [← hsub]
      linarith
    have h1 : (0 : ℚ) ≤ ((m - b * 2 ^ j : Int) : ℚ) := by
      by_contra hc
      push_neg at hc
      have : ((m - b * 2 ^ j : Int) : ℚ) * (2 : ℚ) ^ k < 0 := mul_neg_of_neg_of_pos hc hpk
      linarith
    have h2 : 0 ≤ m - b * 2 ^ j := by exact_mod_cast h1
    have h3 : 0 ≤ b * 2 ^ j := mul_nonneg hb (by positivity)
    have h4 : |m| ≤ 9007199254740992 := hm
    rw [abs_of_pos hmpos] at h4
    rw [abs_of_nonneg h2]
    omega
  · -- `x` is `2^53`, an integer
    have hk1 : 1 ≤ k := by omega
    have he : 53 ≤ e := by omega
    have hpow : (2 : ℚ) ^ (53 : Int) ≤ (2 : ℚ) ^ e :=
      (zpow_le_zpow_iff_right₀ (by norm_num : (1 : ℚ) < 2)).mpr he
    have h253 : (2 : ℚ) ^ (53 : Int) = 9007199254740992 := by norm_num
    have hxe : x = ((9007199254740992 : Int) : ℚ) := by
      push_cast
      linarith
    rw [hxe, ← Int.cast_sub]
    apply toFloat64_intCast
    have hb2 : b ≤ 9007199254740992 := by
      have : (b : ℚ) ≤ ((9007199254740992 : Int) : ℚ) := by rw [← hxe]; exact hbx
      exact_mod_cast this
    rw [abs_of_nonneg (by omega)]
    omega

/-! ## The integers of Go -/

theorem wrapInt_of_range (x : Int) (h1 : -9223372036854775808 ≤ x)
    (h2 : x < 9223372036854775808) : wrapInt x = x := by
  unfold wrapInt
  omega

theorem wrapInt_add_left (x y : Int) : wrapInt (wrapInt x + y) = wrapInt (x + y) := by
  unfold wrapInt
  omega

theorem wrapInt_zero : wrapInt 0 = 0 := by decide

/-! ## The constants of the tests -/

theorem toFloat64_tenth : toFloat64 (1 / 10) = float01 := by
  rw [toFloat64_eval (1 / 10) (-4) 7205759403792794 (by norm_num) (by norm_num) (by norm_num)
    (by norm_num)]
  norm_num [float01]

theorem toFloat64_three_tenths : toFloat64 (3 / 10) = float03 := by
  rw [toFloat64_eval (3 / 10) (-2) 5404319552844595 (by norm_num) (by norm_num) (by norm_num)
    (by norm_num)]
  norm_num [float03]

theorem toFloat64_six_tenths : toFloat64 (6 / 10) = float06 := by
  rw [toFloat64_eval (6 / 10) (-1) 5404319552844595 (by norm_num) (by norm_num) (by norm_num)
    (by norm_num)]
  norm_num [float06]

theorem toFloat64_float03 : toFloat64 float03 = float03 := by
  rw [← toFloat64_three_tenths, toFloat64_idem]

theorem toFloat64_float06 : toFloat64 float06 = float06 := by
  rw [← toFloat64_six_tenths, toFloat64_idem]

/-- A small integer written as a numeral is a binary64 number. -/
theorem toFloat64_natCast (n : Nat) (h : n ≤ 9007199254740992) :
    toFloat64 (n : ℚ) = (n : ℚ) := by
  have := toFloat64_intCast (n : Int) (by rw [abs_of_nonneg (by omega)]; omega)
  simpa using this

/-! ## The loops in closed form -/

theorem changesLoop_eq (h : List Snapshot) (n : Int) :
    changesLoop h n = n + (adjacentChanges h : Int) := by
  induction h generalizing n with
  | nil => simp [changesLoop, adjacentChanges]
  | cons a t ih =>
    cases t with
    | nil => simp [changesLoop, adjacentChanges]
    | cons b r =>
      rw [changesLoop, ih]
      by_cases hab : b.ItemCount = a.ItemCount
      · have hba : a.ItemCount = b.ItemCount := hab.symm
        simp [adjacentChanges, hab, List.filter_cons]
      · have hba : ¬ a.ItemCount = b.ItemCount := fun h => hab h.symm
        simp [adjacentChanges, hab, hba, List.filter_cons]
        omega

/-- The averaging loop in closed form: the sum of the counts of all entries but
the last, as a Go `int`, and their number. -/
theorem sumLoop_eq (h : List Snapshot) (s c : Int) :
    sumLoop h (wrapInt s, c)
      = (wrapInt (s + (h.dropLast.map Snapshot.ItemCount).sum),
          c + (h.dropLast.length : Int)) := by
  induction h generalizing s c with
  | nil => simp [sumLoop]
  | cons a t ih =>
    cases t with
    | nil => simp [sumLoop]
    | cons b r =>
      rw [sumLoop, wrapInt_add_left, ih]
      simp [List.dropLast]
      constructor
      · congr 1
        omega
      · omega

/-- The decision of `classify` written as one cascade over the closed forms. -/
theorem classify_eq (F : Formatter) (d : Detector) (c : Int) :
    classify F d c =
      if d.history.length < 3 then (false, "")
      else if d.oscillationThreshold ≤ (adjacentChanges d.history : Int) then
        (true, oscillationReason F d (adjacentChanges d.history : Int))
      else if 0 < priorMean d.history ∧ d.dropThreshold < priorDecrease d.history c then
        (true, suddenDropReason F (priorDecrease d.history c) (priorMean d.history) c)
      else (false, "") := by
  unfold classify
  by_cases h3 : d.history.length < 3
  · simp [h3]
  · have h2 : d.history.length ≥ 2 := by omega
    have hcnt : (0 : Int) < (d.history.dropLast.length : Int) := by
      simp [List.length_dropLast]; omega
    have hsum : sumLoop d.history (0, 0)
        = (wrapInt ((d.history.dropLast.map Snapshot.ItemCount).sum),
            (d.history.dropLast.length : Int)) := by
      have := sumLoop_eq d.history 0 0
      rw [wrapInt_zero] at this
      simpa using this
    simp only [h3, if_false, changesLoop_eq, hsum, zero_add, ge_iff_le, h2, if_true,
      gt_iff_lt, hcnt]
    by_cases ho : d.oscillationThreshold ≤ (adjacentChanges d.history : Int)
    · simp [ho]
    · simp only [ho, if_false]
      have hm : toFloat64 (toFloat64
            ((wrapInt ((d.history.dropLast.map Snapshot.ItemCount).sum) : Int) : ℚ)
          / toFloat64 (((d.history.dropLast.length : Nat) : Int) : ℚ)) = priorMean d.history := by
        simp [priorMean]
      rw [hm]
      by_cases hp : 0 < priorMean d.history
      · by_cases hd : d.dropThreshold < priorDecrease d.history c
        · have hd2 := hd
          unfold priorDecrease at hd2
          simp [hp, hd, hd2, priorDecrease]
        · have hd2 := hd
          unfold priorDecrease at hd2
          simp [hp, hd, hd2]
      · simp [hp]

theorem oscillationReason_ne_empty (F : Formatter) (d : Detector) (n : Int) :
    oscillationReason F d n ≠ "" := by
  simp [oscillationReason, String.ext_iff]

theorem suddenDropReason_ne_empty (F : Formatter) (x y : ℚ) (c : Int) :
    suddenDropReason F x y c ≠ "" := by
  simp [suddenDropReason, String.ext_iff]

/-- The verdict of `classify` is `true` exactly when one of the two rules fires
on a history of at least three entries. -/
theorem classify_fst_iff (F : Formatter) (d : Detector) (c : Int) :
    (classify F d c).1 = true ↔
      3 ≤ d.history.length ∧
        (d.oscillationThreshold ≤ (adjacentChanges d.history : Int) ∨
          (0 < priorMean d.history ∧ d.dropThreshold < priorDecrease d.history c)) := by
  rw [classify_eq]
  by_cases h3 : d.history.length < 3
  · simp [h3]
  · by_cases ho : d.oscillationThreshold ≤ (adjacentChanges d.history : Int)
    · simp [h3, ho]; omega
    · by_cases hd : 0 < priorMean d.history ∧ d.dropThreshold < priorDecrease d.history c
      · simp [h3, ho, hd]; omega
      · simp [h3, ho, hd]

/-! ## One call and sequences of calls -/

theorem IsTransientIssue_fst (F : Formatter) (d : Detector) (c now1 now2 : Int) :
    (IsTransientIssue F d c now1 now2).1 =
      ⟨pruneHistory (now2 - d.windowDuration) (d.history ++ [⟨c, now1⟩]), d.windowDuration,
        d.oscillationThreshold, d.dropThreshold⟩ := rfl

theorem IsTransientIssue_snd (F : Formatter) (d : Detector) (c now1 now2 : Int) :
    (IsTransientIssue F d c now1 now2).2 =
      classify F (IsTransientIssue F d c now1 now2).1 c := rfl

theorem pruneHistory_of_all (cutoff : Int) (h : List Snapshot)
    (hall : ∀ s ∈ h, cutoff < s.Timestamp) : pruneHistory cutoff h = h := by
  unfold pruneHistory
  rw [List.filter_eq_self]
  intro s hs
  simpa using hall s hs

theorem runDetector_append (F : Formatter) (d : Detector) (xs ys : List Call) :
    runDetector F d (xs ++ ys) =
      ((runDetector F (runDetector F d xs).1 ys).1,
        (runDetector F d xs).2 ++ (runDetector F (runDetector F d xs).1 ys).2) := by
  induction xs generalizing d with
  | nil => simp [runDetector]
  | cons x xs ih => simp [runDetector, ih]

/-- When no call of a sequence prunes anything, the run only appends snapshots. -/
theorem runDetector_insideWindow (F : Formatter) (calls : List Call) (d : Detector)
    (hold : ∀ s ∈ d.history, ∀ c ∈ calls, c.now2 - d.windowDuration < s.Timestamp)
    (hin : insideWindow d.windowDuration calls) :
    (runDetector F d calls).1 =
      ⟨d.history ++ calls.map snapshotOf, d.windowDuration, d.oscillationThreshold,
        d.dropThreshold⟩ := by
  induction calls generalizing d with
  | nil => simp [runDetector]
  | cons x xs ih =>
    have hx : pruneHistory (x.now2 - d.windowDuration) (d.history ++ [⟨x.count, x.now1⟩])
        = d.history ++ [⟨x.count, x.now1⟩] := by
      apply pruneHistory_of_all
      intro s hs
      rcases List.mem_append.mp hs with h | h
      · exact hold s h x (List.mem_cons_self _ _)
      · have hs2 : s = ⟨x.count, x.now1⟩ := by simpa using h
        rw [hs2]
        exact hin x (List.mem_cons_self _ _) x (List.mem_cons_self _ _)
    have hstep : (IsTransientIssue F d x.count x.now1 x.now2).1 =
        ⟨d.history ++ [⟨x.count, x.now1⟩], d.windowDuration, d.oscillationThreshold,
          d.dropThreshold⟩ := by
      rw [IsTransientIssue_fst, hx]
    simp only [runDetector]
    rw [ih]
    · simp [hstep, snapshotOf]
    · rw [hstep]
      intro s hs c hc
      rcases List.mem_append.mp hs with h | h
      · exact hold s h c (List.mem_cons_of_mem _ hc)
      · have hs2 : s = ⟨x.count, x.now1⟩ := by simpa using h
        rw [hs2]
        exact hin x (List.mem_cons_self _ _) c (List.mem_cons_of_mem _ hc)
    · rw [hstep]
      intro c hc c1 hc1
      exact hin c (List.mem_cons_of_mem _ hc) c1 (List.mem_cons_of_mem _ hc1)

/-- The last call of a sequence fed to a fresh detector inside one window
classifies the history made of all the snapshots of the sequence. -/
theorem lastCall_insideWindow (F : Formatter) (w o : Int) (t : ℚ) (pre : List Call) (c : Call)
    (hin : insideWindow w (pre ++ [c])) :
    IsTransientIssue F (runDetector F (NewDetector w o t) pre).1 c.count c.now1 c.now2 =
      (⟨(pre ++ [c]).map snapshotOf, w, o, t⟩,
        classify F ⟨(pre ++ [c]).map snapshotOf, w, o, t⟩ c.count) := by
  have h := runDetector_insideWindow F (pre ++ [c]) (NewDetector w o t)
    (by intro s hs; simp [NewDetector] at hs) (by simpa [NewDetector] using hin)
  rw [runDetector_append] at h
  simp only [runDetector] at h
  have h1 : (IsTransientIssue F (runDetector F (NewDetector w o t) pre).1 c.count c.now1
      c.now2).1 = ⟨(pre ++ [c]).map snapshotOf, w, o, t⟩ := by
    rw [h]; simp [NewDetector]
  apply Prod.ext
  · exact h1
  · rw [IsTransientIssue_snd, h1]

theorem runDetector_snd_concat (F : Formatter) (d : Detector) (pre : List Call) (c : Call) :
    (runDetector F d (pre ++ [c])).2 =
      (runDetector F d pre).2 ++
        [(IsTransientIssue F (runDetector F d pre).1 c.count c.now1 c.now2).2] := by
  rw [runDetector_append]
  simp [runDetector]

theorem insideWindow_of_subset (w : Int) (xs ys : List Call) (hsub : ∀ c ∈ xs, c ∈ ys)
    (hin : insideWindow w ys) : insideWindow w xs :=
  fun c hc c1 hc1 => hin c (hsub c hc) c1 (hsub c1 hc1)

/-- The last call of a run inside one window on which the oscillation rule is
silent: the verdict is that of the sudden-drop rule. -/
theorem lastCall_drop_rule (F : Formatter) (w o : Int) (t : ℚ) (pre : List Call) (c : Call)
    (hin : insideWindow w (pre ++ [c])) (hlen : 3 ≤ (pre ++ [c]).length)
    (hosc : (adjacentChanges ((pre ++ [c]).map snapshotOf) : Int) < o) :
    (IsTransientIssue F (runDetector F (NewDetector w o t) pre).1 c.count c.now1 c.now2).2 =
      if 0 < priorMean ((pre ++ [c]).map snapshotOf) ∧
          t < priorDecrease ((pre ++ [c]).map snapshotOf) c.count then
        (true, suddenDropReason F (priorDecrease ((pre ++ [c]).map snapshotOf) c.count)
          (priorMean ((pre ++ [c]).map snapshotOf)) c.count)
      else (false, "") := by
  rw [lastCall_insideWindow F w o t pre c hin, classify_eq]
  have h3 : ¬ ((pre ++ [c]).map snapshotOf).length < 3 := by
    rw [List.length_map]
    omega
  have ho : ¬ o ≤ (adjacentChanges ((pre ++ [c]).map snapshotOf) : Int) := by omega
  simp only [h3, if_false, ho]

/-! ## The mean and the decrease on small counts -/

/-- When the sum of the prior counts and their number are at most `2^53` in
absolute value, no conversion rounds: the prior mean is the rounded quotient. -/
theorem priorMean_eq (h : List Snapshot) (S : Int) (n : Nat)
    (hS : (h.dropLast.map Snapshot.ItemCount).sum = S) (hn : h.dropLast.length = n)
    (h1 : -9007199254740992 ≤ S) (h2 : S ≤ 9007199254740992) (h3 : n ≤ 9007199254740992) :
    priorMean h = toFloat64 ((S : ℚ) / (n : ℚ)) := by
  unfold priorMean
  rw [hS, hn, wrapInt_of_range S (by omega) (by omega),
    toFloat64_intCast S (by rw [abs_le]; constructor <;> omega), toFloat64_natCast n h3]

/-- A number below a binary64 number that is at most `x` is below the rounding
of `x`. -/
theorem lt_toFloat64_of_lt (x y z : ℚ) (hy : toFloat64 y = y) (hzy : z < y) (hyx : y ≤ x) :
    z < toFloat64 x :=
  lt_of_lt_of_le hzy (le_toFloat64_of_le x y hy hyx)

/-- A significand of at most 53 bits over a power of two is a binary64 number. -/
theorem toFloat64_dyadic (m : Int) (j : Nat) (hm : |m| ≤ 9007199254740992) :
    toFloat64 ((m : ℚ) / (2 : ℚ) ^ j) = (m : ℚ) / (2 : ℚ) ^ j := by
  have h := toFloat64_mul_zpow m (-(j : Int)) hm
  have e : (m : ℚ) * (2 : ℚ) ^ (-(j : Int)) = (m : ℚ) / (2 : ℚ) ^ j := by
    rw [zpow_neg, zpow_natCast]
    rfl
  rwa [e] at h

/-- The prior mean seen by the last call of a run inside one window, on the
counts of the calls before it. -/
theorem priorMean_calls_raw (pre : List Call) (c : Call) :
    priorMean ((pre ++ [c]).map snapshotOf) =
      toFloat64 (toFloat64 ((wrapInt (pre.map Call.count).sum : Int) : ℚ)
        / toFloat64 ((pre.length : Nat) : ℚ)) := by
  unfold priorMean
  rw [List.map_append, List.map_singleton, List.dropLast_concat, List.map_map, List.length_map]
  rfl

/-- The prior mean seen by the last call of a run inside one window: the mean
of the counts of the calls before it, rounded once when these are small. -/
theorem priorMean_calls (pre : List Call) (c : Call) (S : Int) (n : Nat)
    (hS : (pre.map Call.count).sum = S) (hn : pre.length = n)
    (h1 : -9007199254740992 ≤ S) (h2 : S ≤ 9007199254740992) (h3 : n ≤ 9007199254740992) :
    priorMean ((pre ++ [c]).map snapshotOf) = toFloat64 ((S : ℚ) / (n : ℚ)) := by
  rw [priorMean_calls_raw, hS, hn, wrapInt_of_range S (by omega) (by omega),
    toFloat64_intCast S (by rw [abs_le]; constructor <;> omega), toFloat64_natCast n h3]

/-! ## The example states are reachable -/

theorem stable12_reached (F : Formatter) :
    (runDetector F (NewDetector tenMinutes 2 (1 / 2)) (callsOf [12, 12, 12])).1 = stable12 := by
  simp [runDetector, IsTransientIssue_fst, callsOf, pruneHistory, NewDetector, stable12,
    tenMinutes, Minute]

theorem flapping_reached (F : Formatter) :
    (runDetector F (NewDetector tenMinutes 3 (1 / 2)) (callsOf [12, 11, 12])).1 = flapping := by
  simp [runDetector, IsTransientIssue_fst, callsOf, pruneHistory, NewDetector, flapping,
    tenMinutes, Minute]

theorem swinging_reached (F : Formatter) :
    (runDetector F (NewDetector tenMinutes 2 float03) (callsOf [12, 6, 12])).1 = swinging := by
  simp [runDetector, IsTransientIssue_fst, callsOf, pruneHistory, NewDetector, swinging,
    tenMinutes, Minute]

theorem expired_reached (F : Formatter) :
    (runDetector F (NewDetector 1000000000 2 float03)
      [⟨12, 0, 0⟩, ⟨6, 100000000, 100000000⟩]).1 = expired := by
  simp [runDetector, IsTransientIssue_fst, pruneHistory, NewDetector, expired]

/-! ## Claims on one call -/

/-- C1: whenever the history left after appending the new snapshot and pruning
has fewer than 3 entries, `IsTransientIssue` returns `(false, "")`, for every
configuration, every prior history, every count and every clock reading. -/
theorem insufficient_data_not_transient (F : Formatter) (d : Detector) (c now1 now2 : Int)
    (h : (IsTransientIssue F d c now1 now2).1.history.length < 3) :
    (IsTransientIssue F d c now1 now2).2 = (false, "") := by
  simp only [IsTransientIssue] at h ⊢
  rw [classify_eq]
  simp [h]

/-- Witness of C1: one change with `oscillationThreshold = 1` and a drop of 100%,
on a history of two entries. -/
theorem insufficient_data_not_transient_witness :
    (IsTransientIssue utcFormatter ⟨[⟨12, 0⟩], tenMinutes, 1, float03⟩ 0 1000000000
        1000000000).1.history.length < 3 ∧
      (IsTransientIssue utcFormatter ⟨[⟨12, 0⟩], tenMinutes, 1, float03⟩ 0 1000000000
        1000000000).2 = (false, "") :=
  ⟨by decide, insufficient_data_not_transient _ _ _ _ _ (by decide)⟩

/-- A small integer written as a numeral is a binary64 number. -/
theorem toFloat64_int (z : Int) (h1 : -9007199254740992 ≤ z) (h2 : z ≤ 9007199254740992) :
    toFloat64 (z : ℚ) = (z : ℚ) :=
  toFloat64_intCast z (by rw [abs_le]; constructor <;> omega)

/-- C2 (amended): sudden-drop rule. When the pruned history has at least 3
entries, the mean of the counts of all entries but the newest, computed as the
code computes it (the sum in a Go `int`, the conversions and the quotient in
`float64`), is positive and the decrease from that mean to `currentCount`,
computed in `float64`, exceeds `dropThreshold`, the call returns
`isTransient = true`; nothing is assumed about the number of count changes. -/
theorem sudden_drop_flagged (F : Formatter) (d : Detector) (c now1 now2 : Int)
    (hlen : 3 ≤ (IsTransientIssue F d c now1 now2).1.history.length)
    (hmean : 0 < priorMean (IsTransientIssue F d c now1 now2).1.history)
    (hdrop : d.dropThreshold < priorDecrease (IsTransientIssue F d c now1 now2).1.history c) :
    (IsTransientIssue F d c now1 now2).2.1 = true := by
  simp only [IsTransientIssue] at hlen hmean hdrop ⊢
  rw [classify_fst_iff]
  exact ⟨hlen, Or.inr ⟨hmean, hdrop⟩⟩

/-- The history of `stable12` after the observation of 5 at second 3. -/
theorem stable12_step :
    (IsTransientIssue utcFormatter stable12 5 3000000000 3000000000).1.history
      = [⟨12, 0⟩, ⟨12, 1000000000⟩, ⟨12, 2000000000⟩, ⟨5, 3000000000⟩] := by
  decide

/-- The prior mean of 12, 12, 12 is 12. -/
theorem stable12_mean :
    priorMean (IsTransientIssue utcFormatter stable12 5 3000000000 3000000000).1.history = 12 := by
  rw [stable12_step, priorMean_eq _ 36 3 (by decide) (by decide) (by decide) (by decide)
    (by decide)]
  have e : ((36 : Int) : ℚ) / ((3 : Nat) : ℚ) = ((12 : Int) : ℚ) := by norm_num
  rw [e, toFloat64_int 12 (by decide) (by decide)]
  norm_num

/-- The decrease from 12 to 5 computed in `float64` is above one half. -/
theorem stable12_decrease :
    1 / 2 < priorDecrease
      (IsTransientIssue utcFormatter stable12 5 3000000000 3000000000).1.history 5 := by
  unfold priorDecrease
  rw [stable12_mean]
  have e5 : toFloat64 ((5 : Int) : ℚ) = 5 := by
    rw [toFloat64_int 5 (by decide) (by decide)]
    norm_num
  have e7 : toFloat64 ((12 : ℚ) - 5) = 7 := by
    have : ((12 : ℚ) - 5) = ((7 : Int) : ℚ) := by norm_num
    rw [this, toFloat64_int 7 (by decide) (by decide)]
    norm_num
  rw [e5, e7]
  apply lt_toFloat64_of_lt _ (9 / 16)
  · have h := toFloat64_dyadic 9 4 (by decide)
    norm_num at h
    exact h
  · norm_num
  · norm_num

/-- Witness of C2 (amended): the test 12, 12, 12, 5 with `dropThreshold = 0.5`. -/
theorem sudden_drop_flagged_witness :
    (3 ≤ (IsTransientIssue utcFormatter stable12 5 3000000000 3000000000).1.history.length ∧
      0 < priorMean (IsTransientIssue utcFormatter stable12 5 3000000000 3000000000).1.history ∧
      stable12.dropThreshold < priorDecrease
        (IsTransientIssue utcFormatter stable12 5 3000000000 3000000000).1.history 5) ∧
    (IsTransientIssue utcFormatter stable12 5 3000000000 3000000000).2.1 = true :=
  ⟨⟨by decide, by rw [stable12_mean]; norm_num, stable12_decrease⟩,
    sudden_drop_flagged utcFormatter stable12 5 3000000000 3000000000
      (by decide) (by rw [stable12_mean]; norm_num) stable12_decrease⟩

/-- The third call of the run 10, 10, 7 with thresholds `(2, 0.3)` returns
`(false, "")`: the mean is 10 and the decrease computed in `float64` is the
`float64` nearest to 3/10, which is the threshold itself. -/
theorem silent_on_10_10_7 :
    (IsTransientIssue utcFormatter
      (runDetector utcFormatter (NewDetector tenMinutes 2 float03) (callsOf [10, 10])).1
      7 2000000000 2000000000).2 = (false, "") := by
  have h := lastCall_drop_rule utcFormatter tenMinutes 2 float03 (callsOf [10, 10])
    (⟨7, 2000000000, 2000000000⟩ : Call) (by decide) (by decide) (by decide)
  have hc : (⟨7, 2000000000, 2000000000⟩ : Call).count = 7 := rfl
  have hn1 : (⟨7, 2000000000, 2000000000⟩ : Call).now1 = 2000000000 := rfl
  have hn2 : (⟨7, 2000000000, 2000000000⟩ : Call).now2 = 2000000000 := rfl
  rw [hc, hn1, hn2] at h
  have hpm : priorMean
      ((callsOf [10, 10] ++ [(⟨7, 2000000000, 2000000000⟩ : Call)]).map snapshotOf) = 10 := by
    rw [priorMean_calls _ _ 20 2 (by decide) (by decide) (by decide) (by decide) (by decide)]
    have e : ((20 : Int) : ℚ) / ((2 : Nat) : ℚ) = ((10 : Int) : ℚ) := by norm_num
    rw [e, toFloat64_int 10 (by decide) (by decide)]
    norm_num
  have hpd : priorDecrease
      ((callsOf [10, 10] ++ [(⟨7, 2000000000, 2000000000⟩ : Call)]).map snapshotOf) 7
      = float03 := by
    unfold priorDecrease
    rw [hpm]
    have e7 : toFloat64 ((7 : Int) : ℚ) = 7 := by
      rw [toFloat64_int 7 (by decide) (by decide)]
      norm_num
    have e3 : toFloat64 ((10 : ℚ) - 7) = 3 := by
      have : ((10 : ℚ) - 7) = ((3 : Int) : ℚ) := by norm_num
      rw [this, toFloat64_int 3 (by decide) (by decide)]
      norm_num
    rw [e7, e3, toFloat64_three_tenths]
  rw [h, hpd, if_neg]
  rintro ⟨_, hlt⟩
  exact lt_irrefl _ hlt

/-- The mean of three observations of `2^53 + 1` as the code computes it: the
sum is rounded up by the conversion and the quotient comes out as `2^53 + 2`. -/
theorem mean_of_big_run (c : Call) :
    priorMean ((callsOf [9007199254740993, 9007199254740993, 9007199254740993] ++ [c]).map
      snapshotOf) = 9007199254740994 := by
  rw [priorMean_calls_raw]
  have hs : wrapInt ((callsOf [9007199254740993, 9007199254740993, 9007199254740993]).map
      Call.count).sum = 27021597764222979 := by decide
  have hl : (callsOf [9007199254740993, 9007199254740993, 9007199254740993]).length = 3 := by
    decide
  rw [hs, hl, toFloat64_natCast 3 (by decide)]
  have e1 : toFloat64 ((27021597764222979 : Int) : ℚ) = 27021597764222980 := by
    rw [toFloat64_eval _ 54 6755399441055745 (by norm_num) (by norm_num) (by norm_num)
      (by norm_num)]
    norm_num
  rw [e1, toFloat64_eval _ 53 4503599627370497 (by norm_num) (by norm_num) (by norm_num)
    (by norm_num)]
  norm_num

/-- The conversion of `2^53 + 1` to `float64` gives `2^53`: a tie, resolved to
the even significand. -/
theorem toFloat64_big : toFloat64 ((9007199254740993 : Int) : ℚ) = 9007199254740992 := by
  rw [toFloat64_eval_tie _ 53 4503599627370496 (by norm_num) (by norm_num) (by norm_num)
    (by decide)]
  norm_num

/-- The fourth observation of `2^53 + 1` in a row is flagged with thresholds
`(2, 0)`: the mean of the first three is computed as `2^53 + 2` and the fourth
is converted to `2^53`. -/
theorem big_constant_run_flagged :
    (IsTransientIssue utcFormatter
      (runDetector utcFormatter (NewDetector tenMinutes 2 0)
        (callsOf [9007199254740993, 9007199254740993, 9007199254740993])).1
      9007199254740993 3000000000 3000000000).2.1 = true := by
  have h := lastCall_drop_rule utcFormatter tenMinutes 2 0
    (callsOf [9007199254740993, 9007199254740993, 9007199254740993])
    (⟨9007199254740993, 3000000000, 3000000000⟩ : Call) (by decide) (by decide) (by decide)
  have hc : (⟨9007199254740993, 3000000000, 3000000000⟩ : Call).count = 9007199254740993 := rfl
  have hn1 : (⟨9007199254740993, 3000000000, 3000000000⟩ : Call).now1 = 3000000000 := rfl
  have hn2 : (⟨9007199254740993, 3000000000, 3000000000⟩ : Call).now2 = 3000000000 := rfl
  rw [hc, hn1, hn2] at h
  rw [h, if_pos]
  rw [mean_of_big_run]
  refine ⟨by norm_num, ?_⟩
  unfold priorDecrease
  rw [mean_of_big_run, toFloat64_big]
  have e2 : toFloat64 ((9007199254740994 : ℚ) - 9007199254740992) = 2 := by
    have : ((9007199254740994 : ℚ) - 9007199254740992) = ((2 : Int) : ℚ) := by norm_num
    rw [this, toFloat64_int 2 (by decide) (by decide)]
    norm_num
  rw [e2]
  exact toFloat64_pos _ (by norm_num)

/-- After three observations of `2^53 + 1`, an observation of `2^53` is flagged
with thresholds `(2, 3 * 2^-54)`: the decrease computed in `float64` is about
`2^-52`. -/
theorem big_decrease_flagged :
    (IsTransientIssue utcFormatter
      (runDetector utcFormatter (NewDetector tenMinutes 2 (3 / 18014398509481984))
        (callsOf [9007199254740993, 9007199254740993, 9007199254740993])).1
      9007199254740992 3000000000 3000000000).2.1 = true := by
  have h := lastCall_drop_rule utcFormatter tenMinutes 2 (3 / 18014398509481984)
    (callsOf [9007199254740993, 9007199254740993, 9007199254740993])
    (⟨9007199254740992, 3000000000, 3000000000⟩ : Call) (by decide) (by decide) (by decide)
  have hc : (⟨9007199254740992, 3000000000, 3000000000⟩ : Call).count = 9007199254740992 := rfl
  have hn1 : (⟨9007199254740992, 3000000000, 3000000000⟩ : Call).now1 = 3000000000 := rfl
  have hn2 : (⟨9007199254740992, 3000000000, 3000000000⟩ : Call).now2 = 3000000000 := rfl
  rw [hc, hn1, hn2] at h
  rw [h, if_pos]
  rw [mean_of_big_run]
  refine ⟨by norm_num, ?_⟩
  unfold priorDecrease
  rw [mean_of_big_run, toFloat64_int 9007199254740992 (by decide) (by decide)]
  have e2 : toFloat64 ((9007199254740994 : ℚ) - ((9007199254740992 : Int) : ℚ)) = 2 := by
    have : ((9007199254740994 : ℚ) - ((9007199254740992 : Int) : ℚ)) = ((2 : Int) : ℚ) := by
      norm_num
    rw [this, toFloat64_int 2 (by decide) (by decide)]
    norm_num
  rw [e2]
  apply lt_toFloat64_of_lt _ (7 / 36028797018963968)
  · have h := toFloat64_dyadic 7 55 (by decide)
    norm_num at h
    exact h
  · norm_num
  · norm_num

/-- Counterexample to C2 as stated, on two runs of a fresh detector with
thresholds `(2, 0.3)`, calls one second apart. On 10, 10, 7 the third call finds
3 entries, the arithmetic mean 10 of the entries but the newest is positive and
`(10 - 7) / 10 = 3/10` is above the `float64` threshold `0.3`, yet the call
returns `(false, "")`: the decrease computed in `float64` is `0.3` itself. On
`MaxInt64`, `MaxInt64`, 0 the mean is `MaxInt64` and the decrease is 1, yet the
call returns `(false, "")`: the sum of the two counts wraps to -2. -/
theorem sudden_drop_counterexample :
    ((IsTransientIssue utcFormatter
          (runDetector utcFormatter (NewDetector tenMinutes 2 float03) (callsOf [10, 10])).1
          7 2000000000 2000000000).1.history
        = (callsOf [10, 10] ++ [(⟨7, 2000000000, 2000000000⟩ : Call)]).map snapshotOf ∧
      3 ≤ ((callsOf [10, 10] ++ [(⟨7, 2000000000, 2000000000⟩ : Call)]).map snapshotOf).length ∧
      0 < exactMean ((callsOf [10, 10] ++ [(⟨7, 2000000000, 2000000000⟩ : Call)]).map snapshotOf) ∧
      float03 < exactDecrease
        ((callsOf [10, 10] ++ [(⟨7, 2000000000, 2000000000⟩ : Call)]).map snapshotOf) 7 ∧
      (IsTransientIssue utcFormatter
          (runDetector utcFormatter (NewDetector tenMinutes 2 float03) (callsOf [10, 10])).1
          7 2000000000 2000000000).2 = (false, "")) ∧
    ((IsTransientIssue utcFormatter
          (runDetector utcFormatter (NewDetector tenMinutes 2 float03)
            (callsOf [MaxInt64, MaxInt64])).1 0 2000000000 2000000000).1.history
        = (callsOf [MaxInt64, MaxInt64] ++ [(⟨0, 2000000000, 2000000000⟩ : Call)]).map snapshotOf ∧
      3 ≤ ((callsOf [MaxInt64, MaxInt64]
        ++ [(⟨0, 2000000000, 2000000000⟩ : Call)]).map snapshotOf).length ∧
      0 < exactMean ((callsOf [MaxInt64, MaxInt64]
        ++ [(⟨0, 2000000000, 2000000000⟩ : Call)]).map snapshotOf) ∧
      float03 < exactDecrease ((callsOf [MaxInt64, MaxInt64]
        ++ [(⟨0, 2000000000, 2000000000⟩ : Call)]).map snapshotOf) 0 ∧
      (IsTransientIssue utcFormatter
          (runDetector utcFormatter (NewDetector tenMinutes 2 float03)
            (callsOf [MaxInt64, MaxInt64])).1 0 2000000000 2000000000).2 = (false, "")) := by
  have hm1 : exactMean
      ((callsOf [10, 10] ++ [(⟨7, 2000000000, 2000000000⟩ : Call)]).map snapshotOf) = 10 := by
    have h1 : (((callsOf [10, 10] ++ [(⟨7, 2000000000, 2000000000⟩ : Call)]).map
        snapshotOf).dropLast.map Snapshot.ItemCount).sum = 20 := by decide
    have h2 : ((callsOf [10, 10] ++ [(⟨7, 2000000000, 2000000000⟩ : Call)]).map
        snapshotOf).dropLast.length = 2 := by decide
    unfold exactMean
    rw [h1, h2]
    norm_num
  have hm2 : exactMean ((callsOf [MaxInt64, MaxInt64]
      ++ [(⟨0, 2000000000, 2000000000⟩ : Call)]).map snapshotOf) = 9223372036854775807 := by
    have h1 : (((callsOf [MaxInt64, MaxInt64] ++ [(⟨0, 2000000000, 2000000000⟩ : Call)]).map
        snapshotOf).dropLast.map Snapshot.ItemCount).sum = 18446744073709551614 := by decide
    have h2 : ((callsOf [MaxInt64, MaxInt64] ++ [(⟨0, 2000000000, 2000000000⟩ : Call)]).map
        snapshotOf).dropLast.length = 2 := by decide
    unfold exactMean
    rw [h1, h2]
    norm_num
  refine ⟨⟨by decide, by decide, ?_, ?_, ?_⟩, ⟨by decide, by decide, ?_, ?_, ?_⟩⟩
  · rw [hm1]
    norm_num
  · unfold exactDecrease
    rw [hm1]
    norm_num [float03]
  · exact silent_on_10_10_7
  · rw [hm2]
    norm_num
  · unfold exactDecrease
    rw [hm2]
    norm_num [float03]
  · have h := lastCall_drop_rule utcFormatter tenMinutes 2 float03 (callsOf [MaxInt64, MaxInt64])
      (⟨0, 2000000000, 2000000000⟩ : Call) (by decide) (by decide) (by decide)
    have hc : (⟨0, 2000000000, 2000000000⟩ : Call).count = 0 := rfl
    have hn1 : (⟨0, 2000000000, 2000000000⟩ : Call).now1 = 2000000000 := rfl
    have hn2 : (⟨0, 2000000000, 2000000000⟩ : Call).now2 = 2000000000 := rfl
    rw [hc, hn1, hn2] at h
    have hpm : priorMean ((callsOf [MaxInt64, MaxInt64]
        ++ [(⟨0, 2000000000, 2000000000⟩ : Call)]).map snapshotOf) = -1 := by
      rw [priorMean_calls_raw]
      have hs : wrapInt ((callsOf [MaxInt64, MaxInt64]).map Call.count).sum = -2 := by decide
      have hl : (callsOf [MaxInt64, MaxInt64]).length = 2 := by decide
      rw [hs, hl, toFloat64_int (-2) (by decide) (by decide), toFloat64_natCast 2 (by decide)]
      have e : ((-2 : Int) : ℚ) / ((2 : Nat) : ℚ) = ((-1 : Int) : ℚ) := by norm_num
      rw [e, toFloat64_int (-1) (by decide) (by decide)]
      norm_num
    rw [h, hpm, if_neg]
    rintro ⟨hpos, _⟩
    norm_num at hpos

theorem toString_natCast (n : Nat) : toString ((n : Nat) : Int) = toString n := rfl

theorem oscillationReason_shape (F : Formatter) (d : Detector) (n : Nat) :
    ∃ rest : String, oscillationReason F d (n : Int) =
      "Oscillation detected: " ++ toString n ++ " count changes in last " ++ rest := by
  refine ⟨F.float0 (Minutes d.windowDuration) ++ " minutes. Pattern: " ++ formatPattern F d, ?_⟩
  simp [oscillationReason, String.append_assoc, toString_natCast]

/-- C3: oscillation rule. When the pruned history has at least 3 entries and the
number of adjacent pairs of entries with different counts is at least
`oscillationThreshold` (equality suffices), the call returns `isTransient = true`
with a non-empty reason that starts with "Oscillation detected" and states that
number of changes. -/
theorem oscillation_flagged (F : Formatter) (d : Detector) (c now1 now2 : Int)
    (hlen : 3 ≤ (IsTransientIssue F d c now1 now2).1.history.length)
    (hosc : d.oscillationThreshold ≤
      (adjacentChanges (IsTransientIssue F d c now1 now2).1.history : Int)) :
    (IsTransientIssue F d c now1 now2).2.1 = true ∧
      (IsTransientIssue F d c now1 now2).2.2 ≠ "" ∧
      ∃ rest : String, (IsTransientIssue F d c now1 now2).2.2 =
        "Oscillation detected: "
          ++ toString (adjacentChanges (IsTransientIssue F d c now1 now2).1.history)
          ++ " count changes in last " ++ rest := by
  simp only [IsTransientIssue] at hlen hosc ⊢
  rw [classify_eq]
  have h3 : ¬ (pruneHistory (now2 - d.windowDuration) (d.history ++ [⟨c, now1⟩])).length < 3 := by
    omega
  simp only [h3, if_false, hosc, if_true]
  exact ⟨trivial, oscillationReason_ne_empty _ _ _, oscillationReason_shape _ _ _⟩

/-- Witness of C3: the test 12, 11, 12, 11 with `oscillationThreshold = 3`, where
the number of changes is exactly the threshold. -/
theorem oscillation_flagged_witness :
    (3 ≤ (IsTransientIssue utcFormatter flapping 11 3000000000 3000000000).1.history.length ∧
      adjacentChanges
        (IsTransientIssue utcFormatter flapping 11 3000000000 3000000000).1.history = 3) ∧
    ((IsTransientIssue utcFormatter flapping 11 3000000000 3000000000).2.1 = true ∧
      (IsTransientIssue utcFormatter flapping 11 3000000000 3000000000).2.2 ≠ "" ∧
      ∃ rest : String, (IsTransientIssue utcFormatter flapping 11 3000000000 3000000000).2.2 =
        "Oscillation detected: "
          ++ toString (adjacentChanges
              (IsTransientIssue utcFormatter flapping 11 3000000000 3000000000).1.history)
          ++ " count changes in last " ++ rest) :=
  ⟨⟨by decide, by decide⟩,
    oscillation_flagged utcFormatter flapping 11 3000000000 3000000000 (by decide) (by decide)⟩

/-- The run 12, 12, 12, 5 with thresholds `(2, 0.6)`: the decrease of 7/12 is
below the threshold. -/
theorem lenient_run_silent (F : Formatter) :
    (runDetector F (NewDetector tenMinutes 2 float06) (callsOf [12, 12, 12, 5])).2
      = [(false, ""), (false, ""), (false, ""), (false, "")] := by
  have h4 : callsOf [12, 12, 12, 5]
      = (callsOf [12, 12] ++ [⟨12, 2000000000, 2000000000⟩]) ++ [⟨5, 3000000000, 3000000000⟩] := by
    decide
  have h2 : (runDetector F (NewDetector tenMinutes 2 float06) (callsOf [12, 12])).2
      = [(false, ""), (false, "")] := by
    simp [runDetector, IsTransientIssue, callsOf, NewDetector, pruneHistory, tenMinutes, Minute,
      classify_eq]
  have e12 : toFloat64 ((12 : Int) : ℚ) = 12 := by
    rw [toFloat64_int 12 (by decide) (by decide)]
    norm_num
  have e0 : toFloat64 ((12 : ℚ) - 12) = 0 := by
    rw [sub_self, toFloat64_zero]
  have e5 : toFloat64 ((5 : Int) : ℚ) = 5 := by
    rw [toFloat64_int 5 (by decide) (by decide)]
    norm_num
  have e7 : toFloat64 ((12 : ℚ) - 5) = 7 := by
    have : ((12 : ℚ) - 5) = ((7 : Int) : ℚ) := by norm_num
    rw [this, toFloat64_int 7 (by decide) (by decide)]
    norm_num
  have h3 : (IsTransientIssue F (runDetector F (NewDetector tenMinutes 2 float06)
      (callsOf [12, 12])).1 (⟨12, 2000000000, 2000000000⟩ : Call).count
      (⟨12, 2000000000, 2000000000⟩ : Call).now1 (⟨12, 2000000000, 2000000000⟩ : Call).now2).2
      = (false, "") := by
    rw [lastCall_drop_rule F tenMinutes 2 float06 (callsOf [12, 12]) ⟨12, 2000000000, 2000000000⟩
      (by decide) (by decide) (by decide)]
    have hpm : priorMean ((callsOf [12, 12] ++ [(⟨12, 2000000000, 2000000000⟩ : Call)]).map
        snapshotOf) = 12 := by
      rw [priorMean_calls _ _ 24 2 (by decide) (by decide) (by decide) (by decide) (by decide)]
      have e : ((24 : Int) : ℚ) / ((2 : Nat) : ℚ) = ((12 : Int) : ℚ) := by norm_num
      rw [e, e12]
    have hpd : priorDecrease ((callsOf [12, 12] ++ [(⟨12, 2000000000, 2000000000⟩ : Call)]).map
        snapshotOf) 12 = 0 := by
      unfold priorDecrease
      rw [hpm, e12, e0, zero_div, toFloat64_zero]
    have hc : (⟨12, 2000000000, 2000000000⟩ : Call).count = 12 := rfl
    rw [hc, hpd, if_neg]
    rintro ⟨_, h⟩
    norm_num [float06] at h
  have h5 : (IsTransientIssue F (runDetector F (NewDetector tenMinutes 2 float06)
      (callsOf [12, 12] ++ [⟨12, 2000000000, 2000000000⟩])).1
      (⟨5, 3000000000, 3000000000⟩ : Call).count
      (⟨5, 3000000000, 3000000000⟩ : Call).now1 (⟨5, 3000000000, 3000000000⟩ : Call).now2).2
      = (false, "") := by
    rw [lastCall_drop_rule F tenMinutes 2 float06
      (callsOf [12, 12] ++ [(⟨12, 2000000000, 2000000000⟩ : Call)])
      (⟨5, 3000000000, 3000000000⟩ : Call) (by decide) (by decide) (by decide)]
    have hpm : priorMean ((callsOf [12, 12] ++ [(⟨12, 2000000000, 2000000000⟩ : Call)]
        ++ [(⟨5, 3000000000, 3000000000⟩ : Call)]).map snapshotOf) = 12 := by
      rw [priorMean_calls _ _ 36 3 (by decide) (by decide) (by decide) (by decide) (by decide)]
      have e : ((36 : Int) : ℚ) / ((3 : Nat) : ℚ) = ((12 : Int) : ℚ) := by norm_num
      rw [e, e12]
    have hpd : priorDecrease ((callsOf [12, 12] ++ [(⟨12, 2000000000, 2000000000⟩ : Call)]
        ++ [(⟨5, 3000000000, 3000000000⟩ : Call)]).map snapshotOf) 5 ≤ float06 := by
      unfold priorDecrease
      rw [hpm, e5, e7]
      exact toFloat64_le_of_le _ _ toFloat64_float06 (by norm_num [float06])
    have hc : (⟨5, 3000000000, 3000000000⟩ : Call).count = 5 := rfl
    rw [hc, if_neg]
    rintro ⟨_, h⟩
    exact absurd h (not_lt.mpr hpd)
  rw [h4, runDetector_snd_concat, runDetector_snd_concat, h2, h3, h5]
  rfl

/-- C4 (amended): exact decision. `isTransient = true` if and only if the pruned
history has at least 3 entries and (the number of adjacent differing pairs is at
least `oscillationThreshold`, or the mean of the counts but the newest, computed
as the code computes it (the sum in a Go `int`, the conversions and the quotient
in `float64`), is positive and the decrease from that mean to `currentCount`,
computed in `float64`, is above `dropThreshold`, a strict comparison); whenever
`isTransient` is false the call returns exactly `(false, "")`. The sequence
12, 12, 12, 5 with thresholds `(2, 0.6)` is flagged at no call. -/
theorem exact_decision (F : Formatter) (d : Detector) (c now1 now2 : Int) :
    ((IsTransientIssue F d c now1 now2).2.1 = true ↔
      3 ≤ (IsTransientIssue F d c now1 now2).1.history.length ∧
        (d.oscillationThreshold ≤
            (adjacentChanges (IsTransientIssue F d c now1 now2).1.history : Int) ∨
          (0 < priorMean (IsTransientIssue F d c now1 now2).1.history ∧
            d.dropThreshold <
              priorDecrease (IsTransientIssue F d c now1 now2).1.history c))) ∧
    ((IsTransientIssue F d c now1 now2).2.1 = false →
      (IsTransientIssue F d c now1 now2).2 = (false, "")) ∧
    (runDetector F (NewDetector tenMinutes 2 float06) (callsOf [12, 12, 12, 5])).2
      = [(false, ""), (false, ""), (false, ""), (false, "")] := by
  refine ⟨?_, ?_, lenient_run_silent F⟩
  · simp only [IsTransientIssue]
    rw [classify_fst_iff]
  · simp only [IsTransientIssue]
    rw [classify_eq]
    split_ifs <;> simp

/-- The prior mean of 7, 7, 6 in `float64`: the binary64 number nearest to 20/3. -/
theorem mean_of_7_7_6 :
    priorMean ((callsOf [7, 7, 6] ++ [(⟨5, 3000000000, 3000000000⟩ : Call)]).map snapshotOf)
      = 7505999378950827 / 1125899906842624 := by
  rw [priorMean_calls _ _ 20 3 (by decide) (by decide) (by decide) (by decide) (by decide)]
  have e : ((20 : Int) : ℚ) / ((3 : Nat) : ℚ) = 20 / 3 := by norm_num
  rw [e, toFloat64_eval (20 / 3) 2 7505999378950827 (by norm_num) (by norm_num) (by norm_num)
    (by norm_num)]
  norm_num

/-- The decrease from that mean to 5 in `float64`: the binary64 number next
above 1/4. -/
theorem decrease_of_7_7_6_5 :
    priorDecrease ((callsOf [7, 7, 6] ++ [(⟨5, 3000000000, 3000000000⟩ : Call)]).map snapshotOf) 5
      = 4503599627370497 / 18014398509481984 := by
  unfold priorDecrease
  rw [mean_of_7_7_6]
  have e5 : toFloat64 ((5 : Int) : ℚ) = 5 := by
    rw [toFloat64_int 5 (by decide) (by decide)]
    norm_num
  have et : toFloat64 ((7505999378950827 : ℚ) / 1125899906842624 - 5)
      = 1876499844737707 / 1125899906842624 := by
    have h := toFloat64_dyadic 1876499844737707 50 (by decide)
    have e : (7505999378950827 : ℚ) / 1125899906842624 - 5
        = ((1876499844737707 : Int) : ℚ) / (2 : ℚ) ^ 50 := by norm_num
    rw [e, h]
    norm_num
  rw [e5, et]
  rw [toFloat64_eval _ (-2) 4503599627370497 (by norm_num) (by norm_num) (by norm_num)
    (by norm_num)]
  norm_num

/-- Counterexample to C4 as stated: on 7, 7, 6, 5 with thresholds `(3, 0.25)`,
fed to a fresh detector one second apart, the fourth call finds 4 entries and
2 changes, fewer than `oscillationThreshold`; the arithmetic mean of 7, 7, 6
is 20/3 and the decrease `(20/3 - 5) / (20/3)` is exactly 1/4, which is not
above the threshold; yet the call returns `isTransient = true`: in `float64`
the mean is rounded up and the decrease comes out as `0.25000000000000006`. -/
theorem exact_decision_counterexample :
    (3 ≤ ((callsOf [7, 7, 6] ++ [(⟨5, 3000000000, 3000000000⟩ : Call)]).map snapshotOf).length ∧
      adjacentChanges
        ((callsOf [7, 7, 6] ++ [(⟨5, 3000000000, 3000000000⟩ : Call)]).map snapshotOf) = 2 ∧
      exactMean ((callsOf [7, 7, 6] ++ [(⟨5, 3000000000, 3000000000⟩ : Call)]).map snapshotOf)
        = 20 / 3 ∧
      exactDecrease
        ((callsOf [7, 7, 6] ++ [(⟨5, 3000000000, 3000000000⟩ : Call)]).map snapshotOf) 5
        = 1 / 4 ∧
      toFloat64 (1 / 4) = 1 / 4) ∧
    (runDetector utcFormatter (NewDetector tenMinutes 3 (1 / 4)) (callsOf [7, 7, 6])).1.history
      ++ [⟨5, 3000000000⟩]
      = (callsOf [7, 7, 6] ++ [(⟨5, 3000000000, 3000000000⟩ : Call)]).map snapshotOf ∧
    (IsTransientIssue utcFormatter
      (runDetector utcFormatter (NewDetector tenMinutes 3 (1 / 4)) (callsOf [7, 7, 6])).1
      5 3000000000 3000000000).2.1 = true := by
  have hsum : exactMean
      ((callsOf [7, 7, 6] ++ [(⟨5, 3000000000, 3000000000⟩ : Call)]).map snapshotOf) = 20 / 3 := by
    have h1 : (((callsOf [7, 7, 6] ++ [(⟨5, 3000000000, 3000000000⟩ : Call)]).map
        snapshotOf).dropLast.map Snapshot.ItemCount).sum = 20 := by decide
    have h2 : ((callsOf [7, 7, 6] ++ [(⟨5, 3000000000, 3000000000⟩ : Call)]).map
        snapshotOf).dropLast.length = 3 := by decide
    unfold exactMean
    rw [h1, h2]
    norm_num
  refine ⟨⟨by decide, by decide, hsum, ?_, ?_⟩, by decide, ?_⟩
  · unfold exactDecrease
    rw [hsum]
    norm_num
  · have h := toFloat64_dyadic 1 2 (by decide)
    norm_num at h
    exact h
  · have h := lastCall_drop_rule utcFormatter tenMinutes 3 (1 / 4) (callsOf [7, 7, 6])
      ⟨5, 3000000000, 3000000000⟩ (by decide) (by decide) (by decide)
    have hc : (⟨5, 3000000000, 3000000000⟩ : Call).count = 5 := rfl
    have hn1 : (⟨5, 3000000000, 3000000000⟩ : Call).now1 = 3000000000 := rfl
    have hn2 : (⟨5, 3000000000, 3000000000⟩ : Call).now2 = 3000000000 := rfl
    rw [hc, hn1, hn2] at h
    rw [h, mean_of_7_7_6, decrease_of_7_7_6_5, if_pos]
    constructor <;> norm_num

/-- The state of `swinging` after the observation of 3 at second 3. -/
theorem swinging_step :
    (IsTransientIssue utcFormatter swinging 3 3000000000 3000000000).1
      = ⟨[⟨12, 0⟩, ⟨6, 1000000000⟩, ⟨12, 2000000000⟩, ⟨3, 3000000000⟩], tenMinutes, 2, float03⟩ := by
  simp [IsTransientIssue, swinging, pruneHistory, tenMinutes, Minute]

theorem minutes_tenMinutes : Minutes tenMinutes = 10 := by
  have h1 : Int.tdiv 600000000000 60000000000 = 10 := by decide
  have h2 : Int.tmod 600000000000 60000000000 = 0 := by decide
  have e10 : toFloat64 ((10 : Int) : ℚ) = 10 := by
    rw [toFloat64_int 10 (by decide) (by decide)]
    norm_num
  have e : Minutes tenMinutes
      = toFloat64 (toFloat64 ((10 : Int) : ℚ) + toFloat64 (toFloat64 ((0 : Int) : ℚ) / 60000000000))
      := by
    simp only [Minutes, tenMinutes, Minute]
    norm_num [h1, h2]
  rw [e, e10]
  norm_num [toFloat64_zero]
  have := e10
  norm_num at this
  exact this

theorem float0_ten : utcFormatter.float0 10 = "10" := by
  have h : roundHalfEven |(10 : ℚ)| = 10 := by
    have h1 : |(10 : ℚ)| = ((10 : Int) : ℚ) := by norm_num
    rw [h1]
    simp [roundHalfEven]
  simp only [utcFormatter, h]
  norm_num
  rfl

/-- What the call on `swinging` returns. -/
theorem swinging_reason :
    (IsTransientIssue utcFormatter swinging 3 3000000000 3000000000).2 =
      (true, "Oscillation detected: 3 count changes in last 10 minutes. Pattern: 12@00:00:00 → 6@00:00:01 → 12@00:00:02 → 3@00:00:03") := by
  have h : (IsTransientIssue utcFormatter swinging 3 3000000000 3000000000).2
      = classify utcFormatter
          (IsTransientIssue utcFormatter swinging 3 3000000000 3000000000).1 3 := rfl
  rw [h, swinging_step, classify_eq]
  have hc : adjacentChanges
      [(⟨12, 0⟩ : Snapshot), ⟨6, 1000000000⟩, ⟨12, 2000000000⟩, ⟨3, 3000000000⟩] = 3 := by
    decide
  simp only [hc]
  simp only [oscillationReason, minutes_tenMinutes, float0_ten]
  decide

/-- The prior mean of 12, 6, 12 is 10. -/
theorem swinging_mean :
    priorMean (IsTransientIssue utcFormatter swinging 3 3000000000 3000000000).1.history
      = 10 := by
  rw [swinging_step, priorMean_eq _ 30 3 (by decide) (by decide) (by decide) (by decide)
    (by decide)]
  have e : ((30 : Int) : ℚ) / ((3 : Nat) : ℚ) = ((10 : Int) : ℚ) := by norm_num
  rw [e, toFloat64_int 10 (by decide) (by decide)]
  norm_num

/-- The decrease from 10 to 3 computed in `float64` is above `0.3`. -/
theorem swinging_decrease :
    float03 < priorDecrease
      (IsTransientIssue utcFormatter swinging 3 3000000000 3000000000).1.history 3 := by
  unfold priorDecrease
  rw [swinging_mean]
  have e3 : toFloat64 ((3 : Int) : ℚ) = 3 := by
    rw [toFloat64_int 3 (by decide) (by decide)]
    norm_num
  have e7 : toFloat64 ((10 : ℚ) - 3) = 7 := by
    have : ((10 : ℚ) - 3) = ((7 : Int) : ℚ) := by norm_num
    rw [this, toFloat64_int 7 (by decide) (by decide)]
    norm_num
  rw [e3, e7]
  apply lt_toFloat64_of_lt _ (1 / 2)
  · have h := toFloat64_dyadic 1 1 (by decide)
    norm_num at h
    exact h
  · norm_num [float03]
  · norm_num

/-- Counterexample to C5 as stated: on the history 12, 6, 12 with thresholds
`(2, 0.3)`, reached from a fresh detector, the observation of 3 satisfies both
the oscillation condition (3 changes) and the sudden-drop condition (mean 10,
decrease 70%, in exact arithmetic and as the code computes them), and the
reason returned is the oscillation reason alone, not the sudden-drop reason. -/
theorem reason_reports_drop_counterexample :
    (runDetector utcFormatter (NewDetector tenMinutes 2 float03) (callsOf [12, 6, 12])).1
      = swinging ∧
    (3 ≤ (IsTransientIssue utcFormatter swinging 3 3000000000 3000000000).1.history.length ∧
      swinging.oscillationThreshold ≤
        (adjacentChanges
          (IsTransientIssue utcFormatter swinging 3 3000000000 3000000000).1.history : Int) ∧
      exactMean (IsTransientIssue utcFormatter swinging 3 3000000000 3000000000).1.history = 10 ∧
      swinging.dropThreshold < ((10 : ℚ) - ((3 : Int) : ℚ)) / 10 ∧
      0 < priorMean (IsTransientIssue utcFormatter swinging 3 3000000000 3000000000).1.history ∧
      swinging.dropThreshold < priorDecrease
        (IsTransientIssue utcFormatter swinging 3 3000000000 3000000000).1.history 3) ∧
    (IsTransientIssue utcFormatter swinging 3 3000000000 3000000000).2 =
      (true, "Oscillation detected: 3 count changes in last 10 minutes. Pattern: 12@00:00:00 → 6@00:00:01 → 12@00:00:02 → 3@00:00:03") ∧
    (∀ x y : ℚ, (IsTransientIssue utcFormatter swinging 3 3000000000 3000000000).2.2 ≠
      suddenDropReason utcFormatter x y 3) := by
  refine ⟨swinging_reached _, ⟨by decide, by decide, ?_, ?_, ?_, swinging_decrease⟩,
    swinging_reason, ?_⟩
  · rw [swinging_step]
    norm_num [exactMean]
  · norm_num [swinging, float03]
  · rw [swinging_mean]
    norm_num
  · intro x y
    rw [swinging_reason]
    simp [suddenDropReason, String.ext_iff]

/-- C5 (amended): the rules are checked in order on a history of at least 3
entries. When the oscillation condition holds the call returns `true` with the
oscillation reason, whether or not the sudden-drop condition holds as well; the
sudden-drop reason (percentage decrease, prior mean, current count) is returned
when the sudden-drop condition, on the mean and the decrease that the code
computes in `float64`, holds and the oscillation condition does not. -/
theorem rule_order (F : Formatter) (d : Detector) (c now1 now2 : Int)
    (hlen : 3 ≤ (IsTransientIssue F d c now1 now2).1.history.length) :
    (d.oscillationThreshold ≤
        (adjacentChanges (IsTransientIssue F d c now1 now2).1.history : Int) →
      (IsTransientIssue F d c now1 now2).2 =
        (true, oscillationReason F (IsTransientIssue F d c now1 now2).1
          (adjacentChanges (IsTransientIssue F d c now1 now2).1.history : Int))) ∧
    (¬ d.oscillationThreshold ≤
        (adjacentChanges (IsTransientIssue F d c now1 now2).1.history : Int) →
      0 < priorMean (IsTransientIssue F d c now1 now2).1.history →
      d.dropThreshold < priorDecrease (IsTransientIssue F d c now1 now2).1.history c →
      (IsTransientIssue F d c now1 now2).2 =
        (true, suddenDropReason F
          (priorDecrease (IsTransientIssue F d c now1 now2).1.history c)
          (priorMean (IsTransientIssue F d c now1 now2).1.history) c)) := by
  simp only [IsTransientIssue] at hlen ⊢
  rw [classify_eq]
  have h3 : ¬ (pruneHistory (now2 - d.windowDuration) (d.history ++ [⟨c, now1⟩])).length < 3 := by
    omega
  constructor
  · intro ho
    simp only [h3, if_false, ho, if_true]
  · intro ho hm hd
    simp only [h3, if_false, ho, hm, hd, and_self, if_true]

/-- Witness of C5 (amended): the oscillation reason on `swinging`, where both
conditions hold, and the sudden-drop reason on `stable12`. -/
theorem rule_order_witness :
    (IsTransientIssue utcFormatter swinging 3 3000000000 3000000000).2 =
        (true, oscillationReason utcFormatter
          (IsTransientIssue utcFormatter swinging 3 3000000000 3000000000).1
          (adjacentChanges
            (IsTransientIssue utcFormatter swinging 3 3000000000 3000000000).1.history : Int)) ∧
    (IsTransientIssue utcFormatter stable12 5 3000000000 3000000000).2 =
        (true, suddenDropReason utcFormatter
          (priorDecrease
            (IsTransientIssue utcFormatter stable12 5 3000000000 3000000000).1.history 5)
          (priorMean (IsTransientIssue utcFormatter stable12 5 3000000000 3000000000).1.history)
          5) :=
  ⟨(rule_order utcFormatter swinging 3 3000000000 3000000000 (by decide)).1 (by decide),
    (rule_order utcFormatter stable12 5 3000000000 3000000000 (by decide)).2 (by decide)
      (by rw [stable12_mean]; norm_num) stable12_decrease⟩

/-! ## Claims on sequences of calls -/

/-- C6 (amended): for every configuration and every sequence of at least 3
observations fed to a fresh detector inside one detection window, if the
observed counts contain `oscillationThreshold` or more adjacent differing pairs,
the last call returns `isTransient = true` (for every `oscillationThreshold`,
also 1 and values at or below 0). -/
theorem oscillating_sequence_flagged (F : Formatter) (w o : Int) (t : ℚ) (pre : List Call)
    (c : Call) (hin : insideWindow w (pre ++ [c])) (hlen : 3 ≤ (pre ++ [c]).length)
    (hosc : o ≤ (adjacentChanges ((pre ++ [c]).map snapshotOf) : Int)) :
    (IsTransientIssue F (runDetector F (NewDetector w o t) pre).1 c.count c.now1 c.now2).2.1
      = true := by
  rw [lastCall_insideWindow F w o t pre c hin]
  rw [classify_fst_iff]
  refine ⟨by simpa using hlen, Or.inl hosc⟩

/-- Counterexample to C6 as stated: with `oscillationThreshold = 1` the
observations 12, 11 inside the window contain one differing adjacent pair, the
history holds both of them, and no call is flagged (two entries only). -/
theorem oscillating_sequence_counterexample :
    insideWindow tenMinutes (callsOf [12, 11]) ∧
    ((1 : Int) ≤ (adjacentChanges ((callsOf [12, 11]).map snapshotOf) : Int)) ∧
    (runDetector utcFormatter (NewDetector tenMinutes 1 float01) (callsOf [12, 11])).1.history
      = (callsOf [12, 11]).map snapshotOf ∧
    (runDetector utcFormatter (NewDetector tenMinutes 1 float01) (callsOf [12, 11])).2
      = [(false, ""), (false, "")] := by
  refine ⟨by decide, by decide, by decide, by decide⟩

/-- Witness of C6 (amended): the strict test case 12, 12, 11 with
`oscillationThreshold = 1`. -/
theorem oscillating_sequence_flagged_witness :
    (insideWindow tenMinutes (callsOf [12, 12] ++ [(⟨11, 2000000000, 2000000000⟩ : Call)]) ∧
      3 ≤ (callsOf [12, 12] ++ [(⟨11, 2000000000, 2000000000⟩ : Call)]).length ∧
      (1 : Int) ≤ (adjacentChanges
        ((callsOf [12, 12] ++ [(⟨11, 2000000000, 2000000000⟩ : Call)]).map snapshotOf) : Int)) ∧
    (IsTransientIssue utcFormatter
      (runDetector utcFormatter (NewDetector tenMinutes 1 float01) (callsOf [12, 12])).1
      11 2000000000 2000000000).2.1 = true :=
  ⟨⟨by decide, by decide, by decide⟩,
    oscillating_sequence_flagged utcFormatter tenMinutes 1 float01 (callsOf [12, 12])
      ⟨11, 2000000000, 2000000000⟩ (by decide) (by decide) (by decide)⟩

/-- Counterexample to C7 as stated: a detector with `windowDuration` of one
nanosecond, which is positive, and a call that reads the clock at 0 for the
snapshot and at 89 nanoseconds for the cut-off. The snapshot is appended and
pruned by the same call: the history after the call is empty and does not end
with the observation. -/
theorem observation_recorded_counterexample :
    0 < (NewDetector 1 2 float03).windowDuration ∧
    (IsTransientIssue utcFormatter (NewDetector 1 2 float03) 12 0 89).1.history = [] ∧
    (IsTransientIssue utcFormatter (NewDetector 1 2 float03) 12 0 89).1.history.getLast?
      ≠ some ⟨12, 0⟩ := by
  refine ⟨by decide, by decide, by decide⟩

/-- C7 (amended): every observation is recorded whatever its classification,
when the window is longer than the time the call takes between its two clock
readings. For every detector and every call `IsTransientIssue(c)` that reads the
clock at `now1` for the snapshot and at `now2` for the cut-off with
`now2 - now1 < windowDuration` (for a call made at one instant
`t = now1 = now2` this is `windowDuration > 0`), the history after the call is
the previous entries that are inside the window, in their previous order,
followed by the snapshot `(c, now1)`; the configuration is unchanged. Nothing is
assumed about what the call returns. -/
theorem observation_recorded (F : Formatter) (d : Detector) (c now1 now2 : Int)
    (h : now2 - d.windowDuration < now1) :
    (IsTransientIssue F d c now1 now2).1.history =
        d.history.filter (fun s => decide (now2 - d.windowDuration < s.Timestamp))
          ++ [⟨c, now1⟩] ∧
      (IsTransientIssue F d c now1 now2).1.history.getLast? = some ⟨c, now1⟩ ∧
      (IsTransientIssue F d c now1 now2).1.windowDuration = d.windowDuration ∧
      (IsTransientIssue F d c now1 now2).1.oscillationThreshold = d.oscillationThreshold ∧
      (IsTransientIssue F d c now1 now2).1.dropThreshold = d.dropThreshold := by
  have h1 : (IsTransientIssue F d c now1 now2).1.history =
      d.history.filter (fun s => decide (now2 - d.windowDuration < s.Timestamp))
        ++ [⟨c, now1⟩] := by
    rw [IsTransientIssue_fst]
    simp [pruneHistory, h]
  refine ⟨h1, ?_, rfl, rfl, rfl⟩
  rw [h1]
  simp

/-- Witness of C7 (amended): the observation of 5 on `stable12`, made at one instant with
`windowDuration > 0`; this call is flagged and the snapshot is recorded. -/
theorem observation_recorded_witness :
    (0 < stable12.windowDuration ∧
      (IsTransientIssue utcFormatter stable12 5 3000000000 3000000000).2.1 = true) ∧
    ((IsTransientIssue utcFormatter stable12 5 3000000000 3000000000).1.history =
        stable12.history.filter
            (fun s => decide (3000000000 - stable12.windowDuration < s.Timestamp))
          ++ [⟨5, 3000000000⟩] ∧
      (IsTransientIssue utcFormatter stable12 5 3000000000 3000000000).1.history.getLast?
        = some ⟨5, 3000000000⟩ ∧
      (IsTransientIssue utcFormatter stable12 5 3000000000 3000000000).1.windowDuration
        = stable12.windowDuration ∧
      (IsTransientIssue utcFormatter stable12 5 3000000000 3000000000).1.oscillationThreshold
        = stable12.oscillationThreshold ∧
      (IsTransientIssue utcFormatter stable12 5 3000000000 3000000000).1.dropThreshold
        = stable12.dropThreshold) :=
  ⟨⟨by decide, by
      rw [IsTransientIssue_snd, classify_fst_iff]
      refine ⟨by decide, Or.inr ⟨?_, stable12_decrease⟩⟩
      rw [stable12_mean]; norm_num⟩,
    observation_recorded utcFormatter stable12 5 3000000000 3000000000 (by decide)⟩

/-! ## Histories with two levels -/

theorem adjacentChanges_nil : adjacentChanges [] = 0 := rfl

theorem adjacentChanges_singleton (x : Snapshot) : adjacentChanges [x] = 0 := rfl

theorem adjacentChanges_cons_cons (x y : Snapshot) (r : List Snapshot) :
    adjacentChanges (x :: y :: r) =
      (if x.ItemCount ≠ y.ItemCount then 1 else 0) + adjacentChanges (y :: r) := by
  by_cases h : x.ItemCount = y.ItemCount
  · simp [adjacentChanges, h, List.filter_cons]
  · simp [adjacentChanges, h, List.filter_cons]
    omega

theorem adjacentChanges_constant (b : Int) (h : List Snapshot)
    (hb : ∀ s ∈ h, s.ItemCount = b) : adjacentChanges h = 0 := by
  induction h with
  | nil => rfl
  | cons x t ih =>
    cases t with
    | nil => rfl
    | cons y r =>
      rw [adjacentChanges_cons_cons, ih (fun s hs => hb s (List.mem_cons_of_mem _ hs))]
      have hx := hb x (List.mem_cons_self _ _)
      have hy := hb y (List.mem_cons_of_mem _ (List.mem_cons_self _ _))
      simp [hx, hy]

/-- A history whose counts are `k` times `a` followed by `j` times `b` has at
most one change. -/
theorem adjacentChanges_two_levels (a b : Int) (k j : Nat) (h : List Snapshot)
    (hc : h.map Snapshot.ItemCount = List.replicate k a ++ List.replicate j b) :
    adjacentChanges h ≤ 1 := by
  induction k generalizing h with
  | zero =>
    have hb : ∀ s ∈ h, s.ItemCount = b := by
      intro s hs
      have hm : s.ItemCount ∈ h.map Snapshot.ItemCount := List.mem_map_of_mem _ hs
      rw [hc] at hm
      simp at hm
      exact hm.2
    rw [adjacentChanges_constant b h hb]
    omega
  | succ k ih =>
    cases h with
    | nil => simp [adjacentChanges_nil]
    | cons x t =>
      simp only [List.map_cons, List.replicate_succ, List.cons_append, List.cons.injEq] at hc
      obtain ⟨hx, ht⟩ := hc
      cases t with
      | nil => simp [adjacentChanges_singleton]
      | cons y r =>
        rw [adjacentChanges_cons_cons]
        cases k with
        | zero =>
          have hb : ∀ s ∈ y :: r, s.ItemCount = b := by
            intro s hs
            have hm : s.ItemCount ∈ (y :: r).map Snapshot.ItemCount := List.mem_map_of_mem _ hs
            rw [ht] at hm
            simp at hm
            exact hm.2
          rw [adjacentChanges_constant b (y :: r) hb]
          split <;> omega
        | succ k =>
          have hy : y.ItemCount = a := by
            simp only [List.map_cons, List.replicate_succ, List.cons_append, List.cons.injEq] at ht
            exact ht.1
          have := ih (y :: r) ht
          simp [hx, hy]
          exact this

/-- The prior mean is a binary64 number. -/
theorem toFloat64_priorMean (h : List Snapshot) : toFloat64 (priorMean h) = priorMean h := by
  unfold priorMean
  rw [toFloat64_idem]

/-- The counts before the newest entry of a history whose counts are `k` times
`a` followed by `j + 1` times `b`. -/
theorem dropLast_two_levels (a b : Int) (k j : Nat) (h : List Snapshot)
    (hc : h.map Snapshot.ItemCount = List.replicate k a ++ List.replicate (j + 1) b) :
    (h.dropLast.map Snapshot.ItemCount).sum = (k : Int) * a + (j : Int) * b ∧
      h.dropLast.length = k + j := by
  have hd : h.dropLast.map Snapshot.ItemCount = List.replicate k a ++ List.replicate j b := by
    have h1 : h.dropLast.map Snapshot.ItemCount = (h.map Snapshot.ItemCount).dropLast := by
      simp [List.map_dropLast]
    rw [h1, hc, List.replicate_succ', ← List.append_assoc, List.dropLast_concat]
  constructor
  · rw [hd]
    simp [List.sum_append, List.sum_replicate]
  · have := congrArg List.length hd
    simpa using this

/-- The prior mean of a history whose counts are `k` times `a` followed by
`j + 1` times `b`, when the prior sum and the number of prior entries are at
most `2^53`: the exact mean, rounded once. -/
theorem priorMean_two_levels (a b : Int) (k j : Nat) (h : List Snapshot)
    (hc : h.map Snapshot.ItemCount = List.replicate k a ++ List.replicate (j + 1) b)
    (h1 : 0 ≤ (k : Int) * a + (j : Int) * b)
    (h2 : (k : Int) * a + (j : Int) * b ≤ 9007199254740992)
    (h3 : k + j ≤ 9007199254740992) :
    priorMean h = toFloat64 (((k : ℚ) * (a : ℚ) + (j : ℚ) * (b : ℚ)) / ((k : ℚ) + (j : ℚ))) := by
  obtain ⟨hs, hl⟩ := dropLast_two_levels a b k j h hc
  rw [priorMean_eq h _ (k + j) hs hl (by omega) h2 h3]
  push_cast
  rfl

/-- The sudden-drop rule is silent when the prior mean is at most the current
count and `dropThreshold ≥ 0`: the decrease is not positive. -/
theorem drop_rule_silent_of_mean_le (h : List Snapshot) (c : Int) (thr : ℚ) (ht : 0 ≤ thr)
    (hc1 : -9007199254740992 ≤ c) (hc2 : c ≤ 9007199254740992)
    (hle : priorMean h ≤ (c : ℚ)) :
    ¬ (0 < priorMean h ∧ thr < priorDecrease h c) := by
  rintro ⟨hm, hd⟩
  unfold priorDecrease at hd
  rw [toFloat64_int c hc1 hc2] at hd
  have h1 : toFloat64 (priorMean h - (c : ℚ)) ≤ 0 := toFloat64_nonpos _ (by linarith)
  have h2 : toFloat64 (priorMean h - (c : ℚ)) / priorMean h ≤ 0 :=
    div_nonpos_of_nonpos_of_nonneg h1 (le_of_lt hm)
  have h3 := toFloat64_nonpos _ h2
  linarith

/-- The sudden-drop rule is silent when the prior mean `m`, at least the current
count `c ≥ 0` and at most `2^53`, satisfies `m (1 - dropThreshold) ≤ c`, for a
threshold that is a binary64 number: the subtraction `m - c` is exact and the
quotient, at most the threshold, is not rounded above it. -/
theorem drop_rule_silent_of_cond (h : List Snapshot) (c : Int) (thr : ℚ)
    (hthr : toFloat64 thr = thr) (hc0 : 0 ≤ c) (hcm : (c : ℚ) ≤ priorMean h)
    (h53 : priorMean h ≤ 9007199254740992) (hcond : priorMean h * (1 - thr) ≤ (c : ℚ)) :
    ¬ (0 < priorMean h ∧ thr < priorDecrease h c) := by
  rintro ⟨hm, hd⟩
  have hc2 : c ≤ 9007199254740992 := by
    have : (c : ℚ) ≤ ((9007199254740992 : Int) : ℚ) := by
      push_cast
      linarith
    exact_mod_cast this
  unfold priorDecrease at hd
  rw [toFloat64_int c (by omega) hc2,
    toFloat64_sub_intCast (priorMean h) c (toFloat64_priorMean h) hc0 hcm h53] at hd
  have hr : (priorMean h - (c : ℚ)) / priorMean h ≤ thr := by
    rw [div_le_iff₀ hm]
    linarith
  have := toFloat64_le_of_le _ thr hthr hr
  linarith

/-- The exact mean of `k` times `a` and `j` times `b` lies between the two
levels. -/
theorem mean_between (a b : ℚ) (k j : Nat) (hab : a ≤ b) (hn : 0 < k + j) :
    a ≤ ((k : ℚ) * a + (j : ℚ) * b) / ((k : ℚ) + (j : ℚ)) ∧
      ((k : ℚ) * a + (j : ℚ) * b) / ((k : ℚ) + (j : ℚ)) ≤ b := by
  have hnQ : (0 : ℚ) < (k : ℚ) + (j : ℚ) := by exact_mod_cast hn
  have hk : (0 : ℚ) ≤ (k : ℚ) := by positivity
  have hj : (0 : ℚ) ≤ (j : ℚ) := by positivity
  constructor
  · rw [le_div_iff₀ hnQ]
    nlinarith
  · rw [div_le_iff₀ hnQ]
    nlinarith

theorem last_count_of_two_levels (a b : Int) (k j : Nat) (pre : List Call) (c : Call)
    (hc : (pre ++ [c]).map Call.count = List.replicate k a ++ List.replicate (j + 1) b) :
    c.count = b := by
  rw [List.map_append, List.replicate_succ', ← List.append_assoc] at hc
  have := List.append_inj' hc (by simp)
  simpa using this.2

theorem map_snapshot_counts (calls : List Call) :
    (calls.map snapshotOf).map Snapshot.ItemCount = calls.map Call.count := by
  simp [snapshotOf, Function.comp_def]

/-- On a two-level history the oscillation rule is silent for
`oscillationThreshold ≥ 2`. -/
theorem oscillation_silent_two_levels (a b : Int) (k j : Nat) (osc : Int) (h : List Snapshot)
    (hc : h.map Snapshot.ItemCount = List.replicate k a ++ List.replicate j b) (ho : 2 ≤ osc) :
    ¬ osc ≤ (adjacentChanges h : Int) := by
  have hch := adjacentChanges_two_levels a b k j h hc
  have : (adjacentChanges h : Int) ≤ 1 := by exact_mod_cast hch
  omega

/-- The arithmetic behind the acceptance of a sustained change: once
`k |a - b| ≤ (thr - 2^-53) i b`, the exact mean `m` of `k` times `a` and `i`
times `b` satisfies `m (1 + 2^-53) (1 - thr) ≤ b`. -/
theorem mean_close_to_level (a b thr : ℚ) (k i : Nat) (ha : 0 ≤ a) (hb : 0 < b)
    (hn : 0 < k + i) (ht0 : 1 / 9007199254740992 < thr) (ht1 : thr < 1)
    (hi : (k : ℚ) * |a - b| / ((thr - 1 / 9007199254740992) * b) ≤ (i : ℚ)) :
    ((k : ℚ) * a + (i : ℚ) * b) / ((k : ℚ) + (i : ℚ)) * (1 + 1 / 9007199254740992) * (1 - thr)
      ≤ b := by
  have hnQ : (0 : ℚ) < (k : ℚ) + (i : ℚ) := by exact_mod_cast hn
  have hk : (0 : ℚ) ≤ (k : ℚ) := by positivity
  have hiQ : (0 : ℚ) ≤ (i : ℚ) := by positivity
  have hθ : (0 : ℚ) < thr - 1 / 9007199254740992 := by linarith
  have hden : (0 : ℚ) < (thr - 1 / 9007199254740992) * b := mul_pos hθ hb
  rw [div_le_iff₀ hden] at hi
  have habs : a - b ≤ |a - b| := le_abs_self _
  have h1 : (k : ℚ) * (a - b) ≤ (i : ℚ) * ((thr - 1 / 9007199254740992) * b) :=
    le_trans (mul_le_mul_of_nonneg_left habs hk) hi
  have hS : (0 : ℚ) ≤ (k : ℚ) * a + (i : ℚ) * b := by positivity
  have hm : (0 : ℚ) ≤ ((k : ℚ) * a + (i : ℚ) * b) / ((k : ℚ) + (i : ℚ)) :=
    div_nonneg hS (le_of_lt hnQ)
  have hfac : (1 + 1 / 9007199254740992) * (1 - thr) ≤ 1 - (thr - 1 / 9007199254740992) := by
    nlinarith
  have h2 : ((k : ℚ) * a + (i : ℚ) * b) / ((k : ℚ) + (i : ℚ))
      * ((1 + 1 / 9007199254740992) * (1 - thr))
      ≤ ((k : ℚ) * a + (i : ℚ) * b) / ((k : ℚ) + (i : ℚ))
        * (1 - (thr - 1 / 9007199254740992)) :=
    mul_le_mul_of_nonneg_left hfac hm
  have h3 : ((k : ℚ) * a + (i : ℚ) * b) / ((k : ℚ) + (i : ℚ))
      * (1 - (thr - 1 / 9007199254740992)) ≤ b := by
    rw [div_mul_eq_mul_div, div_le_iff₀ hnQ]
    have h4 : (0 : ℚ) ≤ (thr - 1 / 9007199254740992) * ((k : ℚ) * a) :=
      mul_nonneg (le_of_lt hθ) (mul_nonneg hk ha)
    nlinarith
  calc ((k : ℚ) * a + (i : ℚ) * b) / ((k : ℚ) + (i : ℚ)) * (1 + 1 / 9007199254740992) * (1 - thr)
      = ((k : ℚ) * a + (i : ℚ) * b) / ((k : ℚ) + (i : ℚ))
        * ((1 + 1 / 9007199254740992) * (1 - thr)) := by ring
    _ ≤ _ := h2
    _ ≤ b := h3

/-- A rounded number is at most the number increased by `2^-53` of itself. -/
theorem toFloat64_le_mul (x : ℚ) (hx : 0 ≤ x) :
    toFloat64 x ≤ x * (1 + 1 / 9007199254740992) := by
  have h := toFloat64_sub_le x
  rw [abs_of_nonneg hx, abs_le] at h
  have : x * (1 + 1 / 9007199254740992) = x + x / 9007199254740992 := by ring
  rw [this]
  linarith

/-- C8 (amended): a sustained change to a positive level is accepted from an
explicit observation on. For all levels `a, b ≥ 0` with `b > 0` (or with
`dropThreshold ≥ 1`), every `k ≥ 2`, `oscillationThreshold ≥ 2` and every
`float64` threshold above `2^-53`, there is `N ≥ 1`, at most
`k |a - b| / ((dropThreshold - 2^-53) b) + 2`, such that, when `k` observations
of `a` are followed by `j ≥ N` observations of `b`, all entries stay inside the
detection window, and the window holds at most `2^53` observations whose counts
sum to at most `2^53`, the last observation is classified `(false, "")`. -/
theorem sustained_change_accepted (F : Formatter) (w osc : Int) (thr : ℚ) (a b : Int) (k : Nat)
    (ha : 0 ≤ a) (hb : 0 ≤ b) (hk : 2 ≤ k) (ho : 2 ≤ osc)
    (hthr : toFloat64 thr = thr) (ht0 : 1 / 9007199254740992 < thr)
    (hb0 : 0 < b ∨ 1 ≤ thr) :
    ∃ N : Nat, 1 ≤ N ∧
      (N : ℚ) ≤ (k : ℚ) * |(a : ℚ) - (b : ℚ)|
        / ((thr - 1 / 9007199254740992) * (b : ℚ)) + 2 ∧
      ∀ j : Nat, N ≤ j → k + j ≤ 9007199254740992 →
        (k : Int) * a + (j : Int) * b ≤ 9007199254740992 →
        ∀ (pre : List Call) (c : Call),
          (pre ++ [c]).map Call.count = List.replicate k a ++ List.replicate j b →
          insideWindow w (pre ++ [c]) →
          (IsTransientIssue F (runDetector F (NewDetector w osc thr) pre).1 c.count c.now1
            c.now2).2 = (false, "") := by
  have haQ : (0 : ℚ) ≤ (a : ℚ) := by exact_mod_cast ha
  have hbQ : (0 : ℚ) ≤ (b : ℚ) := by exact_mod_cast hb
  have hθ : (0 : ℚ) < thr - 1 / 9007199254740992 := by linarith
  have hx : (0 : ℚ) ≤ (k : ℚ) * |(a : ℚ) - (b : ℚ)|
      / ((thr - 1 / 9007199254740992) * (b : ℚ)) :=
    div_nonneg (mul_nonneg (by positivity) (abs_nonneg _)) (mul_nonneg (le_of_lt hθ) hbQ)
  refine ⟨⌈(k : ℚ) * |(a : ℚ) - (b : ℚ)| / ((thr - 1 / 9007199254740992) * (b : ℚ))⌉₊ + 1,
    by omega, ?_, ?_⟩
  · have := Nat.ceil_lt_add_one hx
    push_cast
    linarith
  intro j hj hlen hsum pre c hc hin
  obtain ⟨i, rfl⟩ : ∃ i, j = i + 1 := ⟨j - 1, by omega⟩
  have hi : (k : ℚ) * |(a : ℚ) - (b : ℚ)| / ((thr - 1 / 9007199254740992) * (b : ℚ))
      ≤ (i : ℚ) := by
    have h1 : ⌈(k : ℚ) * |(a : ℚ) - (b : ℚ)|
        / ((thr - 1 / 9007199254740992) * (b : ℚ))⌉₊ ≤ i := by omega
    exact le_trans (Nat.le_ceil _) (by exact_mod_cast h1)
  have hlast := last_count_of_two_levels a b k i pre c hc
  have hcounts : ((pre ++ [c]).map snapshotOf).map Snapshot.ItemCount
      = List.replicate k a ++ List.replicate (i + 1) b := by
    rw [map_snapshot_counts, hc]
  rw [lastCall_insideWindow F w osc thr pre c hin, classify_eq]
  have hno := oscillation_silent_two_levels a b k (i + 1) osc _ hcounts ho
  -- the prior sum and the number of prior entries
  have hib : (0 : Int) ≤ (i : Int) * b := mul_nonneg (by positivity) hb
  have hka : (0 : Int) ≤ (k : Int) * a := mul_nonneg (by positivity) ha
  have hS2 : (k : Int) * a + (i : Int) * b ≤ 9007199254740992 := by
    push_cast at hsum
    nlinarith
  have hb53 : b ≤ 9007199254740992 := by
    push_cast at hsum
    nlinarith
  have hpm := priorMean_two_levels a b k i _ hcounts (by omega) hS2 (by omega)
  have hn : 0 < k + i := by omega
  have hnQ : (0 : ℚ) < (k : ℚ) + (i : ℚ) := by exact_mod_cast hn
  have hSQ : (0 : ℚ) ≤ (k : ℚ) * (a : ℚ) + (i : ℚ) * (b : ℚ) := by positivity
  have hm0 : (0 : ℚ) ≤ ((k : ℚ) * (a : ℚ) + (i : ℚ) * (b : ℚ)) / ((k : ℚ) + (i : ℚ)) :=
    div_nonneg hSQ (le_of_lt hnQ)
  have hm53 : ((k : ℚ) * (a : ℚ) + (i : ℚ) * (b : ℚ)) / ((k : ℚ) + (i : ℚ))
      ≤ 9007199254740992 := by
    rw [div_le_iff₀ hnQ]
    have h1 : (k : ℚ) * (a : ℚ) + (i : ℚ) * (b : ℚ) ≤ 9007199254740992 := by
      exact_mod_cast hS2
    have h2 : (1 : ℚ) ≤ (k : ℚ) + (i : ℚ) := by exact_mod_cast hn
    nlinarith
  have h253 : toFloat64 (9007199254740992 : ℚ) = 9007199254740992 := by
    have := toFloat64_int 9007199254740992 (by decide) (by decide)
    norm_num at this
    exact this
  have hpm53 : priorMean ((pre ++ [c]).map snapshotOf) ≤ 9007199254740992 := by
    rw [hpm]
    exact toFloat64_le_of_le _ _ h253 hm53
  have hpm0 : 0 ≤ priorMean ((pre ++ [c]).map snapshotOf) := by
    rw [hpm]
    exact toFloat64_nonneg _ hm0
  have hsilent : ¬ (0 < priorMean ((pre ++ [c]).map snapshotOf) ∧
      thr < priorDecrease ((pre ++ [c]).map snapshotOf) b) := by
    by_cases hle : priorMean ((pre ++ [c]).map snapshotOf) ≤ (b : ℚ)
    · exact drop_rule_silent_of_mean_le _ b thr (by linarith) (by omega) hb53 hle
    · push_neg at hle
      apply drop_rule_silent_of_cond _ b thr hthr hb (le_of_lt hle) hpm53
      by_cases h1 : 1 ≤ thr
      · have : priorMean ((pre ++ [c]).map snapshotOf) * (1 - thr) ≤ 0 :=
          mul_nonpos_of_nonneg_of_nonpos hpm0 (by linarith)
        linarith
      · push_neg at h1
        have hbpos : (0 : ℚ) < (b : ℚ) := by
          rcases hb0 with h | h
          · exact_mod_cast h
          · exact absurd h (not_le.mpr h1)
        have hclose := mean_close_to_level (a : ℚ) (b : ℚ) thr k i haQ hbpos hn ht0 h1 hi
        have hup := toFloat64_le_mul _ hm0
        rw [← hpm] at hup
        have h1t : (0 : ℚ) ≤ 1 - thr := by linarith
        calc priorMean ((pre ++ [c]).map snapshotOf) * (1 - thr)
            ≤ ((k : ℚ) * (a : ℚ) + (i : ℚ) * (b : ℚ)) / ((k : ℚ) + (i : ℚ))
              * (1 + 1 / 9007199254740992) * (1 - thr) :=
              mul_le_mul_of_nonneg_right hup h1t
          _ ≤ (b : ℚ) := hclose
  rw [hlast]
  simp only [hno, hsilent, if_false]
  split_ifs <;> rfl

/-- After two observations of 12, an observation of 0 is flagged by every
detector with `oscillationThreshold = 2` and `dropThreshold < 1`, however many
observations of 0 came before it inside the window: the prior mean is positive
and the decrease computed in `float64` is 1. -/
theorem drop_to_zero_flagged (F : Formatter) (w : Int) (thr : ℚ) (ht : thr < 1) (N : Nat)
    (pre : List Call) (c : Call)
    (hc : (pre ++ [c]).map Call.count = List.replicate 2 (12 : Int) ++ List.replicate (N + 1) 0)
    (hin : insideWindow w (pre ++ [c])) :
    (IsTransientIssue F (runDetector F (NewDetector w 2 thr) pre).1 c.count c.now1 c.now2).2.1
      = true := by
  have hlast := last_count_of_two_levels 12 0 2 N pre c hc
  have hcounts : ((pre ++ [c]).map snapshotOf).map Snapshot.ItemCount
      = List.replicate 2 (12 : Int) ++ List.replicate (N + 1) 0 := by
    rw [map_snapshot_counts, hc]
  have hlen : (pre ++ [c]).length = N + 3 := by
    have := congrArg List.length hc
    simp at this
    simp
    omega
  have hno := oscillation_silent_two_levels 12 0 2 (N + 1) 2 _ hcounts (le_refl _)
  rw [lastCall_drop_rule F w 2 thr pre c hin (by omega) (by omega)]
  obtain ⟨hs, hl⟩ := dropLast_two_levels 12 0 2 N _ hcounts
  have hpm : priorMean ((pre ++ [c]).map snapshotOf)
      = toFloat64 (toFloat64 ((24 : Int) : ℚ) / toFloat64 (((2 + N : Nat) : Nat) : ℚ)) := by
    unfold priorMean
    rw [hs, hl]
    have : wrapInt ((2 : Nat) * 12 + (N : Int) * 0) = 24 := by
      simp
      decide
    rw [this]
  have hpos : 0 < priorMean ((pre ++ [c]).map snapshotOf) := by
    rw [hpm]
    apply toFloat64_pos
    apply div_pos
    · exact toFloat64_pos _ (by norm_num)
    · apply toFloat64_pos
      have : (0 : ℚ) ≤ (N : ℚ) := by positivity
      push_cast
      linarith
  have hpd : priorDecrease ((pre ++ [c]).map snapshotOf) c.count = 1 := by
    unfold priorDecrease
    rw [hlast]
    have e0 : toFloat64 ((0 : Int) : ℚ) = 0 := by
      rw [Int.cast_zero, toFloat64_zero]
    rw [e0, sub_zero, toFloat64_priorMean, div_self (ne_of_gt hpos)]
    have := toFloat64_int 1 (by decide) (by decide)
    simpa using this
  rw [hpd, if_pos ⟨hpos, ht⟩]

/-- With thresholds `(2, 2^-60)`, after two observations of 3 every observation
of 1 is flagged while the window holds at most `2^53` observations: the mean of
the prior counts stays at least one unit in the last place above 1. -/
theorem tiny_threshold_flagged (F : Formatter) (w : Int) (j : Nat) (hj : 1 ≤ j)
    (hb : j + 6 ≤ 9007199254740992) (pre : List Call) (c : Call)
    (hc : (pre ++ [c]).map Call.count = List.replicate 2 (3 : Int) ++ List.replicate j 1)
    (hin : insideWindow w (pre ++ [c])) :
    (IsTransientIssue F (runDetector F (NewDetector w 2 (1 / 1152921504606846976)) pre).1
      c.count c.now1 c.now2).2.1 = true := by
  obtain ⟨i, rfl⟩ : ∃ i, j = i + 1 := ⟨j - 1, by omega⟩
  have hlast := last_count_of_two_levels 3 1 2 i pre c hc
  have hcounts : ((pre ++ [c]).map snapshotOf).map Snapshot.ItemCount
      = List.replicate 2 (3 : Int) ++ List.replicate (i + 1) 1 := by
    rw [map_snapshot_counts, hc]
  have hlen : (pre ++ [c]).length = i + 3 := by
    have := congrArg List.length hc
    simp at this
    simp
    omega
  have hno := oscillation_silent_two_levels 3 1 2 (i + 1) 2 _ hcounts (le_refl _)
  rw [lastCall_drop_rule F w 2 _ pre c hin (by omega) (by omega)]
  have hpm := priorMean_two_levels 3 1 2 i _ hcounts (by omega) (by omega) (by omega)
  have hiQ : (0 : ℚ) ≤ (i : ℚ) := by positivity
  have hiB : (i : ℚ) + 7 ≤ 9007199254740992 := by exact_mod_cast hb
  have hden : (0 : ℚ) < ((2 : Nat) : ℚ) + (i : ℚ) := by push_cast; linarith
  -- the prior mean lies between 1 + 2^-52 and 3
  have hlow : (4503599627370497 : ℚ) / 4503599627370496
      ≤ priorMean ((pre ++ [c]).map snapshotOf) := by
    rw [hpm]
    apply le_toFloat64_of_le
    · have h := toFloat64_dyadic 4503599627370497 52 (by decide)
      norm_num at h
      exact h
    · rw [le_div_iff₀ hden]
      push_cast
      linarith
  have hup : priorMean ((pre ++ [c]).map snapshotOf) ≤ 3 := by
    rw [hpm]
    apply toFloat64_le_of_le
    · have := toFloat64_int 3 (by decide) (by decide)
      simpa using this
    · rw [div_le_iff₀ hden]
      push_cast
      linarith
  have hpos : 0 < priorMean ((pre ++ [c]).map snapshotOf) := by linarith
  have hpd : (1 : ℚ) / 18014398509481984
      ≤ priorDecrease ((pre ++ [c]).map snapshotOf) c.count := by
    unfold priorDecrease
    rw [hlast, toFloat64_int 1 (by decide) (by decide),
      toFloat64_sub_intCast _ 1 (toFloat64_priorMean _) (by decide)
        (by push_cast; linarith) (by linarith)]
    apply le_toFloat64_of_le
    · have h := toFloat64_dyadic 1 54 (by decide)
      norm_num at h
      exact h
    · rw [le_div_iff₀ hpos]
      push_cast
      linarith
  rw [if_pos]
  refine ⟨hpos, lt_of_lt_of_le (by norm_num) hpd⟩

/-- Counterexample to C8 as stated. With `a = 12`, `b = 0`, `k = 2` and
thresholds `(2, 0.3)` there is no `N` from which the observations of 0 are
accepted while the two observations of 12 are in the window: the prior mean
stays positive and the decrease is 100% at every call, whatever the number of
observations of 0. With `a = 3`, `b = 1`, `k = 2` and thresholds `(2, 2^-60)`,
a positive `float64` threshold, every observation of 1 is flagged while the
window holds at most `2^53` observations. -/
theorem sustained_change_counterexample :
    (¬ ∃ N : Nat, ∀ j : Nat, N ≤ j → ∀ (pre : List Call) (c : Call),
      (pre ++ [c]).map Call.count = List.replicate 2 (12 : Int) ++ List.replicate j (0 : Int) →
      insideWindow tenMinutes (pre ++ [c]) →
      (IsTransientIssue utcFormatter
        (runDetector utcFormatter (NewDetector tenMinutes 2 float03) pre).1 c.count c.now1
        c.now2).2.1 = false) ∧
    (∀ N : Nat, (IsTransientIssue utcFormatter
        (runDetector utcFormatter (NewDetector tenMinutes 2 float03) (dropToZero N)).1
        zeroCall.count zeroCall.now1 zeroCall.now2).2.1 = true) ∧
    ((0 : ℚ) < 1 / 1152921504606846976 ∧
      toFloat64 (1 / 1152921504606846976) = 1 / 1152921504606846976 ∧
      ∀ j : Nat, 1 ≤ j → j + 6 ≤ 9007199254740992 → ∀ (pre : List Call) (c : Call),
        (pre ++ [c]).map Call.count = List.replicate 2 (3 : Int) ++ List.replicate j (1 : Int) →
        insideWindow tenMinutes (pre ++ [c]) →
        (IsTransientIssue utcFormatter
          (runDetector utcFormatter (NewDetector tenMinutes 2 (1 / 1152921504606846976)) pre).1
          c.count c.now1 c.now2).2.1 = true) := by
  have hcounts : ∀ N : Nat, ((dropToZero N ++ [zeroCall]).map Call.count)
      = List.replicate 2 (12 : Int) ++ List.replicate (N + 1) (0 : Int) := by
    intro N
    simp [dropToZero, zeroCall, List.replicate_succ']
  have hin : ∀ N : Nat, insideWindow tenMinutes (dropToZero N ++ [zeroCall]) := by
    intro N c hc c1 hc1
    have h0 : ∀ x ∈ dropToZero N ++ [zeroCall], x.now1 = 0 ∧ x.now2 = 0 := by
      intro x hx
      simp only [dropToZero, zeroCall, List.mem_append, List.mem_replicate,
        List.mem_singleton] at hx
      rcases hx with (⟨_, rfl⟩ | ⟨_, rfl⟩) | rfl <;> exact ⟨rfl, rfl⟩
    rw [(h0 c hc).1, (h0 c1 hc1).2]
    decide
  have hflag : ∀ N : Nat, (IsTransientIssue utcFormatter
      (runDetector utcFormatter (NewDetector tenMinutes 2 float03) (dropToZero N)).1
      zeroCall.count zeroCall.now1 zeroCall.now2).2.1 = true := fun N =>
    drop_to_zero_flagged utcFormatter tenMinutes float03 (by norm_num [float03]) N _ _
      (hcounts N) (hin N)
  refine ⟨?_, hflag, by norm_num, ?_, ?_⟩
  · rintro ⟨N, hN⟩
    have hfalse := hN (N + 1) (by omega) _ _ (hcounts N) (hin N)
    rw [hflag N] at hfalse
    exact Bool.noConfusion hfalse
  · have h := toFloat64_dyadic 1 60 (by decide)
    norm_num at h
    exact h
  · intro j hj hb pre c hc hin2
    exact tiny_threshold_flagged utcFormatter tenMinutes j hj hb pre c hc hin2

/-- Witness of C8 (amended): three observations of 12 followed by observations
of 10, thresholds `(2, 0.3)`. -/
theorem sustained_change_accepted_witness :
    ((0 : Int) ≤ 12 ∧ (0 : Int) ≤ 10 ∧ toFloat64 float03 = float03 ∧
      (1 : ℚ) / 9007199254740992 < float03) ∧
    ∃ N : Nat, 1 ≤ N ∧
      (N : ℚ) ≤ ((3 : Nat) : ℚ) * |((12 : Int) : ℚ) - ((10 : Int) : ℚ)|
        / ((float03 - 1 / 9007199254740992) * ((10 : Int) : ℚ)) + 2 ∧
      ∀ j : Nat, N ≤ j → 3 + j ≤ 9007199254740992 →
        ((3 : Nat) : Int) * 12 + (j : Int) * 10 ≤ 9007199254740992 →
        ∀ (pre : List Call) (c : Call),
          (pre ++ [c]).map Call.count = List.replicate 3 (12 : Int) ++ List.replicate j (10 : Int) →
          insideWindow tenMinutes (pre ++ [c]) →
          (IsTransientIssue utcFormatter
            (runDetector utcFormatter (NewDetector tenMinutes 2 float03) pre).1 c.count c.now1
            c.now2).2 = (false, "") :=
  ⟨⟨by decide, by decide, toFloat64_float03, by norm_num [float03]⟩,
    sustained_change_accepted utcFormatter tenMinutes 2 float03 12 10 3 (by decide) (by decide)
      (by decide) (by decide) toFloat64_float03 (by norm_num [float03]) (Or.inl (by decide))⟩

/-! ## The history invariant -/

/-- A run inside one window all of whose calls classify their history as not
transient returns `(false, "")` at every call. -/
theorem runDetector_all_silent (F : Formatter) (w o : Int) (t : ℚ) (calls : List Call)
    (hin : insideWindow w calls)
    (h : ∀ pre c rest, calls = pre ++ c :: rest →
      classify F ⟨(pre ++ [c]).map snapshotOf, w, o, t⟩ c.count = (false, "")) :
    (runDetector F (NewDetector w o t) calls).2 = List.replicate calls.length (false, "") := by
  induction calls using List.reverseRecOn with
  | nil => simp [runDetector]
  | append_singleton pre c ih =>
    have hpre : insideWindow w pre :=
      insideWindow_of_subset w pre (pre ++ [c]) (fun x hx => List.mem_append_left _ hx) hin
    rw [runDetector_snd_concat, lastCall_insideWindow F w o t pre c hin, ih hpre]
    · rw [h pre c [] rfl]
      simp [List.replicate_succ']
    · intro p x rest hdec
      exact h p x (rest ++ [c]) (by rw [hdec]; simp)

/-- The counts seen by a call of a two-level sequence: either only the first
level, or the whole first level followed by the second. -/
theorem prefix_two_levels (a b : Int) (k j : Nat) (calls pre rest : List Call) (c : Call)
    (hcalls : calls.map Call.count = List.replicate k a ++ List.replicate j b)
    (hdec : calls = pre ++ c :: rest) :
    (∃ i, i < k ∧ (pre ++ [c]).map Call.count = List.replicate (i + 1) a) ∨
      (∃ i, i < j ∧ (pre ++ [c]).map Call.count
        = List.replicate k a ++ List.replicate (i + 1) b) := by
  have htake : (pre ++ [c]).map Call.count = (calls.map Call.count).take (pre.length + 1) := by
    have e : calls.map Call.count = (pre ++ [c]).map Call.count ++ rest.map Call.count := by
      rw [hdec, ← List.map_append]
      simp
    rw [e, List.take_left']
    simp
  have hlen : pre.length + 1 + rest.length = k + j := by
    have := congrArg List.length hcalls
    rw [hdec] at this
    simp at this
    omega
  rw [hcalls, List.take_append_eq_append_take, List.take_replicate, List.take_replicate] at htake
  simp only [List.length_replicate] at htake
  by_cases hm : pre.length < k
  · left
    refine ⟨pre.length, hm, ?_⟩
    rw [htake]
    have h1 : min (pre.length + 1) k = pre.length + 1 := by omega
    have h2 : min (pre.length + 1 - k) j = 0 := by omega
    rw [h1, h2]
    simp
  · right
    refine ⟨pre.length - k, by omega, ?_⟩
    rw [htake]
    have h1 : min (pre.length + 1) k = k := by omega
    have h2 : min (pre.length + 1 - k) j = pre.length - k + 1 := by omega
    rw [h1, h2]

/-- A history of `k` times `a` followed by `i + 1` times `b` with `0 ≤ a ≤ b`
is not flagged when `oscillationThreshold ≥ 2`, `dropThreshold ≥ 0` and the
prior counts, at most `2^53` of them, sum to at most `2^53`: the mean of the
prior counts is at most `b` and is not rounded above it. -/
theorem classify_increase_silent (F : Formatter) (w osc : Int) (thr : ℚ) (a b : Int)
    (k i : Nat) (h : List Snapshot)
    (hc : h.map Snapshot.ItemCount = List.replicate k a ++ List.replicate (i + 1) b)
    (ho : 2 ≤ osc) (ha : 0 ≤ a) (hab : a ≤ b) (ht : 0 ≤ thr)
    (hn : k + i ≤ 9007199254740992)
    (hs : (k : Int) * a + (i : Int) * b ≤ 9007199254740992) (hb : b ≤ 9007199254740992) :
    classify F ⟨h, w, osc, thr⟩ b = (false, "") := by
  rw [classify_eq]
  have hno := oscillation_silent_two_levels a b k (i + 1) osc h hc ho
  have hka : (0 : Int) ≤ (k : Int) * a := mul_nonneg (by positivity) ha
  have hib : (0 : Int) ≤ (i : Int) * b := mul_nonneg (by positivity) (by omega)
  have hpm := priorMean_two_levels a b k i h hc (by omega) hs hn
  have hbrep : toFloat64 (b : ℚ) = (b : ℚ) := toFloat64_int b (by omega) hb
  have hle : priorMean h ≤ (b : ℚ) := by
    rw [hpm]
    apply toFloat64_le_of_le _ _ hbrep
    by_cases h0 : k + i = 0
    · have hk0 : (k : ℚ) = 0 := by
        have : k = 0 := by omega
        simp [this]
      have hi0 : (i : ℚ) = 0 := by
        have : i = 0 := by omega
        simp [this]
      rw [hk0, hi0]
      simp
      exact_mod_cast (by omega : (0 : Int) ≤ b)
    · exact (mean_between (a : ℚ) (b : ℚ) k i (by exact_mod_cast hab) (by omega)).2
  have hsilent := drop_rule_silent_of_mean_le h b thr ht (by omega) hb hle
  simp only [hno, hsilent, if_false]
  split_ifs <;> rfl

/-- A history of `k` times `a` followed by `i + 1` times `b` with `a > b ≥ 0`
and `(a - b) / a ≤ dropThreshold`, a `float64` threshold, is not flagged when
`oscillationThreshold ≥ 2` and the prior counts, at most `2^53` of them, sum to
at most `2^53`: the mean of the prior counts lies between `b` and `a`, its
difference to `b` is exact and the quotient is not rounded above the
threshold. -/
theorem classify_decrease_silent (F : Formatter) (w osc : Int) (thr : ℚ) (a b : Int)
    (k i : Nat) (h : List Snapshot)
    (hc : h.map Snapshot.ItemCount = List.replicate k a ++ List.replicate (i + 1) b)
    (ho : 2 ≤ osc) (hb : 0 ≤ b) (hab : b < a) (hthr : toFloat64 thr = thr)
    (hd : ((a : ℚ) - (b : ℚ)) / (a : ℚ) ≤ thr)
    (hn : k + i ≤ 9007199254740992)
    (hs : (k : Int) * a + (i : Int) * b ≤ 9007199254740992) (ha53 : a ≤ 9007199254740992) :
    classify F ⟨h, w, osc, thr⟩ b = (false, "") := by
  rw [classify_eq]
  have hno := oscillation_silent_two_levels a b k (i + 1) osc h hc ho
  have hka : (0 : Int) ≤ (k : Int) * a := mul_nonneg (by positivity) (by omega)
  have hib : (0 : Int) ≤ (i : Int) * b := mul_nonneg (by positivity) hb
  have hpm := priorMean_two_levels a b k i h hc (by omega) hs hn
  have haQ : (0 : ℚ) < (a : ℚ) := by
    have : (0 : Int) < a := by omega
    exact_mod_cast this
  have hbQ : (0 : ℚ) ≤ (b : ℚ) := by exact_mod_cast hb
  have habQ : (b : ℚ) ≤ (a : ℚ) := by exact_mod_cast (le_of_lt hab)
  have hsilent : ¬ (0 < priorMean h ∧ thr < priorDecrease h b) := by
    by_cases h0 : k + i = 0
    · have hk0 : (k : ℚ) = 0 := by
        have : k = 0 := by omega
        simp [this]
      have hi0 : (i : ℚ) = 0 := by
        have : i = 0 := by omega
        simp [this]
      rw [hk0, hi0] at hpm
      simp [toFloat64_zero] at hpm
      rintro ⟨hpos, _⟩
      rw [hpm] at hpos
      exact lt_irrefl _ hpos
    · have hbet := mean_between (b : ℚ) (a : ℚ) i k habQ (by omega)
      have hcomm : ((i : ℚ) * (b : ℚ) + (k : ℚ) * (a : ℚ)) / ((i : ℚ) + (k : ℚ))
          = ((k : ℚ) * (a : ℚ) + (i : ℚ) * (b : ℚ)) / ((k : ℚ) + (i : ℚ)) := by
        rw [add_comm ((i : ℚ) * (b : ℚ)), add_comm (i : ℚ)]
      rw [hcomm] at hbet
      have hbrep : toFloat64 (b : ℚ) = (b : ℚ) := toFloat64_int b (by omega) (by omega)
      have harep : toFloat64 (a : ℚ) = (a : ℚ) := toFloat64_int a (by omega) ha53
      have hlow : (b : ℚ) ≤ priorMean h := by
        rw [hpm]
        exact le_toFloat64_of_le _ _ hbrep hbet.1
      have hup : priorMean h ≤ (a : ℚ) := by
        rw [hpm]
        exact toFloat64_le_of_le _ _ harep hbet.2
      have ha53Q : (a : ℚ) ≤ 9007199254740992 := by exact_mod_cast ha53
      apply drop_rule_silent_of_cond h b thr hthr hb hlow (le_trans hup ha53Q)
      rw [div_le_iff₀ haQ] at hd
      by_cases h1 : 1 ≤ thr
      · have : priorMean h * (1 - thr) ≤ 0 :=
          mul_nonpos_of_nonneg_of_nonpos (le_trans hbQ hlow) (by linarith)
        linarith
      · push_neg at h1
        have h2 : priorMean h * (1 - thr) ≤ (a : ℚ) * (1 - thr) :=
          mul_le_mul_of_nonneg_right hup (by linarith)
        linarith
  simp only [hno, hsilent, if_false]
  split_ifs <;> rfl

theorem last_count_of_constant (a : Int) (i : Nat) (pre : List Call) (c : Call)
    (hc : (pre ++ [c]).map Call.count = List.replicate (i + 1) a) : c.count = a :=
  last_count_of_two_levels a a 0 i pre c (by simpa using hc)

/-- The bounds on a two-level sequence give the bounds on each of its calls. -/
theorem two_levels_bounds (a b : Int) (k j : Nat) (ha : 0 ≤ a) (hb : 0 ≤ b)
    (hsum : (k : Int) * a + (j : Int) * b ≤ 9007199254740992) :
    (∀ i : Nat, i < k → (i : Int) * a ≤ 9007199254740992 ∧ a ≤ 9007199254740992) ∧
      (∀ i : Nat, i < j → (k : Int) * a + (i : Int) * b ≤ 9007199254740992 ∧
        b ≤ 9007199254740992) := by
  have hka : (0 : Int) ≤ (k : Int) * a := mul_nonneg (by positivity) ha
  have hjb : (0 : Int) ≤ (j : Int) * b := mul_nonneg (by positivity) hb
  constructor
  · intro i hi
    have h1 : (i : Int) * a ≤ (k : Int) * a :=
      mul_le_mul_of_nonneg_right (by exact_mod_cast (le_of_lt hi)) ha
    have h2 : (1 : Int) * a ≤ (k : Int) * a :=
      mul_le_mul_of_nonneg_right (by exact_mod_cast (by omega : 1 ≤ k)) ha
    constructor <;> omega
  · intro i hi
    have h1 : (i : Int) * b ≤ (j : Int) * b :=
      mul_le_mul_of_nonneg_right (by exact_mod_cast (le_of_lt hi)) hb
    have h2 : (1 : Int) * b ≤ (j : Int) * b :=
      mul_le_mul_of_nonneg_right (by exact_mod_cast (by omega : 1 ≤ j)) hb
    constructor <;> omega

/-- A sequence of `k` observations of `a` followed by `j` observations of `b`
with `0 ≤ a ≤ b`, at most `2^53` observations whose counts sum to at most `2^53`,
inside one window, is flagged at no call when `oscillationThreshold ≥ 2` and
`dropThreshold ≥ 0`. -/
theorem increase_run_silent (F : Formatter) (w osc : Int) (thr : ℚ) (a b : Int) (k j : Nat)
    (calls : List Call) (ha : 0 ≤ a) (hab : a ≤ b) (ho : 2 ≤ osc) (ht : 0 ≤ thr)
    (hlen : k + j ≤ 9007199254740992)
    (hsum : (k : Int) * a + (j : Int) * b ≤ 9007199254740992)
    (hcalls : calls.map Call.count = List.replicate k a ++ List.replicate j b)
    (hin : insideWindow w calls) :
    (runDetector F (NewDetector w osc thr) calls).2 = List.replicate calls.length (false, "") := by
  obtain ⟨hb1, hb2⟩ := two_levels_bounds a b k j ha (by omega) hsum
  apply runDetector_all_silent F w osc thr calls hin
  intro pre c rest hdec
  rcases prefix_two_levels a b k j calls pre rest c hcalls hdec with ⟨i, hi, hpc⟩ | ⟨i, hi, hpc⟩
  · rw [last_count_of_constant a i pre c hpc]
    apply classify_increase_silent F w osc thr a a 0 i _
      (by rw [map_snapshot_counts, hpc]; simp) ho ha (le_refl _) ht (by omega)
    · have := (hb1 i hi).1
      simpa using this
    · exact (hb1 i hi).2
  · rw [last_count_of_two_levels a b k i pre c hpc]
    exact classify_increase_silent F w osc thr a b k i _ (by rw [map_snapshot_counts, hpc]) ho ha
      hab ht (by omega) (hb2 i hi).1 (hb2 i hi).2

/-- A sequence of `k` observations of `a` followed by `j` observations of `b`
with `a > b ≥ 0` and `(a - b) / a ≤ dropThreshold`, a `float64` threshold, at
most `2^53` observations whose counts sum to at most `2^53`, inside one window,
is flagged at no call when `oscillationThreshold ≥ 2`. -/
theorem decrease_run_silent (F : Formatter) (w osc : Int) (thr : ℚ) (a b : Int) (k j : Nat)
    (calls : List Call) (hab : b < a) (hb : 0 ≤ b) (hthr : toFloat64 thr = thr)
    (hd : ((a : ℚ) - (b : ℚ)) / (a : ℚ) ≤ thr) (ho : 2 ≤ osc)
    (hlen : k + j ≤ 9007199254740992)
    (hsum : (k : Int) * a + (j : Int) * b ≤ 9007199254740992)
    (hcalls : calls.map Call.count = List.replicate k a ++ List.replicate j b)
    (hin : insideWindow w calls) :
    (runDetector F (NewDetector w osc thr) calls).2 = List.replicate calls.length (false, "") := by
  have haQ : (0 : ℚ) < (a : ℚ) := by
    have : (0 : Int) < a := by omega
    exact_mod_cast this
  have habQ : (b : ℚ) < (a : ℚ) := by exact_mod_cast hab
  have ht : 0 ≤ thr := le_trans (div_nonneg (by linarith) (le_of_lt haQ)) hd
  obtain ⟨hb1, hb2⟩ := two_levels_bounds a b k j (by omega) hb hsum
  apply runDetector_all_silent F w osc thr calls hin
  intro pre c rest hdec
  rcases prefix_two_levels a b k j calls pre rest c hcalls hdec with ⟨i, hi, hpc⟩ | ⟨i, hi, hpc⟩
  · rw [last_count_of_constant a i pre c hpc]
    apply classify_increase_silent F w osc thr a a 0 i _
      (by rw [map_snapshot_counts, hpc]; simp) ho (by omega) (le_refl _) ht (by omega)
    · have := (hb1 i hi).1
      simpa using this
    · exact (hb1 i hi).2
  · rw [last_count_of_two_levels a b k i pre c hpc]
    by_cases hk : k = 0
    · subst hk
      apply classify_increase_silent F w osc thr b b 0 i _
        (by rw [map_snapshot_counts, hpc]; simp) ho hb (le_refl _) ht (by omega)
      · have := (hb2 i hi).1
        simpa using this
      · exact (hb2 i hi).2
    · exact classify_decrease_silent F w osc thr a b k i _ (by rw [map_snapshot_counts, hpc]) ho
        hb hab hthr hd (by omega) (hb2 i hi).1 (hb1 0 (by omega)).2

theorem suddenDropReason_shape (F : Formatter) (x y : ℚ) (c : Int) :
    ∃ rest : String, suddenDropReason F x y c = "Sudden drop detected: " ++ rest := by
  refine ⟨F.float0 (toFloat64 (x * 100)) ++ "% decrease (avg " ++ F.float0 y ++ " to "
    ++ toString c ++ ")", ?_⟩
  simp [suddenDropReason, String.append_assoc]

/-- The decrease from `a` to `b` as the code computes it when the prior mean
is `a`: the conversion of `b`, the subtraction and the division each round. -/
theorem priorDecrease_of_mean (h : List Snapshot) (a b : Int) (hm : priorMean h = (a : ℚ)) :
    priorDecrease h b
      = toFloat64 (toFloat64 ((a : ℚ) - toFloat64 (b : ℚ)) / (a : ℚ)) := by
  unfold priorDecrease
  rw [hm]

/-- The run of `n ≥ 2` observations of `a > 0` with `n a ≤ 2^53`, followed by
one observation of `b` whose decrease from `a`, computed in `float64`, is above
`dropThreshold`. -/
theorem drop_after_stable_run (F : Formatter) (w osc : Int) (thr : ℚ) (a b : Int) (n : Nat)
    (calls : List Call) (ha : 0 < a) (hn : 2 ≤ n) (hna : (n : Int) * a ≤ 9007199254740992)
    (hd : thr < toFloat64 (toFloat64 ((a : ℚ) - toFloat64 (b : ℚ)) / (a : ℚ)))
    (ho : 2 ≤ osc) (ht : 0 ≤ thr)
    (hcalls : calls.map Call.count = List.replicate n a ++ [b])
    (hin : insideWindow w calls) :
    (runDetector F (NewDetector w osc thr) calls).2 =
      List.replicate n (false, "")
        ++ [(true, suddenDropReason F
          (toFloat64 (toFloat64 ((a : ℚ) - toFloat64 (b : ℚ)) / (a : ℚ))) (a : ℚ) b)] := by
  rcases List.eq_nil_or_concat calls with hnil | ⟨pre, c, hpc⟩
  · rw [hnil] at hcalls
    simp at hcalls
  · rw [List.concat_eq_append] at hpc
    subst hpc
    have hsplit : pre.map Call.count = List.replicate n a ∧ [c.count] = [b] := by
      rw [List.map_append] at hcalls
      exact List.append_inj' hcalls (by simp)
    have hcb : c.count = b := by simpa using hsplit.2
    have hplen : pre.length = n := by
      have := congrArg List.length hsplit.1
      simpa using this
    have haQ : (0 : ℚ) < (a : ℚ) := by exact_mod_cast ha
    have hn53 : n ≤ 9007199254740992 := by
      have h1 : (n : Int) * 1 ≤ (n : Int) * a :=
        mul_le_mul_of_nonneg_left (by omega) (by positivity)
      omega
    have ha53 : a ≤ 9007199254740992 := by
      have h1 : (1 : Int) * a ≤ (n : Int) * a :=
        mul_le_mul_of_nonneg_right (by exact_mod_cast (by omega : 1 ≤ n)) (by omega)
      omega
    have hpre : insideWindow w pre :=
      insideWindow_of_subset w pre (pre ++ [c]) (fun x hx => List.mem_append_left _ hx) hin
    have hsil := increase_run_silent F w osc thr a a n 0 pre (le_of_lt ha) (le_refl _) ho ht
      (by omega) (by simpa using hna) (by simpa using hsplit.1) hpre
    rw [runDetector_snd_concat, hsil, hplen]
    have hcounts : ((pre ++ [c]).map snapshotOf).map Snapshot.ItemCount
        = List.replicate n a ++ List.replicate (0 + 1) b := by
      rw [map_snapshot_counts, hcalls]
      simp
    have hno := oscillation_silent_two_levels a b n (0 + 1) osc _ hcounts ho
    have hlen3 : 3 ≤ (pre ++ [c]).length := by
      simp [hplen]
      omega
    rw [lastCall_drop_rule F w osc thr pre c hin hlen3 (by omega)]
    have hnQ : (n : ℚ) ≠ 0 := by
      have : 0 < n := by omega
      exact_mod_cast (Nat.pos_iff_ne_zero.mp this)
    have hpm : priorMean ((pre ++ [c]).map snapshotOf) = (a : ℚ) := by
      rw [priorMean_two_levels a b n 0 _ hcounts (by simpa using (by nlinarith : (0 : Int) ≤ (n : Int) * a))
        (by simpa using hna) (by omega)]
      have e : ((n : ℚ) * (a : ℚ) + ((0 : Nat) : ℚ) * (b : ℚ)) / ((n : ℚ) + ((0 : Nat) : ℚ))
          = (a : ℚ) := by
        field_simp
      rw [e]
      exact toFloat64_int a (by omega) ha53
    rw [hcb, priorDecrease_of_mean _ a b hpm, hpm, if_pos ⟨haQ, hd⟩]

/-! ## Claims on two-level sequences -/

/-- A history whose counts are `n ≥ 1` times `a`, then `b ≠ a`, then `a` again
has exactly two changes. -/
theorem adjacentChanges_blip (a b : Int) (n : Nat) (h : List Snapshot) (hab : a ≠ b)
    (hc : h.map Snapshot.ItemCount = List.replicate (n + 1) a ++ [b, a]) :
    adjacentChanges h = 2 := by
  induction n generalizing h with
  | zero =>
    cases h with
    | nil => simp at hc
    | cons x t =>
      cases t with
      | nil => simp at hc
      | cons y t2 =>
        cases t2 with
        | nil => simp at hc
        | cons z t3 =>
          cases t3 with
          | cons u t4 => simp at hc
          | nil =>
            simp only [List.map_cons, List.map_nil, List.replicate_succ, List.replicate_zero,
              List.nil_append, List.cons_append, List.cons.injEq, and_true] at hc
            obtain ⟨hx, hy, hz⟩ := hc
            rw [adjacentChanges_cons_cons, adjacentChanges_cons_cons,
              adjacentChanges_singleton, hx, hy, hz]
            have hba : b ≠ a := fun e => hab e.symm
            simp [hab, hba]
  | succ n ih =>
    cases h with
    | nil => simp at hc
    | cons x t =>
      cases t with
      | nil => simp [List.replicate_succ] at hc
      | cons y r =>
        simp only [List.map_cons, List.replicate_succ, List.cons_append, List.cons.injEq] at hc
        obtain ⟨hx, hy, hr⟩ := hc
        rw [adjacentChanges_cons_cons, hx, hy]
        have := ih (y :: r) (by simp [List.replicate_succ, hy, hr])
        simpa using this

/-- C14: the recovery after a blip is itself flagged. For every `a ≠ b`, every
`n ≥ 1` and `oscillationThreshold ≤ 2`, after `n` observations of `a` and one
observation of `b` fed to a fresh detector inside the window, the next
observation of `a` returns `isTransient = true` with the oscillation reason,
which states two count changes. -/
theorem recovery_flagged (F : Formatter) (w osc : Int) (thr : ℚ) (a b : Int) (n : Nat)
    (pre : List Call) (c : Call) (hab : a ≠ b) (hn : 1 ≤ n) (ho : osc ≤ 2)
    (hcalls : (pre ++ [c]).map Call.count = List.replicate n a ++ [b, a])
    (hin : insideWindow w (pre ++ [c])) :
    (IsTransientIssue F (runDetector F (NewDetector w osc thr) pre).1 c.count c.now1
        c.now2).2 =
      (true, oscillationReason F ⟨(pre ++ [c]).map snapshotOf, w, osc, thr⟩ 2) ∧
    ∃ rest : String,
      oscillationReason F ⟨(pre ++ [c]).map snapshotOf, w, osc, thr⟩ 2 =
        "Oscillation detected: 2 count changes in last " ++ rest := by
  obtain ⟨m, rfl⟩ : ∃ m, n = m + 1 := ⟨n - 1, by omega⟩
  have hcounts : ((pre ++ [c]).map snapshotOf).map Snapshot.ItemCount
      = List.replicate (m + 1) a ++ [b, a] := by
    rw [map_snapshot_counts, hcalls]
  have hch := adjacentChanges_blip a b m _ hab hcounts
  have hlen : ((pre ++ [c]).map snapshotOf).length = m + 3 := by
    have := congrArg List.length hcounts
    simpa using this
  constructor
  · rw [lastCall_insideWindow F w osc thr pre c hin, classify_eq]
    have hlen3 : ¬ ((pre ++ [c]).map snapshotOf).length < 3 := by omega
    have hosc : osc ≤ (adjacentChanges ((pre ++ [c]).map snapshotOf) : Int) := by
      rw [hch]; exact_mod_cast ho
    simp only [hlen3, if_false, hosc, if_true]
    rw [hch]
    rfl
  · obtain ⟨rest, hrest⟩ := oscillationReason_shape F ⟨(pre ++ [c]).map snapshotOf, w, osc, thr⟩ 2
    refine ⟨rest, ?_⟩
    have h2 : oscillationReason F ⟨(pre ++ [c]).map snapshotOf, w, osc, thr⟩ 2
        = oscillationReason F ⟨(pre ++ [c]).map snapshotOf, w, osc, thr⟩ ((2 : Nat) : Int) := rfl
    rw [h2, hrest]
    have h3 : toString (2 : Nat) = "2" := rfl
    rw [h3]
    simp [String.append_assoc]


/-- Witness of C14: the test 12, 12, 12, 6, 12 with thresholds `(2, 0.3)`. -/
theorem recovery_flagged_witness :
    (insideWindow tenMinutes (callsOf [12, 12, 12, 6] ++ [(⟨12, 4000000000, 4000000000⟩ : Call)]) ∧
      (callsOf [12, 12, 12, 6] ++ [(⟨12, 4000000000, 4000000000⟩ : Call)]).map Call.count
        = List.replicate 3 (12 : Int) ++ [6, 12]) ∧
    ((IsTransientIssue utcFormatter
        (runDetector utcFormatter (NewDetector tenMinutes 2 float03) (callsOf [12, 12, 12, 6])).1
        12 4000000000 4000000000).2 =
      (true, oscillationReason utcFormatter
        ⟨(callsOf [12, 12, 12, 6] ++ [(⟨12, 4000000000, 4000000000⟩ : Call)]).map snapshotOf,
          tenMinutes, 2, float03⟩ 2) ∧
    ∃ rest : String,
      oscillationReason utcFormatter
        ⟨(callsOf [12, 12, 12, 6] ++ [(⟨12, 4000000000, 4000000000⟩ : Call)]).map snapshotOf,
          tenMinutes, 2, float03⟩ 2 =
        "Oscillation detected: 2 count changes in last " ++ rest) :=
  ⟨⟨by decide, by decide⟩,
    recovery_flagged utcFormatter tenMinutes 2 float03 12 6 3 (callsOf [12, 12, 12, 6])
      ⟨12, 4000000000, 4000000000⟩ (by decide) (by decide) (by decide) (by decide) (by decide)⟩

/-- Counterexample to C11 as stated, on runs of a fresh detector with calls
one second apart. With `a = 10`, `n = 2`, `b = 7` and thresholds `(2, 0.3)`,
`(a - b) / a = 3/10` is above the `float64` threshold `0.3`, yet call 3 returns
`(false, "")`: the decrease computed in `float64` is the threshold itself. With
`a = 2^53 + 1`, `n = 4`, `b = 0` and thresholds `(2, 0)`, call 4, one of the
first `n` calls, is flagged: the mean of the first three counts is computed as
`2^53 + 2`. -/
theorem incident_pattern_counterexample :
    (((0 : Int) < 10 ∧ 2 ≤ 2 ∧ float03 < (((10 : Int) : ℚ) - ((7 : Int) : ℚ)) / ((10 : Int) : ℚ) ∧
        (0 : ℚ) ≤ float03 ∧ insideWindow tenMinutes (callsOf [10, 10, 7]) ∧
        (callsOf [10, 10, 7]).map Call.count = List.replicate 2 (10 : Int) ++ [7]) ∧
      (IsTransientIssue utcFormatter
        (runDetector utcFormatter (NewDetector tenMinutes 2 float03) (callsOf [10, 10])).1
        7 2000000000 2000000000).2 = (false, "")) ∧
    (((0 : Int) < 9007199254740993 ∧ 2 ≤ 4 ∧
        (0 : ℚ) < (((9007199254740993 : Int) : ℚ) - ((0 : Int) : ℚ))
          / ((9007199254740993 : Int) : ℚ) ∧
        insideWindow tenMinutes
          (callsOf [9007199254740993, 9007199254740993, 9007199254740993, 9007199254740993, 0]) ∧
        (callsOf [9007199254740993, 9007199254740993, 9007199254740993, 9007199254740993,
            0]).map Call.count = List.replicate 4 (9007199254740993 : Int) ++ [0]) ∧
      (IsTransientIssue utcFormatter
        (runDetector utcFormatter (NewDetector tenMinutes 2 0)
          (callsOf [9007199254740993, 9007199254740993, 9007199254740993])).1
        9007199254740993 3000000000 3000000000).2.1 = true) := by
  refine ⟨⟨⟨by decide, by decide, by norm_num [float03], by norm_num [float03], by decide,
    by decide⟩, silent_on_10_10_7⟩,
    ⟨⟨by decide, by decide, by norm_num, by decide, by decide⟩, big_constant_run_flagged⟩⟩

/-- C11 (amended): incident pattern. For every level `a > 0`, every `n ≥ 2` with
`n a ≤ 2^53`, every `b` whose decrease from `a` computed in `float64` (the
conversion of `b`, the subtraction and the division each rounding; for
`0 ≤ b ≤ a` this is `(a - b) / a` rounded once) is above `dropThreshold`,
`oscillationThreshold ≥ 2` and `dropThreshold ≥ 0`, feeding `n` observations of
`a` and then `b` to a fresh detector inside the window returns `(false, "")` at
each of the first `n` calls and `true` with the reason
"Sudden drop detected: ..." at call `n + 1`; on 12, 12, 12, 12, 12, 12, 12, 6
with thresholds `(2, 0.3)` the first detection is at index 7. -/
theorem incident_pattern (F : Formatter) (w osc : Int) (thr : ℚ) (a b : Int) (n : Nat)
    (calls : List Call) (ha : 0 < a) (hn : 2 ≤ n) (hna : (n : Int) * a ≤ 9007199254740992)
    (hd : thr < toFloat64 (toFloat64 ((a : ℚ) - toFloat64 (b : ℚ)) / (a : ℚ)))
    (ho : 2 ≤ osc) (ht : 0 ≤ thr)
    (hcalls : calls.map Call.count = List.replicate n a ++ [b])
    (hin : insideWindow w calls) :
    (runDetector F (NewDetector w osc thr) calls).2 =
        List.replicate n (false, "")
          ++ [(true, suddenDropReason F
            (toFloat64 (toFloat64 ((a : ℚ) - toFloat64 (b : ℚ)) / (a : ℚ))) (a : ℚ) b)] ∧
      (∃ rest : String, suddenDropReason F
          (toFloat64 (toFloat64 ((a : ℚ) - toFloat64 (b : ℚ)) / (a : ℚ))) (a : ℚ) b
        = "Sudden drop detected: " ++ rest) ∧
      (0 ≤ b → b ≤ a →
        toFloat64 (toFloat64 ((a : ℚ) - toFloat64 (b : ℚ)) / (a : ℚ))
          = toFloat64 (((a : ℚ) - (b : ℚ)) / (a : ℚ))) ∧
      (runDetector F testDetector (callsOf [12, 12, 12, 12, 12, 12, 12, 6])).2.map Prod.fst
        = [false, false, false, false, false, false, false, true] := by
  have ha53 : a ≤ 9007199254740992 := by
    have h1 : (1 : Int) * a ≤ (n : Int) * a :=
      mul_le_mul_of_nonneg_right (by exact_mod_cast (by omega : 1 ≤ n)) (by omega)
    omega
  refine ⟨drop_after_stable_run F w osc thr a b n calls ha hn hna hd ho ht hcalls hin,
    suddenDropReason_shape F _ _ _, ?_, ?_⟩
  · intro hb0 hba
    have e : (a : ℚ) - (b : ℚ) = ((a - b : Int) : ℚ) := by push_cast; ring
    rw [toFloat64_int b (by omega) (by omega), e, toFloat64_int (a - b) (by omega) (by omega)]
  · have e6 : toFloat64 ((6 : Int) : ℚ) = 6 := by
      rw [toFloat64_int 6 (by decide) (by decide)]
      norm_num
    have e66 : toFloat64 (((12 : Int) : ℚ) - 6) = 6 := by
      have : (((12 : Int) : ℚ) - 6) = ((6 : Int) : ℚ) := by norm_num
      rw [this, e6]
    have h := drop_after_stable_run F tenMinutes 2 float03 12 6 7
      (callsOf [12, 12, 12, 12, 12, 12, 12, 6]) (by decide) (by decide) (by decide)
      (by
        rw [e6, e66]
        apply lt_toFloat64_of_lt _ (1 / 2)
        · have h := toFloat64_dyadic 1 1 (by decide)
          norm_num at h
          exact h
        · norm_num [float03]
        · norm_num)
      (by decide) (by norm_num [float03]) (by decide) (by decide)
    have ht : testDetector = NewDetector tenMinutes 2 float03 := rfl
    rw [ht, h]
    simp [List.replicate_succ]

/-- The decrease from 21 to 14 computed in `float64` is above `0.3`. -/
theorem decrease_21_14 :
    float03 < toFloat64
      (toFloat64 (((21 : Int) : ℚ) - toFloat64 ((14 : Int) : ℚ)) / ((21 : Int) : ℚ)) := by
  have e14 : toFloat64 ((14 : Int) : ℚ) = 14 := by
    rw [toFloat64_int 14 (by decide) (by decide)]
    norm_num
  have e7 : toFloat64 (((21 : Int) : ℚ) - 14) = 7 := by
    have : (((21 : Int) : ℚ) - 14) = ((7 : Int) : ℚ) := by norm_num
    rw [this, toFloat64_int 7 (by decide) (by decide)]
    norm_num
  rw [e14, e7]
  apply lt_toFloat64_of_lt _ (5 / 16)
  · have h := toFloat64_dyadic 5 4 (by decide)
    norm_num at h
    exact h
  · norm_num [float03]
  · norm_num

/-- Witness of C11 (amended): 21, 21, 21, 14 with thresholds `(2, 0.3)`, a drop
of one third. -/
theorem incident_pattern_witness :
    ((0 : ℚ) ≤ float03 ∧ ((3 : Nat) : Int) * 21 ≤ 9007199254740992 ∧
      float03 < toFloat64
        (toFloat64 (((21 : Int) : ℚ) - toFloat64 ((14 : Int) : ℚ)) / ((21 : Int) : ℚ)) ∧
      insideWindow tenMinutes (callsOf [21, 21, 21, 14])) ∧
    ((runDetector utcFormatter (NewDetector tenMinutes 2 float03) (callsOf [21, 21, 21, 14])).2 =
        List.replicate 3 (false, "")
          ++ [(true, suddenDropReason utcFormatter
            (toFloat64 (toFloat64 (((21 : Int) : ℚ) - toFloat64 ((14 : Int) : ℚ))
              / ((21 : Int) : ℚ))) ((21 : Int) : ℚ) 14)] ∧
      (∃ rest : String, suddenDropReason utcFormatter
          (toFloat64 (toFloat64 (((21 : Int) : ℚ) - toFloat64 ((14 : Int) : ℚ))
            / ((21 : Int) : ℚ))) ((21 : Int) : ℚ) 14
        = "Sudden drop detected: " ++ rest) ∧
      ((0 : Int) ≤ 14 → (14 : Int) ≤ 21 →
        toFloat64 (toFloat64 (((21 : Int) : ℚ) - toFloat64 ((14 : Int) : ℚ)) / ((21 : Int) : ℚ))
          = toFloat64 ((((21 : Int) : ℚ) - ((14 : Int) : ℚ)) / ((21 : Int) : ℚ))) ∧
      (runDetector utcFormatter testDetector
          (callsOf [12, 12, 12, 12, 12, 12, 12, 6])).2.map Prod.fst
        = [false, false, false, false, false, false, false, true]) :=
  ⟨⟨by norm_num [float03], by decide, decrease_21_14, by decide⟩,
    incident_pattern utcFormatter tenMinutes 2 float03 21 14 3 (callsOf [21, 21, 21, 14])
      (by decide) (by decide) (by decide) decrease_21_14 (by decide) (by norm_num [float03])
      (by decide) (by decide)⟩

/-- Counterexample to C12 as stated: with `a = 2^53 + 1`, `b = 2^53` and
thresholds `(2, 3 * 2^-54)`, a `float64` threshold, `a > b ≥ 0` and
`(a - b) / a = 1 / (2^53 + 1)` is below the threshold, yet on the run
`a, a, a, b` of a fresh detector, calls one second apart, the last call is
flagged: the mean of the three counts is computed as `2^53 + 2` and the decrease
as about `2^-52`. -/
theorem legitimate_decrease_counterexample :
    ((9007199254740992 : Int) < 9007199254740993 ∧ (0 : Int) ≤ 9007199254740992 ∧
      (((9007199254740993 : Int) : ℚ) - ((9007199254740992 : Int) : ℚ))
          / ((9007199254740993 : Int) : ℚ) ≤ 3 / 18014398509481984 ∧
      toFloat64 (3 / 18014398509481984) = 3 / 18014398509481984 ∧
      insideWindow tenMinutes
        (callsOf [9007199254740993, 9007199254740993, 9007199254740993, 9007199254740992]) ∧
      (callsOf [9007199254740993, 9007199254740993, 9007199254740993,
          9007199254740992]).map Call.count
        = List.replicate 3 (9007199254740993 : Int) ++ List.replicate 1 9007199254740992) ∧
    (IsTransientIssue utcFormatter
      (runDetector utcFormatter (NewDetector tenMinutes 2 (3 / 18014398509481984))
        (callsOf [9007199254740993, 9007199254740993, 9007199254740993])).1
      9007199254740992 3000000000 3000000000).2.1 = true := by
  refine ⟨⟨by decide, by decide, by norm_num, ?_, by decide, by decide⟩, big_decrease_flagged⟩
  have h := toFloat64_dyadic 3 54 (by decide)
  norm_num at h
  exact h

/-- C12 (amended): a sustained legitimate decrease is never flagged while the
conversions to `float64` are exact. For every `a > b ≥ 0` with
`(a - b) / a ≤ dropThreshold`, a `float64` threshold, `oscillationThreshold ≥ 2`
and every sequence of `k` observations of `a` followed by `j` observations of
`b`, at most `2^53` observations whose counts sum to at most `2^53`, fed to a
fresh detector inside the window, every call returns `(false, "")`. -/
theorem legitimate_decrease_never_flagged (F : Formatter) (w osc : Int) (thr : ℚ) (a b : Int)
    (k j : Nat) (calls : List Call) (hab : b < a) (hb : 0 ≤ b)
    (hthr : toFloat64 thr = thr)
    (hd : ((a : ℚ) - (b : ℚ)) / (a : ℚ) ≤ thr) (ho : 2 ≤ osc)
    (hlen : k + j ≤ 9007199254740992)
    (hsum : (k : Int) * a + (j : Int) * b ≤ 9007199254740992)
    (hcalls : calls.map Call.count = List.replicate k a ++ List.replicate j b)
    (hin : insideWindow w calls) :
    (runDetector F (NewDetector w osc thr) calls).2 = List.replicate calls.length (false, "") :=
  decrease_run_silent F w osc thr a b k j calls hab hb hthr hd ho hlen hsum hcalls hin

/-- Witness of C12 (amended): the test 12, 12, 12, 10, 10, 10 with
`dropThreshold = 0.3`. -/
theorem legitimate_decrease_never_flagged_witness :
    (toFloat64 float03 = float03 ∧
      (((12 : Int) : ℚ) - ((10 : Int) : ℚ)) / ((12 : Int) : ℚ) ≤ float03 ∧
      ((3 : Nat) : Int) * 12 + ((3 : Nat) : Int) * 10 ≤ 9007199254740992 ∧
      insideWindow tenMinutes (callsOf [12, 12, 12, 10, 10, 10])) ∧
    (runDetector utcFormatter (NewDetector tenMinutes 2 float03)
        (callsOf [12, 12, 12, 10, 10, 10])).2
      = List.replicate (callsOf [12, 12, 12, 10, 10, 10]).length (false, "") :=
  ⟨⟨toFloat64_float03, by norm_num [float03], by decide, by decide⟩,
    legitimate_decrease_never_flagged utcFormatter tenMinutes 2 float03 12 10 3 3
      (callsOf [12, 12, 12, 10, 10, 10]) (by decide) (by decide) toFloat64_float03
      (by norm_num [float03]) (by decide) (by decide) (by decide) (by decide) (by decide)⟩

/-- Counterexample to C13 as stated: with `a = b = 2^53 + 1` and thresholds
`(2, 0)`, `0 ≤ a ≤ b`, `oscillationThreshold ≥ 2` and `dropThreshold ≥ 0`, yet
on the stable run of four observations of `2^53 + 1` of a fresh detector, calls
one second apart, the fourth call is flagged: the mean of the first three counts
is computed as `2^53 + 2` and the fourth count is converted to `2^53`. -/
theorem stable_or_increase_counterexample :
    ((0 : Int) ≤ 9007199254740993 ∧ (9007199254740993 : Int) ≤ 9007199254740993 ∧
      (2 : Int) ≤ 2 ∧ (0 : ℚ) ≤ 0 ∧
      insideWindow tenMinutes
        (callsOf [9007199254740993, 9007199254740993, 9007199254740993, 9007199254740993]) ∧
      (callsOf [9007199254740993, 9007199254740993, 9007199254740993,
          9007199254740993]).map Call.count
        = List.replicate 4 (9007199254740993 : Int) ++ List.replicate 0 9007199254740993) ∧
    (IsTransientIssue utcFormatter
      (runDetector utcFormatter (NewDetector tenMinutes 2 0)
        (callsOf [9007199254740993, 9007199254740993, 9007199254740993])).1
      9007199254740993 3000000000 3000000000).2.1 = true := by
  refine ⟨⟨by decide, by decide, by decide, le_refl _, by decide, by decide⟩,
    big_constant_run_flagged⟩

/-- C13 (amended): stable responses and a sustained legitimate increase are
never flagged while the conversions to `float64` are exact. For every
`0 ≤ a ≤ b`, `oscillationThreshold ≥ 2`, `dropThreshold ≥ 0` and every sequence
of `k` observations of `a` followed by `j` observations of `b`, at most `2^53`
observations whose counts sum to at most `2^53`, fed to a fresh detector inside
the window, every call returns `(false, "")`. -/
theorem stable_or_increase_never_flagged (F : Formatter) (w osc : Int) (thr : ℚ) (a b : Int)
    (k j : Nat) (calls : List Call) (ha : 0 ≤ a) (hab : a ≤ b) (ho : 2 ≤ osc) (ht : 0 ≤ thr)
    (hlen : k + j ≤ 9007199254740992)
    (hsum : (k : Int) * a + (j : Int) * b ≤ 9007199254740992)
    (hcalls : calls.map Call.count = List.replicate k a ++ List.replicate j b)
    (hin : insideWindow w calls) :
    (runDetector F (NewDetector w osc thr) calls).2 = List.replicate calls.length (false, "") :=
  increase_run_silent F w osc thr a b k j calls ha hab ho ht hlen hsum hcalls hin

/-- Witness of C13 (amended): the stable test 12, 12, 12, 12, 12 and the
increase test 12, 12, 12, 14, 14, 14, thresholds `(2, 0.3)`. -/
theorem stable_or_increase_never_flagged_witness :
    (runDetector utcFormatter (NewDetector tenMinutes 2 float03)
        (callsOf [12, 12, 12, 12, 12])).2
      = List.replicate (callsOf [12, 12, 12, 12, 12]).length (false, "") ∧
    (runDetector utcFormatter (NewDetector tenMinutes 2 float03)
        (callsOf [12, 12, 12, 14, 14, 14])).2
      = List.replicate (callsOf [12, 12, 12, 14, 14, 14]).length (false, "") :=
  ⟨stable_or_increase_never_flagged utcFormatter tenMinutes 2 float03 12 12 5 0
      (callsOf [12, 12, 12, 12, 12]) (by decide) (by decide) (by decide) (by norm_num [float03])
      (by decide) (by decide) (by decide) (by decide),
    stable_or_increase_never_flagged utcFormatter tenMinutes 2 float03 12 14 3 3
      (callsOf [12, 12, 12, 14, 14, 14]) (by decide) (by decide) (by decide)
      (by norm_num [float03]) (by decide) (by decide) (by decide) (by decide)⟩

/-! ## Cache -/

theorem Cache.setAll_maxAge {β : Type} (sets : List (Option (List β) × Int)) (c : Cache β) :
    (c.setAll sets).maxAge = c.maxAge := by
  induction sets generalizing c with
  | nil => rfl
  | cons x xs ih =>
    obtain ⟨data, now⟩ := x
    simp only [Cache.setAll]
    rw [ih]
    rfl

/-- What `Get` returns after a `Set` of a non-nil slice. -/
theorem Cache.get_set_some {β : Type} (c : Cache β) (X : List β) (t0 t : Int) :
    (c.Set (some X) t0).Get t = if t - t0 > c.maxAge then (none, false) else (some X, true) := rfl

/-- C15 (amended): cache round trip. For every cache with `maxAge ≥ 0` and
every non-nil record slice `X`, `Set(X)` followed by `Get()` with no time
elapsed returns `(X, true)`, the same records in the same order. -/
theorem cache_round_trip {β : Type} (c : Cache β) (X : List β) (t : Int)
    (hmax : 0 ≤ c.maxAge) :
    (c.Set (some X) t).Get t = (some X, true) := by
  rw [Cache.get_set_some]
  have h : ¬ t - t > c.maxAge := by omega
  rw [if_neg h]

/-- Counterexample to C15 as stated: with `maxAge` of one hour, `Set` of the nil
slice followed at once by `Get` returns `(nil, false)`, not `(X, true)`; and
with `maxAge = -1` nanosecond `Set(testData)` followed at once by `Get` returns
`(nil, false)` as well, since the age 0 exceeds `maxAge`. -/
theorem cache_round_trip_counterexample :
    ((NewCache String hour).Set none 0).Get 0 = (none, false) ∧
      ((NewCache String hour).Set none 0).Get 0 ≠ (none, true) ∧
      ((NewCache String (-1)).Set (some testData) 0).Get 0 = (none, false) ∧
      ((NewCache String (-1)).Set (some testData) 0).Get 0 ≠ (some testData, true) := by
  refine ⟨rfl, by decide, by decide, by decide⟩

/-- Witness of C15 (amended): the round-trip test with `maxAge` of one hour. -/
theorem cache_round_trip_witness :
    0 ≤ (NewCache String hour).maxAge ∧
      ((NewCache String hour).Set (some testData) 5).Get 5 = (some testData, true) :=
  ⟨by decide, cache_round_trip (NewCache String hour) testData 5 (by decide)⟩

/-- C16: cache expiry. After any sequence of `Set` calls whose last one stored
the non-nil records `X` at time `t0`, `Get()` at time `t` returns `(X, true)` if
and only if `t - t0 ≤ maxAge` and returns `(nil, false)` otherwise; a read at
exactly `maxAge` is valid; only the last `Set` counts, as in the refresh test
(`maxAge` 200 ms, `Set` at 0 and at 100 ms, `Get` at 250 ms is valid). -/
theorem cache_expiry {β : Type} (c : Cache β) (sets : List (Option (List β) × Int))
    (X : List β) (t0 t : Int) :
    ((((c.setAll sets).Set (some X) t0).Get t = (some X, true)) ↔ t - t0 ≤ c.maxAge) ∧
      (¬ t - t0 ≤ c.maxAge → ((c.setAll sets).Set (some X) t0).Get t = (none, false)) ∧
      ((c.setAll sets).Set (some X) t0).Get (t0 + c.maxAge) = (some X, true) ∧
      (((NewCache String (200 * Millisecond)).Set (some ["test"]) 0).Set (some ["test"])
        (100 * Millisecond)).Get (250 * Millisecond) = (some ["test"], true) := by
  have hm := Cache.setAll_maxAge sets c
  rw [Cache.get_set_some, hm]
  refine ⟨?_, ?_, ?_, by decide⟩
  · by_cases h : t - t0 > c.maxAge
    · rw [if_pos h]
      constructor
      · intro e
        exact absurd (congrArg Prod.snd e) (by simp)
      · intro e
        omega
    · rw [if_neg h]
      constructor
      · intro _
        omega
      · intro _
        rfl
  · intro h
    have h1 : t - t0 > c.maxAge := by omega
    rw [if_pos h1]
  · rw [Cache.get_set_some, hm]
    have h1 : ¬ t0 + c.maxAge - t0 > c.maxAge := by omega
    rw [if_neg h1]

/-- C17 (amended): cache overwrite. For every cache with `maxAge ≥ 0`, every
slice `X` and every non-nil slice `Y`, `Set(X)` then `Set(Y)` then `Get()` with
no time elapsed returns exactly `Y` with `valid = true`. -/
theorem cache_overwrite {β : Type} (c : Cache β) (X : Option (List β)) (Y : List β)
    (t1 t2 : Int) (hmax : 0 ≤ c.maxAge) :
    ((c.Set X t1).Set (some Y) t2).Get t2 = (some Y, true) := by
  rw [Cache.get_set_some]
  have h : ¬ t2 - t2 > (c.Set X t1).maxAge := by
    have h1 : (c.Set X t1).maxAge = c.maxAge := rfl
    omega
  rw [if_neg h]

/-- Counterexample to C17 as stated: on a cache with `maxAge = -1` nanosecond
the two `Set` calls of the overwrite test followed at once by `Get` return
`(nil, false)`, not the second data with `valid = true`. -/
theorem cache_overwrite_counterexample :
    (((NewCache String (-1)).Set (some ["first-binding"]) 0).Set
        (some ["second-binding-1", "second-binding-2"]) 0).Get 0 = (none, false) ∧
      (((NewCache String (-1)).Set (some ["first-binding"]) 0).Set
        (some ["second-binding-1", "second-binding-2"]) 0).Get 0
          ≠ (some ["second-binding-1", "second-binding-2"], true) := by
  refine ⟨by decide, by decide⟩

/-- Witness of C17 (amended): the overwrite test with `maxAge` of one hour. -/
theorem cache_overwrite_witness :
    0 ≤ (NewCache String hour).maxAge ∧
      (((NewCache String hour).Set (some ["first-binding"]) 0).Set
        (some ["second-binding-1", "second-binding-2"]) 7).Get 7
          = (some ["second-binding-1", "second-binding-2"], true) :=
  ⟨by decide, cache_overwrite (NewCache String hour) (some ["first-binding"])
    ["second-binding-1", "second-binding-2"] 0 7 (by decide)⟩

/-- C18: empty cache. For every `maxAge` and at every time, `Get()` on a cache
made by `NewCache` on which `Set` was never called returns `(nil, false)`. -/
theorem empty_cache_get (β : Type) (maxAge t : Int) :
    (NewCache β maxAge).Get t = (none, false) := rfl

/-- C19: `Age()` is 0 on a cache made by `NewCache` on which nothing was stored;
after any sequence of `Set` calls whose last one stored non-nil records at time
`t0`, `Age()` at time `t` is `t - t0`, whatever `maxAge` is (no comparison with
`maxAge` is made, so also after the entry has expired). -/
theorem cache_age {β : Type} (c : Cache β) (sets : List (Option (List β) × Int)) (X : List β)
    (maxAge t0 t : Int) :
    (NewCache β maxAge).Age t = 0 ∧
      ((c.setAll sets).Set (some X) t0).Age t = t - t0 :=
  ⟨rfl, rfl⟩

/-! ## GetHistory -/

/-- An array of a memory is what it was after an allocation. -/
theorem getD_append_of_lt (m l : Memory) (a : Nat) (h : a < m.length) :
    (m ++ l).getD a [] = m.getD a [] := by
  rw [List.getD_eq_getElem?_getD, List.getD_eq_getElem?_getD, List.getElem?_append_left h]

/-- The array allocated last. -/
theorem getD_append_length (m : Memory) (x : List Snapshot) :
    (m ++ [x]).getD m.length [] = x := by
  rw [List.getD_eq_getElem?_getD, List.getElem?_append_right (le_refl _)]
  simp

/-- An assignment through a slice leaves every other array as it was. -/
theorem store_getD_of_ne (m : Memory) (s : Slice) (i : Nat) (v : Snapshot) (a : Nat)
    (h : a ≠ s.array) : (m.store s i v).getD a [] = m.getD a [] := by
  unfold Memory.store
  rw [List.getD_eq_getElem?_getD, List.getElem?_set_ne (fun e => h e.symm),
    ← List.getD_eq_getElem?_getD]

/-- Assignments through a slice leave every other array as it was. -/
theorem storeMany_getD_of_ne (s : Slice) (a : Nat) (h : a ≠ s.array) :
    ∀ (writes : List (Nat × Snapshot)) (m : Memory),
      (m.storeMany s writes).getD a [] = m.getD a []
  | [], _ => rfl
  | (i, v) :: rest, m => by
      show ((m.store s i v).storeMany s rest).getD a [] = m.getD a []
      rw [storeMany_getD_of_ne s a h rest (m.store s i v), store_getD_of_ne m s i v a h]

/-- The elements of a slice depend on its backing array only. -/
theorem elems_congr (m1 m2 : Memory) (s : Slice)
    (h : m1.getD s.array [] = m2.getD s.array []) : m1.elems s = m2.elems s := by
  unfold Memory.elems
  rw [h]

/-- The state of a detector depends on the backing array of its history only. -/
theorem view_congr (r : DetectorRef) (m1 m2 : Memory)
    (h : m1.getD r.history.array [] = m2.getD r.history.array []) : r.view m1 = r.view m2 := by
  unfold DetectorRef.view
  rw [elems_congr m1 m2 r.history h]

/-- The slice returned by `GetHistory` lies on an array allocated by the call,
the arrays allocated before the call are as they were, and the elements of the
slice returned are the elements of the history. -/
theorem GetHistory_spec (grow : Nat → Nat → Nat) (m : Memory) (r : DetectorRef)
    (hr : r.history.array < m.length) :
    m.length ≤ (GetHistory grow m r).2.array ∧
      (∀ a : Nat, a < m.length → (GetHistory grow m r).1.getD a [] = m.getD a []) ∧
      (GetHistory grow m r).1.elems (GetHistory grow m r).2 = m.elems r.history := by
  have hx : (m ++ [[]]).elems r.history = m.elems r.history :=
    elems_congr _ _ _ (getD_append_of_lt m [[]] _ hr)
  unfold GetHistory emptySlice
  simp only [hx]
  unfold appendSlice
  split_ifs with hc
  · have hnil : m.elems r.history = [] := by
      apply List.eq_nil_of_length_eq_zero
      simp only [Nat.zero_add] at hc
      omega
    refine ⟨le_refl _, fun a ha => ?_, ?_⟩
    · rw [hnil]
      exact getD_append_of_lt m [[]] a ha
    · rw [hnil]
      simp [Memory.elems, Memory.storeAll]
  · refine ⟨?_, fun a ha => ?_, ?_⟩
    · simp
    · rw [getD_append_of_lt (m ++ [[]]) _ a (by simp; omega), getD_append_of_lt m [[]] a ha]
    · have he : (m ++ [[]]).elems (⟨m.length, 0, 0, 0⟩ : Slice) = [] := by
        simp [Memory.elems]
      unfold Memory.elems at he ⊢
      simp only [getD_append_length, he]
      simp

/-- An assignment through the slice of the detector itself changes its state:
a slice that shares the backing array of the history is not a copy. -/
theorem store_through_history_changes_view :
    testDetectorRef.view (testMemory.store testDetectorRef.history 0 ⟨99, 0⟩)
      ≠ testDetectorRef.view testMemory := by
  decide

/-- C20: `GetHistory` is a read-only accessor. For every detector in a memory,
its history on an allocated array, the slice returned holds the elements of the
current history, entry by entry and in order; the call leaves the arrays
allocated before it as they were and the state of the detector (history and
configuration) unchanged, and the slice returned lies on an array allocated by
the call, so that whatever the caller then assigns through it, the state of the
detector is the one before the call and a following `IsTransientIssue` returns
the same result and the same state as without the call. -/
theorem getHistory_read_only (F : Formatter) (grow : Nat → Nat → Nat) (m : Memory)
    (r : DetectorRef) (c now1 now2 : Int) (hr : r.history.array < m.length) :
    (GetHistory grow m r).1.elems (GetHistory grow m r).2 = (r.view m).history ∧
      (∀ i : Nat, ((GetHistory grow m r).1.elems (GetHistory grow m r).2)[i]?
        = (r.view m).history[i]?) ∧
      (∀ a : Nat, a < m.length → (GetHistory grow m r).1.getD a [] = m.getD a []) ∧
      r.view (GetHistory grow m r).1 = r.view m ∧
      m.length ≤ (GetHistory grow m r).2.array ∧
      (∀ writes : List (Nat × Snapshot),
        r.view ((GetHistory grow m r).1.storeMany (GetHistory grow m r).2 writes) = r.view m ∧
        IsTransientIssue F
            (r.view ((GetHistory grow m r).1.storeMany (GetHistory grow m r).2 writes)) c now1 now2
          = IsTransientIssue F (r.view m) c now1 now2) := by
  obtain ⟨h1, h2, h3⟩ := GetHistory_spec grow m r hr
  have hv : ∀ writes : List (Nat × Snapshot),
      r.view ((GetHistory grow m r).1.storeMany (GetHistory grow m r).2 writes) = r.view m := by
    intro writes
    apply view_congr
    rw [storeMany_getD_of_ne _ _ (by omega) writes _, h2 _ hr]
  refine ⟨h3, fun i => by rw [h3]; rfl, h2, view_congr _ _ _ (h2 _ hr), h1, fun writes => ?_⟩
  exact ⟨hv writes, by rw [hv writes]⟩

/-- Witness of C20: the detector with the history 12, 6 on an array of capacity
4, the caller overwriting both entries of the slice returned. -/
theorem getHistory_read_only_witness :
    testDetectorRef.history.array < testMemory.length ∧
    (testDetectorRef.view testMemory).history = [⟨12, 0⟩, ⟨6, 1000000000⟩] ∧
    (GetHistory (fun _ n => 2 * n) testMemory testDetectorRef).1.elems
        (GetHistory (fun _ n => 2 * n) testMemory testDetectorRef).2
      = [⟨12, 0⟩, ⟨6, 1000000000⟩] ∧
    testDetectorRef.view
        ((GetHistory (fun _ n => 2 * n) testMemory testDetectorRef).1.storeMany
          (GetHistory (fun _ n => 2 * n) testMemory testDetectorRef).2
          [(0, ⟨99, 7⟩), (1, ⟨98, 8⟩)])
      = testDetectorRef.view testMemory ∧
    ((GetHistory (fun _ n => 2 * n) testMemory testDetectorRef).1.storeMany
          (GetHistory (fun _ n => 2 * n) testMemory testDetectorRef).2
          [(0, ⟨99, 7⟩), (1, ⟨98, 8⟩)]).elems
        (GetHistory (fun _ n => 2 * n) testMemory testDetectorRef).2
      = [⟨99, 7⟩, ⟨98, 8⟩] :=
  ⟨by decide, by decide,
    (getHistory_read_only utcFormatter (fun _ n => 2 * n) testMemory testDetectorRef 12
      2000000000 2000000000 (by decide)).1.trans (by decide),
    ((getHistory_read_only utcFormatter (fun _ n => 2 * n) testMemory testDetectorRef 12
      2000000000 2000000000 (by decide)).2.2.2.2.2 [(0, ⟨99, 7⟩), (1, ⟨98, 8⟩)]).1,
    by decide⟩

/-! ## Reason and verdict -/

theorem classify_reason_iff (F : Formatter) (d : Detector) (c : Int) :
    (classify F d c).2 = "" ↔ (classify F d c).1 = false := by
  rw [classify_eq]
  split_ifs
  · simp
  · simp [oscillationReason_ne_empty]
  · simp [suddenDropReason_ne_empty]
  · simp

/-- C27: reason and verdict agree. For every detector state, every count and
every clock reading, the reason returned by `IsTransientIssue` is empty if and
only if `isTransient` is false. -/
theorem reason_iff_not_transient (F : Formatter) (d : Detector) (c now1 now2 : Int) :
    ((IsTransientIssue F d c now1 now2).2.2 = "" ↔ (IsTransientIssue F d c now1 now2).2.1 = false) ∧
      ((IsTransientIssue F d c now1 now2).2.1 = true → (IsTransientIssue F d c now1 now2).2.2 ≠ "") ∧
      ((IsTransientIssue F d c now1 now2).2.1 = false →
        (IsTransientIssue F d c now1 now2).2.2 = "") := by
  have h := classify_reason_iff F (IsTransientIssue F d c now1 now2).1 c
  rw [← IsTransientIssue_snd] at h
  refine ⟨h, ?_, h.mpr⟩
  intro ht he
  rw [h.mp he] at ht
  exact Bool.noConfusion ht

/-! ## Oscillation persists -/

theorem adjacentChanges_append_le (h l : List Snapshot) :
    adjacentChanges h ≤ adjacentChanges (h ++ l) := by
  induction h with
  | nil => simp [adjacentChanges_nil]
  | cons x t ih =>
    cases t with
    | nil => simp [adjacentChanges_singleton]
    | cons y r =>
      rw [List.cons_append, List.cons_append, adjacentChanges_cons_cons,
        adjacentChanges_cons_cons]
      have := ih
      rw [List.cons_append] at this
      omega

/-- Every result of a run satisfies a property that every call of it satisfies. -/
theorem runDetector_forall (F : Formatter) (P : Bool × String → Prop) (calls : List Call)
    (d : Detector)
    (h : ∀ pre c rest, calls = pre ++ c :: rest →
      P (IsTransientIssue F (runDetector F d pre).1 c.count c.now1 c.now2).2) :
    ∀ r ∈ (runDetector F d calls).2, P r := by
  induction calls using List.reverseRecOn with
  | nil => simp [runDetector]
  | append_singleton pre c ih =>
    intro r hr
    rw [runDetector_snd_concat] at hr
    rcases List.mem_append.mp hr with hr1 | hr1
    · exact ih (fun p x rest hdec => h p x (rest ++ [c]) (by rw [hdec]; simp)) r hr1
    · have : r = (IsTransientIssue F (runDetector F d pre).1 c.count c.now1 c.now2).2 := by
        simpa using hr1
      rw [this]
      exact h pre c [] rfl

/-- The state a call of an unpruned run starts from, and the state it leaves. -/
theorem call_insideWindow (F : Formatter) (d : Detector) (pre : List Call) (c : Call)
    (hold : ∀ s ∈ d.history, ∀ x ∈ pre ++ [c], x.now2 - d.windowDuration < s.Timestamp)
    (hin : insideWindow d.windowDuration (pre ++ [c])) :
    (runDetector F d pre).1 =
        ⟨d.history ++ pre.map snapshotOf, d.windowDuration, d.oscillationThreshold,
          d.dropThreshold⟩ ∧
      IsTransientIssue F (runDetector F d pre).1 c.count c.now1 c.now2 =
        (⟨d.history ++ (pre ++ [c]).map snapshotOf, d.windowDuration, d.oscillationThreshold,
            d.dropThreshold⟩,
          classify F ⟨d.history ++ (pre ++ [c]).map snapshotOf, d.windowDuration,
            d.oscillationThreshold, d.dropThreshold⟩ c.count) := by
  have hpre := runDetector_insideWindow F pre d
    (fun s hs x hx => hold s hs x (List.mem_append_left _ hx))
    (insideWindow_of_subset _ pre (pre ++ [c]) (fun x hx => List.mem_append_left _ hx) hin)
  have hall := runDetector_insideWindow F (pre ++ [c]) d hold hin
  rw [runDetector_append] at hall
  simp only [runDetector] at hall
  refine ⟨hpre, ?_⟩
  apply Prod.ext
  · exact hall
  · rw [IsTransientIssue_snd, hall]

/-- C28: oscillation persists until pruning. For every detector and every
sequence of calls during which no entry of the history is pruned, the number of
adjacent differing pairs in the history does not decrease from one call to the
next; hence, from a state with at least 3 entries whose number of changes
reaches the oscillation threshold (the state a call flagged by the oscillation
rule leaves), every later call is flagged transient, whatever count it
observes. -/
theorem oscillation_persists (F : Formatter) (d : Detector) (calls : List Call)
    (hold : ∀ s ∈ d.history, ∀ x ∈ calls, x.now2 - d.windowDuration < s.Timestamp)
    (hin : insideWindow d.windowDuration calls) :
    (∀ pre c rest, calls = pre ++ c :: rest →
      adjacentChanges (runDetector F d pre).1.history ≤
        adjacentChanges (IsTransientIssue F (runDetector F d pre).1 c.count c.now1 c.now2).1.history) ∧
    (3 ≤ d.history.length → d.oscillationThreshold ≤ (adjacentChanges d.history : Int) →
      ∀ r ∈ (runDetector F d calls).2, r.1 = true) := by
  have hsub : ∀ pre c rest, calls = pre ++ c :: rest → ∀ x ∈ pre ++ [c], x ∈ calls := by
    intro pre c rest hdec x hx
    rw [hdec]
    rcases List.mem_append.mp hx with h | h
    · exact List.mem_append_left _ h
    · have hxc : x = c := by simpa using h
      rw [hxc]
      exact List.mem_append_right _ (List.mem_cons_self _ _)
  have hcall : ∀ pre c rest, calls = pre ++ c :: rest →
      (runDetector F d pre).1 =
        ⟨d.history ++ pre.map snapshotOf, d.windowDuration, d.oscillationThreshold,
          d.dropThreshold⟩ ∧
      IsTransientIssue F (runDetector F d pre).1 c.count c.now1 c.now2 =
        (⟨d.history ++ (pre ++ [c]).map snapshotOf, d.windowDuration, d.oscillationThreshold,
            d.dropThreshold⟩,
          classify F ⟨d.history ++ (pre ++ [c]).map snapshotOf, d.windowDuration,
            d.oscillationThreshold, d.dropThreshold⟩ c.count) := by
    intro pre c rest hdec
    exact call_insideWindow F d pre c
      (fun s hs x hx => hold s hs x (hsub pre c rest hdec x hx))
      (insideWindow_of_subset _ _ calls (hsub pre c rest hdec) hin)
  constructor
  · intro pre c rest hdec
    obtain ⟨h1, h2⟩ := hcall pre c rest hdec
    rw [h2, h1]
    simp only [List.map_append, ← List.append_assoc]
    exact adjacentChanges_append_le _ _
  · intro hlen hosc
    apply runDetector_forall F (fun r => r.1 = true) calls d
    intro pre c rest hdec
    obtain ⟨_, h2⟩ := hcall pre c rest hdec
    rw [h2, classify_fst_iff]
    refine ⟨?_, Or.inl ?_⟩
    · simp only [List.length_append]
      omega
    · have := adjacentChanges_append_le d.history ((pre ++ [c]).map snapshotOf)
      have h3 : (adjacentChanges d.history : Int)
          ≤ (adjacentChanges (d.history ++ (pre ++ [c]).map snapshotOf) : Int) := by
        exact_mod_cast this
      exact le_trans hosc h3

/-- Witness of C28: after the history 12, 6, 12 with thresholds `(2, 0.3)`, three
further observations of 12 inside the window are all flagged. -/
theorem oscillation_persists_witness :
    (∀ s ∈ swinging.history, ∀ x ∈ stableTail, x.now2 - swinging.windowDuration < s.Timestamp) ∧
      insideWindow swinging.windowDuration stableTail ∧
      3 ≤ swinging.history.length ∧
      swinging.oscillationThreshold ≤ (adjacentChanges swinging.history : Int) ∧
      ∀ r ∈ (runDetector utcFormatter swinging stableTail).2, r.1 = true :=
  ⟨by decide, by decide, by decide, by decide,
    (oscillation_persists utcFormatter swinging stableTail (by decide) (by decide)).2
      (by decide) (by decide)⟩

end Protection
/-! # The fleet client: theorems -/

namespace FleetClient

/-! ## The binding loop in closed form -/

theorem splitChars_ne_nil (sep : Char) (l : List Char) : splitChars sep l ≠ [] := by
  cases l with
  | nil => simp [splitChars]
  | cons c cs =>
    simp only [splitChars]
    split
    · simp
    · split <;> simp

theorem stringsSplit_length_pos (s : String) (sep : Char) : 0 < (stringsSplit s sep).length := by
  unfold stringsSplit
  rw [List.length_map]
  exact List.length_pos.mpr (splitChars_ne_nil sep s.data)

theorem getD_last_eq (l : List String) (h : 0 < l.length) :
    l.getD (l.length - 1) "" = l.getLast?.getD "" := by
  have hne : l ≠ [] := List.length_pos.mp h
  rw [List.getLast?_eq_getLast _ hne, List.getLast_eq_getElem]
  simp [List.getD_eq_getElem?_getD, List.getElem?_eq_getElem (show l.length - 1 < l.length by omega)]

/-- One step of the binding loop in closed form. -/
theorem bindingStep_eq (maps : (String → Option (List String)) × (String → Option (List String)))
    (b : MembershipBinding) :
    bindingStep maps b =
      if wellFormedBindingName b.Name then
        (mapSet maps.1 (membershipOf b) (mapGet maps.1 (membershipOf b) ++ [lastSegment b.Scope]),
          mapSet maps.2 (lastSegment b.Scope)
            (mapGet maps.2 (lastSegment b.Scope) ++ [membershipOf b]))
      else maps := by
  unfold bindingStep
  by_cases hw : wellFormedBindingName b.Name
  · have hw2 := hw
    unfold wellFormedBindingName at hw2
    simp only at hw2
    obtain ⟨h8, h0, h2, h4, h6⟩ := hw2
    have hcond : ¬ ((stringsSplit b.Name '/').length ≠ 8 ∨
        (stringsSplit b.Name '/').getD 0 "" ≠ "projects" ∨
        (stringsSplit b.Name '/').getD 2 "" ≠ "locations" ∨
        (stringsSplit b.Name '/').getD 4 "" ≠ "memberships" ∨
        (stringsSplit b.Name '/').getD 6 "" ≠ "bindings") := by
      rintro (h | h | h | h | h)
      · exact h h8
      · exact h h0
      · exact h h2
      · exact h h4
      · exact h h6
    have hpos := stringsSplit_length_pos b.Scope '/'
    have hlen : ¬ (stringsSplit b.Scope '/').length = 0 := by omega
    simp only [hcond, if_false, hlen, if_pos hw]
    rw [getD_last_eq _ hpos]
    rfl
  · have hcond : ((stringsSplit b.Name '/').length ≠ 8 ∨
        (stringsSplit b.Name '/').getD 0 "" ≠ "projects" ∨
        (stringsSplit b.Name '/').getD 2 "" ≠ "locations" ∨
        (stringsSplit b.Name '/').getD 4 "" ≠ "memberships" ∨
        (stringsSplit b.Name '/').getD 6 "" ≠ "bindings") := by
      unfold wellFormedBindingName at hw
      simp only at hw
      by_contra hc
      apply hw
      simp only [not_or, not_not] at hc
      exact hc
    simp only [hcond, if_true, if_neg hw]


theorem mapGet_mapSet (m : String → Option (List String)) (k x : String) (v : List String) :
    mapGet (mapSet m k v) x = if x = k then v else mapGet m x := by
  unfold mapGet mapSet
  by_cases h : x = k <;> simp [h]

theorem foldl_bindingStep_fst (mbs : List MembershipBinding)
    (maps : (String → Option (List String)) × (String → Option (List String))) (m : String) :
    mapGet (mbs.foldl bindingStep maps).1 m =
      mapGet maps.1 m ++ ((recordedPairs mbs).filter (fun p => decide (p.1 = m))).map Prod.snd := by
  induction mbs generalizing maps with
  | nil => simp [recordedPairs]
  | cons b rest ih =>
    rw [List.foldl_cons, ih, bindingStep_eq]
    by_cases hw : wellFormedBindingName b.Name
    · simp only [if_pos hw, mapGet_mapSet]
      by_cases hm : m = membershipOf b
      · subst hm
        simp [recordedPairs, List.filter_cons, hw]
      · have hm2 : ¬ membershipOf b = m := fun h => hm h.symm
        simp [recordedPairs, List.filter_cons, hw, hm, hm2]
    · simp [recordedPairs, List.filter_cons, hw]

theorem foldl_bindingStep_snd (mbs : List MembershipBinding)
    (maps : (String → Option (List String)) × (String → Option (List String))) (s : String) :
    mapGet (mbs.foldl bindingStep maps).2 s =
      mapGet maps.2 s ++ ((recordedPairs mbs).filter (fun p => decide (p.2 = s))).map Prod.fst := by
  induction mbs generalizing maps with
  | nil => simp [recordedPairs]
  | cons b rest ih =>
    rw [List.foldl_cons, ih, bindingStep_eq]
    by_cases hw : wellFormedBindingName b.Name
    · simp only [if_pos hw, mapGet_mapSet]
      by_cases hs : s = lastSegment b.Scope
      · subst hs
        simp [recordedPairs, List.filter_cons, hw]
      · have hs2 : ¬ lastSegment b.Scope = s := fun h => hs h.symm
        simp [recordedPairs, List.filter_cons, hw, hs, hs2]
    · simp [recordedPairs, List.filter_cons, hw]

theorem foldl_mapSet_empty (names : List String) (m : String → Option (List String))
    (hm : ∀ k, mapGet m k = []) (k : String) :
    mapGet (names.foldl (fun acc n => mapSet acc n []) m) k = [] := by
  induction names generalizing m with
  | nil => exact hm k
  | cons n rest ih =>
    rw [List.foldl_cons]
    apply ih
    intro x
    rw [mapGet_mapSet]
    split
    · rfl
    · exact hm x

theorem foldl_mapSet_isSome (names : List String) (m : String → Option (List String))
    (k : String) (hk : k ∈ names ∨ (m k).isSome = true) :
    ((names.foldl (fun acc n => mapSet acc n []) m) k).isSome = true := by
  induction names generalizing m with
  | nil =>
    rcases hk with h | h
    · simp at h
    · exact h
  | cons n rest ih =>
    rw [List.foldl_cons]
    apply ih
    by_cases hkn : k = n
    · right
      simp [mapSet, hkn]
    · rcases hk with h | h
      · left
        simpa [hkn] using h
      · right
        simpa [mapSet, hkn] using h

theorem bindingStep_isSome (maps : (String → Option (List String)) × (String → Option (List String)))
    (b : MembershipBinding) (k : String) :
    ((maps.1 k).isSome = true → ((bindingStep maps b).1 k).isSome = true) ∧
      ((maps.2 k).isSome = true → ((bindingStep maps b).2 k).isSome = true) := by
  rw [bindingStep_eq]
  by_cases hw : wellFormedBindingName b.Name
  · simp only [if_pos hw, mapSet]
    constructor <;> intro h <;> split <;> simp [h]
  · simp only [if_neg hw]
    exact ⟨id, id⟩

theorem foldl_bindingStep_isSome (mbs : List MembershipBinding)
    (maps : (String → Option (List String)) × (String → Option (List String))) (k : String) :
    ((maps.1 k).isSome = true → ((mbs.foldl bindingStep maps).1 k).isSome = true) ∧
      ((maps.2 k).isSome = true → ((mbs.foldl bindingStep maps).2 k).isSome = true) := by
  induction mbs generalizing maps with
  | nil => exact ⟨id, id⟩
  | cons b rest ih =>
    rw [List.foldl_cons]
    have h1 := bindingStep_isSome maps b k
    have h2 := ih (bindingStep maps b)
    exact ⟨fun h => h2.1 (h1.1 h), fun h => h2.2 (h1.2 h)⟩

theorem count_filter_fst (pairs : List (String × String)) (m s : String) :
    ((pairs.filter (fun p => decide (p.1 = m))).map Prod.snd).count s = pairs.count (m, s) := by
  induction pairs with
  | nil => rfl
  | cons p rest ih =>
    obtain ⟨a, b⟩ := p
    by_cases ha : a = m
    · by_cases hb : b = s
      · simp [List.filter_cons, ha, hb, ih]
      · have hne : ¬ (a, b) = (m, s) := fun h => hb (Prod.mk.inj h).2
        simp [List.filter_cons, ha, List.count_cons, ih, hb]
    · have hne : ¬ (a, b) = (m, s) := fun h => ha (Prod.mk.inj h).1
      simp [List.filter_cons, ha, List.count_cons, ih]


theorem count_filter_snd (pairs : List (String × String)) (m s : String) :
    ((pairs.filter (fun p => decide (p.2 = s))).map Prod.fst).count m = pairs.count (m, s) := by
  induction pairs with
  | nil => rfl
  | cons p rest ih =>
    obtain ⟨a, b⟩ := p
    by_cases hb : b = s
    · by_cases ha : a = m
      · simp [List.filter_cons, ha, hb, ih]
      · simp [List.filter_cons, hb, List.count_cons, ih, ha]
    · simp [List.filter_cons, hb, List.count_cons, ih]

theorem foldl_bindingStep_filter (mbs : List MembershipBinding)
    (init : (String → Option (List String)) × (String → Option (List String))) :
    mbs.foldl bindingStep init =
      (mbs.filter (fun b => decide (wellFormedBindingName b.Name))).foldl bindingStep init := by
  induction mbs generalizing init with
  | nil => rfl
  | cons b rest ih =>
    by_cases hw : wellFormedBindingName b.Name
    · simp only [List.filter_cons, hw, decide_True, if_true, List.foldl_cons]
      exact ih _
    · simp only [List.filter_cons, hw, decide_False, List.foldl_cons]
      rw [bindingStep_eq, if_neg hw]
      simpa using ih init

/-- What the two maps hold after the three loops. -/
theorem buildTenancyMaps_get (mems : List Membership) (scopes : List Scope)
    (mbs : List MembershipBinding) (m s : String) :
    mapGet (buildTenancyMaps mems scopes mbs).1 m =
        ((recordedPairs mbs).filter (fun p => decide (p.1 = m))).map Prod.snd ∧
      mapGet (buildTenancyMaps mems scopes mbs).2 s =
        ((recordedPairs mbs).filter (fun p => decide (p.2 = s))).map Prod.fst := by
  unfold buildTenancyMaps
  constructor
  · rw [foldl_bindingStep_fst]
    have h0 : mapGet (mems.foldl (fun m mem => mapSet m mem.Name []) (fun _ => none)) m = [] := by
      have := foldl_mapSet_empty (mems.map Membership.Name) (fun _ => none) (fun _ => rfl) m
      rwa [List.foldl_map] at this
    simp only [h0, List.nil_append]
  · rw [foldl_bindingStep_snd]
    have h0 : mapGet (scopes.foldl (fun m s => mapSet m s.Name []) (fun _ => none)) s = [] := by
      have := foldl_mapSet_empty (scopes.map Scope.Name) (fun _ => none) (fun _ => rfl) s
      rwa [List.foldl_map] at this
    simp only [h0, List.nil_append]

/-- C26: the two tenancy maps are reverse indexes of each other. For every list
of memberships, scopes and bindings, after the binding loop the number of
occurrences of `s` in `memTenancyMap[m]` equals the number of occurrences of `m`
in `scopeTenancyMap[s]`, for every `m` and `s`; every listed membership and
every listed scope is a key of its map; and a binding whose name is not of the
8-part form leaves both maps as they are, so that the maps are those of the
bindings with a well-formed name. -/
theorem tenancy_maps_reverse_indexes (mems : List Membership) (scopes : List Scope)
    (mbs : List MembershipBinding) :
    (∀ m s : String,
      (mapGet (buildTenancyMaps mems scopes mbs).1 m).count s =
        (mapGet (buildTenancyMaps mems scopes mbs).2 s).count m) ∧
    (∀ mem ∈ mems, ((buildTenancyMaps mems scopes mbs).1 mem.Name).isSome = true) ∧
    (∀ sc ∈ scopes, ((buildTenancyMaps mems scopes mbs).2 sc.Name).isSome = true) ∧
    (∀ (maps : (String → Option (List String)) × (String → Option (List String)))
      (b : MembershipBinding), ¬ wellFormedBindingName b.Name → bindingStep maps b = maps) ∧
    buildTenancyMaps mems scopes mbs =
      buildTenancyMaps mems scopes
        (mbs.filter (fun b => decide (wellFormedBindingName b.Name))) := by
  refine ⟨?_, ?_, ?_, ?_, ?_⟩
  · intro m s
    rw [(buildTenancyMaps_get mems scopes mbs m s).1, (buildTenancyMaps_get mems scopes mbs m s).2,
      count_filter_fst, count_filter_snd]
  · intro mem hmem
    unfold buildTenancyMaps
    apply (foldl_bindingStep_isSome mbs _ mem.Name).1
    have := foldl_mapSet_isSome (mems.map Membership.Name) (fun _ => none) mem.Name
      (Or.inl (List.mem_map_of_mem _ hmem))
    rwa [List.foldl_map] at this
  · intro sc hsc
    unfold buildTenancyMaps
    apply (foldl_bindingStep_isSome mbs _ sc.Name).2
    have := foldl_mapSet_isSome (scopes.map Scope.Name) (fun _ => none) sc.Name
      (Or.inl (List.mem_map_of_mem _ hsc))
    rwa [List.foldl_map] at this
  · intro maps b hw
    rw [bindingStep_eq, if_neg hw]
  · unfold buildTenancyMaps
    exact foldl_bindingStep_filter mbs _


theorem splitChars_concat_sep (sep : Char) (l : List Char) :
    splitChars sep (l ++ [sep]) = splitChars sep l ++ [[]] := by
  induction l with
  | nil => simp [splitChars]
  | cons c cs ih =>
    by_cases hc : c = sep
    · simp [splitChars, hc, ih]
    · cases h : splitChars sep cs with
      | nil => exact absurd h (splitChars_ne_nil sep cs)
      | cons p ps =>
        rw [h] at ih
        have ih2 : splitChars sep (cs.append [sep]) = p :: (ps ++ [[]]) := ih
        simp only [List.cons_append, splitChars, hc, if_false, ih2, h]

theorem lastSegment_empty : lastSegment "" = "" := by
  decide

theorem lastSegment_trailing_slash (t : String) : lastSegment (t ++ "/") = "" := by
  unfold lastSegment stringsSplit
  have h : (t ++ "/").data = t.data ++ ['/'] := by
    rw [String.data_append]
  rw [h, splitChars_concat_sep]
  simp

/-- C30: the branch "Invalid scope in binding" is unreachable. Splitting a
string on the slash always yields at least one part, so every binding with a
well-formed name is recorded, under the last segment of its `Scope`; the last
segment of the empty string and of a string that ends with a slash is the empty
string, and such a binding is recorded under the scope ID `""`. -/
theorem invalid_scope_branch_unreachable :
    (∀ s : String, (stringsSplit s '/').length ≠ 0) ∧
    (∀ (maps : (String → Option (List String)) × (String → Option (List String)))
      (b : MembershipBinding), wellFormedBindingName b.Name →
        bindingStep maps b =
          (mapSet maps.1 (membershipOf b) (mapGet maps.1 (membershipOf b) ++ [lastSegment b.Scope]),
            mapSet maps.2 (lastSegment b.Scope)
              (mapGet maps.2 (lastSegment b.Scope) ++ [membershipOf b]))) ∧
    lastSegment "" = "" ∧
    (∀ t : String, lastSegment (t ++ "/") = "") ∧
    (buildTenancyMaps [] []
        [⟨"projects/123/locations/us-central1/memberships/cluster0/bindings/binding0", ""⟩]).2 ""
      = some ["projects/123/locations/us-central1/memberships/cluster0"] ∧
    (buildTenancyMaps [] []
        [⟨"projects/123/locations/us-central1/memberships/cluster0/bindings/binding0",
          "projects/123/locations/global/scopes/"⟩]).1
        "projects/123/locations/us-central1/memberships/cluster0"
      = some [""] := by
  refine ⟨?_, ?_, lastSegment_empty, lastSegment_trailing_slash, by decide, by decide⟩
  · intro s
    have := stringsSplit_length_pos s '/'
    omega
  · intro maps b hw
    rw [bindingStep_eq, if_pos hw]

/-! ## Refresh and the protection layer -/

/-- The detector of the tests flags the drop to 6 at index 7 of the incident. -/
theorem incident_flagged_at_7 :
    (Protection.runDetector Protection.utcFormatter Protection.testDetector
        (Protection.callsOf [12, 12, 12, 12, 12, 12, 12, 6])).2.map Prod.fst
      = [false, false, false, false, false, false, false, true] := by
  have e6 : Protection.toFloat64 ((6 : Int) : ℚ) = 6 := by
    rw [Protection.toFloat64_int 6 (by decide) (by decide)]
    norm_num
  have e66 : Protection.toFloat64 (((12 : Int) : ℚ) - 6) = 6 := by
    have : (((12 : Int) : ℚ) - 6) = ((6 : Int) : ℚ) := by norm_num
    rw [this, e6]
  have h := Protection.drop_after_stable_run Protection.utcFormatter Protection.tenMinutes 2
    Protection.float03 12 6 7 (Protection.callsOf [12, 12, 12, 12, 12, 12, 12, 6])
    (by decide) (by decide) (by decide)
    (by
      rw [e6, e66]
      apply Protection.lt_toFloat64_of_lt _ (1 / 2)
      · have h := Protection.toFloat64_dyadic 1 1 (by decide)
        norm_num at h
        exact h
      · norm_num [Protection.float03]
      · norm_num)
    (by decide) (by norm_num [Protection.float03]) (by decide) (by decide)
  have ht : Protection.testDetector
      = Protection.NewDetector Protection.tenMinutes 2 Protection.float03 := rfl
  rw [ht, h]
  simp [List.replicate_succ]

/-- A cache of one hour filled with 12 bindings is valid one second later. -/
theorem cache_valid_with_12 (t : Int) :
    ((Protection.NewCache MembershipBinding Protection.hour).Set (some (mockBindings 12)) t).Get
        (t + 1000000000) = (some (mockBindings 12), true) := by
  rw [Protection.Cache.get_set_some]
  have h : ¬ t + 1000000000 - t > (Protection.NewCache MembershipBinding Protection.hour).maxAge := by
    have hm : (Protection.NewCache MembershipBinding Protection.hour).maxAge = 3600000000000 := by
      decide
    rw [hm]
    omega
  rw [if_neg h]

/-- C21: the incident replay evaluated on the code. Replaying the live counts
12, 12, 12, 12, 12, 12, 12, 6 through `Refresh`, the detector of the tests flags
index 7 as transient and a cache of the 12 bindings filled at index 6 is valid
at index 7; yet every `Refresh` succeeds, the service has been called 8 times,
and the maps after the call at index 7 are those of the 6 live bindings: scope 5
is in them and scope 6, which the cached set of 12 has, is not. `Refresh` calls
the Fleet API directly: no detector or cache is consulted and there is no
degraded flag to return. -/
theorem refresh_incident_replay_serves_live_set :
    (Protection.runDetector Protection.utcFormatter Protection.testDetector
        (Protection.callsOf [12, 12, 12, 12, 12, 12, 12, 6])).2.map Prod.fst
      = [false, false, false, false, false, false, false, true] ∧
    ((Protection.NewCache MembershipBinding Protection.hour).Set (some (mockBindings 12))
        6000000000).Get (6000000000 + 1000000000) = (some (mockBindings 12), true) ∧
    (refreshTimes mockService (fun _ => none) 8 (emptyFleetSync, incidentMock)).1
      = List.replicate 8 none ∧
    (refreshTimes mockService (fun _ => none) 8 (emptyFleetSync, incidentMock)).2.2.callCount = 8 ∧
    scopeKeys (refreshTimes mockService (fun _ => none) 8 (emptyFleetSync, incidentMock)).2.1
      "scope5" = some ["projects/123/locations/us-central1/memberships/cluster5"] ∧
    scopeKeys (refreshTimes mockService (fun _ => none) 8 (emptyFleetSync, incidentMock)).2.1
      "scope6" = none ∧
    (buildTenancyMaps [] [] (mockBindings 12)).2 "scope6"
      = some ["projects/123/locations/us-central1/memberships/cluster6"] := by
  refine ⟨incident_flagged_at_7, cache_valid_with_12 6000000000, by decide, by decide, by decide,
    by decide, by decide⟩

/-- C22: the hard-failure path evaluated on the code. With a service whose
list of the bindings fails and a valid cache of 12 bindings at hand, `Refresh`
returns the failure "failed to list membership bindings: simulated API error"
to the caller; the service has been called once, with no further attempt, and
the maps of the `FleetSync` are left nil, not filled from any cache. -/
theorem refresh_failure_not_retried :
    ((Protection.NewCache MembershipBinding Protection.hour).Set (some (mockBindings 12)) 0).Get
        (0 + 1000000000) = (some (mockBindings 12), true) ∧
    (Refresh mockService (fun _ => none) emptyFleetSync failingMock).1.1
      = some "failed to list membership bindings: simulated API error" ∧
    (Refresh mockService (fun _ => none) emptyFleetSync failingMock).2.callCount = 1 ∧
    (Refresh mockService (fun _ => none) emptyFleetSync failingMock).1.2.MembershipTenancyMapCache.isNone
      = true ∧
    (Refresh mockService (fun _ => none) emptyFleetSync failingMock).1.2.ScopeTenancyMapCache.isNone
      = true := by
  refine ⟨cache_valid_with_12 0, by decide, by decide, by decide, by decide⟩

end FleetClient

/-! # The ClusterProfile syncer: theorems -/

namespace Syncer

/-! ### isSecretManaged -/

/-- The function `isSecretManaged` in closed form: the annotations are not nil,
the value read under the managed-by key is "true" and the value read under the
origin key is `cpOrigin`, a missing key reading as the empty string. -/
theorem isSecretManaged_eq (secret : Secret) (cpOrigin : String) :
    isSecretManaged secret cpOrigin = true ↔
      ∃ f, secret.Annotations = some f ∧ (f managedByAnnotation).getD "" = "true" ∧
        (f clusterProfileOrigin).getD "" = cpOrigin := by
  unfold isSecretManaged
  cases h : secret.Annotations with
  | none => simp
  | some f =>
    simp only [mapIndex, Option.some.injEq, exists_eq_left']
    by_cases hm : (f managedByAnnotation).getD "" = "true"
    · simp [hm]
    · simp [hm]

theorem getD_eq_true_iff (o : Option String) : o.getD "" = "true" ↔ o = some "true" := by
  cases o with
  | none => simp
  | some v => simp

theorem getD_eq_iff_of_ne (o : Option String) (v : String) (hv : v ≠ "") :
    o.getD "" = v ↔ o = some v := by
  cases o with
  | none =>
    simp only [Option.getD_none]
    constructor
    · intro h
      exact absurd h.symm hv
    · intro h
      exact absurd h (by simp)
  | some w => simp

/-- C23 (amended): `isSecretManaged secret cpOrigin` returns true if and only if
the annotations of the secret are not nil, contain the managed-by annotation
with value exactly "true", and the value read under the origin annotation, the
empty string when the annotation is missing, is exactly `cpOrigin`; for every
non-empty `cpOrigin` that is: they contain the origin annotation with value
exactly `cpOrigin`. It returns false for a secret with nil annotations, a
missing or "false" managed-by annotation, or a different origin. -/
theorem isSecretManaged_spec (secret : Secret) (cpOrigin : String) :
    (isSecretManaged secret cpOrigin = true ↔
      ∃ f, secret.Annotations = some f ∧ f managedByAnnotation = some "true" ∧
        (f clusterProfileOrigin).getD "" = cpOrigin) ∧
    (cpOrigin ≠ "" →
      (isSecretManaged secret cpOrigin = true ↔
        ∃ f, secret.Annotations = some f ∧ f managedByAnnotation = some "true" ∧
          f clusterProfileOrigin = some cpOrigin)) ∧
    (secret.Annotations = none → isSecretManaged secret cpOrigin = false) ∧
    (∀ f, secret.Annotations = some f → f managedByAnnotation = none →
      isSecretManaged secret cpOrigin = false) ∧
    (∀ f, secret.Annotations = some f → f managedByAnnotation = some "false" →
      isSecretManaged secret cpOrigin = false) ∧
    (∀ f o, secret.Annotations = some f → f clusterProfileOrigin = some o → o ≠ cpOrigin →
      isSecretManaged secret cpOrigin = false) := by
  have hiff := isSecretManaged_eq secret cpOrigin
  refine ⟨?_, ?_, ?_, ?_, ?_, ?_⟩
  · rw [hiff]
    constructor
    · rintro ⟨f, hf, hm, ho⟩
      exact ⟨f, hf, (getD_eq_true_iff _).mp hm, ho⟩
    · rintro ⟨f, hf, hm, ho⟩
      exact ⟨f, hf, (getD_eq_true_iff _).mpr hm, ho⟩
  · intro hne
    rw [hiff]
    constructor
    · rintro ⟨f, hf, hm, ho⟩
      exact ⟨f, hf, (getD_eq_true_iff _).mp hm, (getD_eq_iff_of_ne _ _ hne).mp ho⟩
    · rintro ⟨f, hf, hm, ho⟩
      exact ⟨f, hf, (getD_eq_true_iff _).mpr hm, (getD_eq_iff_of_ne _ _ hne).mpr ho⟩
  · intro hnil
    rw [Bool.eq_false_iff, Ne, hiff]
    rintro ⟨f, hf, _, _⟩
    rw [hnil] at hf
    exact Option.noConfusion hf
  · intro f hf hnone
    rw [Bool.eq_false_iff, Ne, hiff]
    rintro ⟨g, hg, hm, _⟩
    rw [hf] at hg
    cases hg
    rw [hnone] at hm
    exact absurd hm (by decide)
  · intro f hf hfalse
    rw [Bool.eq_false_iff, Ne, hiff]
    rintro ⟨g, hg, hm, _⟩
    rw [hf] at hg
    cases hg
    rw [hfalse] at hm
    exact absurd hm (by decide)
  · intro f o hf ho hne
    rw [Bool.eq_false_iff, Ne, hiff]
    rintro ⟨g, hg, _, hor⟩
    rw [hf] at hg
    cases hg
    rw [ho] at hor
    exact hne hor

/-- Witness of C23 (amended): the managed secret of the tests and its origin. -/
theorem isSecretManaged_spec_witness :
    "test-namespace/test-name" ≠ "" ∧
      isSecretManaged managedSecret "test-namespace/test-name" = true ∧
      (isSecretManaged managedSecret "test-namespace/test-name" = true ↔
        ∃ f, managedSecret.Annotations = some f ∧ f managedByAnnotation = some "true" ∧
          f clusterProfileOrigin = some "test-namespace/test-name") :=
  ⟨by decide, by decide,
    (isSecretManaged_spec managedSecret "test-namespace/test-name").2.1 (by decide)⟩

/-- Counterexample to C23 as stated: a secret whose annotations hold the
managed-by annotation with value "true" and no origin annotation is managed for
the origin `""`, although its annotations do not contain the origin annotation
with that value. -/
theorem isSecretManaged_counterexample :
    isSecretManaged originlessSecret "" = true ∧
      (∃ f, originlessSecret.Annotations = some f ∧ f managedByAnnotation = some "true" ∧
        f clusterProfileOrigin = none) ∧
      ¬ (∃ f, originlessSecret.Annotations = some f ∧ f managedByAnnotation = some "true" ∧
        f clusterProfileOrigin = some "") := by
  refine ⟨by decide, ⟨_, rfl, by decide, by decide⟩, ?_⟩
  rintro ⟨f, hf, _, ho⟩
  have hf2 : f = mapAssign (fun _ => none) managedByAnnotation "true" := by
    have : originlessSecret.Annotations
        = some (mapAssign (fun _ => none) managedByAnnotation "true") := rfl
    rw [this] at hf
    exact (Option.some.inj hf).symm
  rw [hf2] at ho
  revert ho
  decide

/-! ### deleteClusterSecret -/

/-- The function `isSecretManaged` reads the annotations only. -/
theorem isSecretManaged_congr (s t : Secret) (o : String) (h : s.Annotations = t.Annotations) :
    isSecretManaged s o = isSecretManaged t o := by
  unfold isSecretManaged
  rw [h]

/-- An absent secret: nothing to delete. -/
theorem deleteClusterSecret_absent (c : Client) (req : Request) (hg : c.getError = none)
    (hs : c.store (argoCDNamespace, req.Namespace ++ "." ++ req.Name) = none) :
    deleteClusterSecret c req = (c, none) := by
  simp [deleteClusterSecret, Client.Get, hg, hs]

/-- A secret that is not managed for the origin of the request is left alone. -/
theorem deleteClusterSecret_unmanaged (c : Client) (req : Request) (s : Secret)
    (hg : c.getError = none)
    (hs : c.store (argoCDNamespace, req.Namespace ++ "." ++ req.Name) = some s)
    (hm : isSecretManaged s (req.Namespace ++ "/" ++ req.Name) = false) :
    deleteClusterSecret c req = (c, none) := by
  have hm2 : isSecretManaged
      ⟨req.Namespace ++ "." ++ req.Name, argoCDNamespace, s.Labels, s.Annotations, s.SecretType,
        s.Data⟩ req.String = false := by
    rw [← hm]
    exact isSecretManaged_congr _ s _ rfl
  simp [deleteClusterSecret, Client.Get, hg, hs, hm2]

/-- A managed secret is removed, and nothing else. -/
theorem deleteClusterSecret_managed (c : Client) (req : Request) (s : Secret)
    (hg : c.getError = none)
    (hs : c.store (argoCDNamespace, req.Namespace ++ "." ++ req.Name) = some s)
    (hm : isSecretManaged s (req.Namespace ++ "/" ++ req.Name) = true) :
    deleteClusterSecret c req =
      (⟨fun k => if k = (argoCDNamespace, req.Namespace ++ "." ++ req.Name) then none
          else c.store k, c.getError, c.createError⟩, none) := by
  have hm2 : isSecretManaged
      ⟨req.Namespace ++ "." ++ req.Name, argoCDNamespace, s.Labels, s.Annotations, s.SecretType,
        s.Data⟩ req.String = true := by
    rw [← hm]
    exact isSecretManaged_congr _ s _ rfl
  simp [deleteClusterSecret, Client.Get, Client.Delete, hg, hs, hm2]

/-- A read that fails otherwise than by not-found is reported. -/
theorem deleteClusterSecret_getError (c : Client) (req : Request) (e : String)
    (hg : c.getError = some e) :
    deleteClusterSecret c req = (c, some ("failed to get secret: " ++ e)) := by
  simp [deleteClusterSecret, Client.Get, hg]

/-- C24: `deleteClusterSecret` never deletes a secret it does not manage. For
every client and request `(ns, name)`, the store being a map: if the read
succeeds and the secret `argocd/"ns.name"` is absent, or present with
`isSecretManaged secret "ns/name"` false, the call returns nil and leaves the
client unchanged; if it is present and managed with that origin, the call
returns nil and removes that secret and no other; if the read fails with an
error other than not-found, the call returns an error that begins with
"failed to get secret" and changes nothing. -/
theorem deleteClusterSecret_spec (c : Client) (req : Request) :
    (c.getError = none → c.store (argoCDNamespace, req.Namespace ++ "." ++ req.Name) = none →
      deleteClusterSecret c req = (c, none)) ∧
    (∀ s, c.getError = none →
      c.store (argoCDNamespace, req.Namespace ++ "." ++ req.Name) = some s →
      isSecretManaged s (req.Namespace ++ "/" ++ req.Name) = false →
      deleteClusterSecret c req = (c, none)) ∧
    (∀ s, c.getError = none →
      c.store (argoCDNamespace, req.Namespace ++ "." ++ req.Name) = some s →
      isSecretManaged s (req.Namespace ++ "/" ++ req.Name) = true →
      (deleteClusterSecret c req).2 = none ∧
        (deleteClusterSecret c req).1.store (argoCDNamespace, req.Namespace ++ "." ++ req.Name)
          = none ∧
        (∀ k, k ≠ (argoCDNamespace, req.Namespace ++ "." ++ req.Name) →
          (deleteClusterSecret c req).1.store k = c.store k) ∧
        (deleteClusterSecret c req).1.getError = c.getError ∧
        (deleteClusterSecret c req).1.createError = c.createError) ∧
    (∀ e, c.getError = some e →
      deleteClusterSecret c req = (c, some ("failed to get secret: " ++ e)) ∧
        ∃ rest : String, "failed to get secret: " ++ e = "failed to get secret" ++ rest) := by
  refine ⟨deleteClusterSecret_absent c req, fun s => deleteClusterSecret_unmanaged c req s, ?_, ?_⟩
  · intro s hg hs hm
    rw [deleteClusterSecret_managed c req s hg hs hm]
    refine ⟨rfl, by simp, ?_, rfl, rfl⟩
    intro k hk
    simp [hk]
  · intro e hg
    refine ⟨deleteClusterSecret_getError c req e hg, ": " ++ e, ?_⟩
    rw [← String.append_assoc]
    rfl

/-- Witness of C24: the managed secret of the tests is removed by the request of
the tests. -/
theorem deleteClusterSecret_spec_witness :
    (clientWith managedSecret).getError = none ∧
      (clientWith managedSecret).store
          (argoCDNamespace, testRequest.Namespace ++ "." ++ testRequest.Name)
        = some managedSecret ∧
      isSecretManaged managedSecret (testRequest.Namespace ++ "/" ++ testRequest.Name) = true ∧
      ((deleteClusterSecret (clientWith managedSecret) testRequest).2 = none ∧
        (deleteClusterSecret (clientWith managedSecret) testRequest).1.store
            (argoCDNamespace, testRequest.Namespace ++ "." ++ testRequest.Name) = none ∧
        (∀ k, k ≠ (argoCDNamespace, testRequest.Namespace ++ "." ++ testRequest.Name) →
          (deleteClusterSecret (clientWith managedSecret) testRequest).1.store k
            = (clientWith managedSecret).store k) ∧
        (deleteClusterSecret (clientWith managedSecret) testRequest).1.getError
          = (clientWith managedSecret).getError ∧
        (deleteClusterSecret (clientWith managedSecret) testRequest).1.createError
          = (clientWith managedSecret).createError) :=
  ⟨rfl, rfl, by decide,
    (deleteClusterSecret_spec (clientWith managedSecret) testRequest).2.2.1 managedSecret rfl
      rfl (by decide)⟩

/-! ### createOrUpdateClusterSecret -/

/-- What `mutateSecret` writes, whatever the secret held before. -/
theorem mutateSecret_post (secret : Secret) (cp : ClusterProfile) (u name : String) :
    (mutateSecret secret cp u name).2 = none ∧
    (mutateSecret secret cp u name).1.Name = secret.Name ∧
    (mutateSecret secret cp u name).1.Namespace = secret.Namespace ∧
    mapIndexOk (mutateSecret secret cp u name).1.Labels argoCDSecretType = some "cluster" ∧
    mapIndexOk (mutateSecret secret cp u name).1.Annotations managedByAnnotation = some "true" ∧
    mapIndexOk (mutateSecret secret cp u name).1.Annotations clusterProfileOrigin
      = some (cp.Namespace ++ "/" ++ cp.Name) ∧
    (mutateSecret secret cp u name).1.SecretType = SecretTypeOpaque ∧
    (∀ k, mapIndexOk (mutateSecret secret cp u name).1.Data k =
      if k = "config" then some secretConfig
      else if k = "server" then some u
      else if k = "name" then some name
      else none) := by
  have hne : ¬ managedByAnnotation = clusterProfileOrigin := by decide
  refine ⟨rfl, rfl, rfl, ?_, ?_, ?_, rfl, ?_⟩
  · simp [mutateSecret, mapIndexOk, mapAssign]
  · simp [mutateSecret, mapIndexOk, mapAssign, hne]
  · simp [mutateSecret, mapIndexOk, mapAssign]
  · intro k
    simp only [mutateSecret, mapIndexOk, mapAssign]

/-- A successful call stores the mutated secret under its key and touches nothing else. -/
theorem createOrUpdateClusterSecret_ok (c : Client) (cp : ClusterProfile) (u : String)
    (hu : mapIndexOk cp.Annotations gkeEndpointAnnotation = some u)
    (hok : (createOrUpdateClusterSecret c cp).2 = none) :
    c.getError = none ∧
      (createOrUpdateClusterSecret c cp).1.getError = c.getError ∧
      (createOrUpdateClusterSecret c cp).1.createError = c.createError ∧
      (createOrUpdateClusterSecret c cp).1.store =
        fun k => if k = (argoCDNamespace, cp.Namespace ++ "." ++ cp.Name) then
          some (mutateSecret (secretBefore c cp) cp u (cp.Namespace ++ "." ++ cp.Name)).1
        else c.store k := by
  unfold createOrUpdateClusterSecret at hok ⊢
  simp only [hu] at hok ⊢
  unfold CreateOrUpdate Client.Get at hok ⊢
  cases hg : c.getError with
  | some e => simp [hg] at hok
  | none =>
    simp only [hg] at hok ⊢
    cases hs : c.store (argoCDNamespace, cp.Namespace ++ "." ++ cp.Name) with
    | none =>
      simp only [hs] at hok ⊢
      cases hc : c.createError with
      | some e => simp [mutate, mutateSecret, Client.Create, hc] at hok
      | none =>
        simp [mutate, mutateSecret, Client.Create, hc, hs, hg, secretBefore]
    | some s =>
      simp [mutate, mutateSecret, Client.Update, hs, hg, secretBefore]

/-- The secret that `mutateSecret` writes is managed for the origin `ns/name`. -/
theorem isSecretManaged_mutateSecret (secret : Secret) (cp : ClusterProfile) (u name : String) :
    isSecretManaged (mutateSecret secret cp u name).1 (cp.Namespace ++ "/" ++ cp.Name) = true := by
  have hne : ¬ managedByAnnotation = clusterProfileOrigin := by decide
  simp [isSecretManaged, mutateSecret, mapIndex, mapAssign, hne]

/-- The call succeeds when the read succeeds and either the secret exists or the
creation is not refused. -/
theorem createOrUpdateClusterSecret_succeeds (c : Client) (cp : ClusterProfile) (u : String)
    (hu : mapIndexOk cp.Annotations gkeEndpointAnnotation = some u)
    (hg : c.getError = none)
    (hc : c.createError = none ∨
      (c.store (argoCDNamespace, cp.Namespace ++ "." ++ cp.Name)).isSome = true) :
    (createOrUpdateClusterSecret c cp).2 = none := by
  unfold createOrUpdateClusterSecret
  simp only [hu]
  unfold CreateOrUpdate Client.Get
  simp only [hg]
  cases hs : c.store (argoCDNamespace, cp.Namespace ++ "." ++ cp.Name) with
  | none =>
    rcases hc with hc | hc
    · simp [mutate, mutateSecret, Client.Create, hc, hs]
    · simp [hs] at hc
  | some s =>
    simp [mutate, mutateSecret, Client.Update, hs]

/-- C25: the postcondition of `createOrUpdateClusterSecret` and `mutateSecret`.
For every client and every ClusterProfile `(ns, name)` whose endpoint annotation
has the value `u`, whatever the secret `argocd/"ns.name"` held before: after a
successful call that secret has the label secret-type = "cluster", the
annotations managed-by = "true" and origin = "ns/name", the type Opaque and the
data exactly name = "ns.name", server = `u`, config = `secretConfig`, and no
other secret has changed; the call does succeed when the read succeeds and the
secret exists or may be created. If the endpoint annotation is absent the call
returns an error that begins with "cluster endpoint annotation" and leaves the
client unchanged. -/
theorem cluster_secret_written (c : Client) (cp : ClusterProfile) :
    (∀ u, mapIndexOk cp.Annotations gkeEndpointAnnotation = some u →
      (createOrUpdateClusterSecret c cp).2 = none →
      ∃ s, (createOrUpdateClusterSecret c cp).1.store
            (argoCDNamespace, cp.Namespace ++ "." ++ cp.Name) = some s ∧
        mapIndexOk s.Labels argoCDSecretType = some "cluster" ∧
        mapIndexOk s.Annotations managedByAnnotation = some "true" ∧
        mapIndexOk s.Annotations clusterProfileOrigin = some (cp.Namespace ++ "/" ++ cp.Name) ∧
        s.SecretType = SecretTypeOpaque ∧
        (∀ k, mapIndexOk s.Data k =
          if k = "config" then some secretConfig
          else if k = "server" then some u
          else if k = "name" then some (cp.Namespace ++ "." ++ cp.Name)
          else none) ∧
        (∀ k, k ≠ (argoCDNamespace, cp.Namespace ++ "." ++ cp.Name) →
          (createOrUpdateClusterSecret c cp).1.store k = c.store k)) ∧
    (∀ u, mapIndexOk cp.Annotations gkeEndpointAnnotation = some u → c.getError = none →
      (c.createError = none ∨
        (c.store (argoCDNamespace, cp.Namespace ++ "." ++ cp.Name)).isSome = true) →
      (createOrUpdateClusterSecret c cp).2 = none) ∧
    (mapIndexOk cp.Annotations gkeEndpointAnnotation = none →
      createOrUpdateClusterSecret c cp =
          (c, some ("cluster endpoint annotation \"gateway.gke.io/endpoint\" not found")) ∧
        ∃ rest : String,
          "cluster endpoint annotation \"gateway.gke.io/endpoint\" not found"
            = "cluster endpoint annotation" ++ rest) := by
  refine ⟨?_, fun u hu hg hc => createOrUpdateClusterSecret_succeeds c cp u hu hg hc, ?_⟩
  · intro u hu hok
    obtain ⟨_, _, _, hstore⟩ := createOrUpdateClusterSecret_ok c cp u hu hok
    obtain ⟨_, _, _, hl, ha1, ha2, ht, hd⟩ :=
      mutateSecret_post (secretBefore c cp) cp u (cp.Namespace ++ "." ++ cp.Name)
    refine ⟨(mutateSecret (secretBefore c cp) cp u (cp.Namespace ++ "." ++ cp.Name)).1, ?_, hl,
      ha1, ha2, ht, hd, ?_⟩
    · rw [hstore]
      simp
    · intro k hk
      rw [hstore]
      simp [hk]
  · intro hnone
    refine ⟨?_, " \"gateway.gke.io/endpoint\" not found", by decide⟩
    unfold createOrUpdateClusterSecret
    simp only [hnone]
    rfl

/-- Witness of C25: the ClusterProfile of the tests on the empty client. -/
theorem cluster_secret_written_witness :
    (mapIndexOk testProfile.Annotations gkeEndpointAnnotation = some "https://test-server" ∧
      (createOrUpdateClusterSecret emptyClient testProfile).2 = none) ∧
    ∃ s, (createOrUpdateClusterSecret emptyClient testProfile).1.store
          (argoCDNamespace, testProfile.Namespace ++ "." ++ testProfile.Name) = some s ∧
      mapIndexOk s.Labels argoCDSecretType = some "cluster" ∧
      mapIndexOk s.Annotations managedByAnnotation = some "true" ∧
      mapIndexOk s.Annotations clusterProfileOrigin
        = some (testProfile.Namespace ++ "/" ++ testProfile.Name) ∧
      s.SecretType = SecretTypeOpaque ∧
      (∀ k, mapIndexOk s.Data k =
        if k = "config" then some secretConfig
        else if k = "server" then some "https://test-server"
        else if k = "name" then some (testProfile.Namespace ++ "." ++ testProfile.Name)
        else none) ∧
      (∀ k, k ≠ (argoCDNamespace, testProfile.Namespace ++ "." ++ testProfile.Name) →
        (createOrUpdateClusterSecret emptyClient testProfile).1.store k = emptyClient.store k) :=
  ⟨⟨by decide, by decide⟩,
    (cluster_secret_written emptyClient testProfile).1 "https://test-server" (by decide)
      (by decide)⟩

/-- C29: create and delete agree on ownership. For every client and every
ClusterProfile `(ns, name)` with an endpoint annotation, after a successful
`createOrUpdateClusterSecret` the secret stored under `argocd/"ns.name"` satisfies
`isSecretManaged secret "ns/name"`, and `deleteClusterSecret` for the request
`(ns, name)` then returns nil and leaves no secret `argocd/"ns.name"` in the
store, every other key holding what it held at the start. -/
theorem create_then_delete (c : Client) (cp : ClusterProfile) (u : String)
    (hu : mapIndexOk cp.Annotations gkeEndpointAnnotation = some u)
    (hok : (createOrUpdateClusterSecret c cp).2 = none) :
    (∃ s, (createOrUpdateClusterSecret c cp).1.store
          (argoCDNamespace, cp.Namespace ++ "." ++ cp.Name) = some s ∧
      isSecretManaged s (cp.Namespace ++ "/" ++ cp.Name) = true) ∧
    (deleteClusterSecret (createOrUpdateClusterSecret c cp).1 ⟨cp.Namespace, cp.Name⟩).2 = none ∧
    (deleteClusterSecret (createOrUpdateClusterSecret c cp).1 ⟨cp.Namespace, cp.Name⟩).1.store
        (argoCDNamespace, cp.Namespace ++ "." ++ cp.Name) = none ∧
    (∀ k, k ≠ (argoCDNamespace, cp.Namespace ++ "." ++ cp.Name) →
      (deleteClusterSecret (createOrUpdateClusterSecret c cp).1 ⟨cp.Namespace, cp.Name⟩).1.store k
        = c.store k) := by
  obtain ⟨hg, hg1, _, hstore⟩ := createOrUpdateClusterSecret_ok c cp u hu hok
  have hs : (createOrUpdateClusterSecret c cp).1.store
      (argoCDNamespace, cp.Namespace ++ "." ++ cp.Name)
      = some (mutateSecret (secretBefore c cp) cp u (cp.Namespace ++ "." ++ cp.Name)).1 := by
    rw [hstore]
    simp
  have hm := isSecretManaged_mutateSecret (secretBefore c cp) cp u (cp.Namespace ++ "." ++ cp.Name)
  have hdel := deleteClusterSecret_managed (createOrUpdateClusterSecret c cp).1
    ⟨cp.Namespace, cp.Name⟩ _ (by rw [hg1, hg]) hs hm
  refine ⟨⟨_, hs, hm⟩, ?_, ?_, ?_⟩
  · rw [hdel]
  · rw [hdel]
    simp
  · intro k hk
    rw [hdel]
    simp only [hk, if_false]
    rw [hstore]
    simp [hk]

/-- Witness of C29: the ClusterProfile of the tests on the empty client. -/
theorem create_then_delete_witness :
    (mapIndexOk testProfile.Annotations gkeEndpointAnnotation = some "https://test-server" ∧
      (createOrUpdateClusterSecret emptyClient testProfile).2 = none) ∧
    ((∃ s, (createOrUpdateClusterSecret emptyClient testProfile).1.store
          (argoCDNamespace, testProfile.Namespace ++ "." ++ testProfile.Name) = some s ∧
      isSecretManaged s (testProfile.Namespace ++ "/" ++ testProfile.Name) = true) ∧
    (deleteClusterSecret (createOrUpdateClusterSecret emptyClient testProfile).1
      ⟨testProfile.Namespace, testProfile.Name⟩).2 = none ∧
    (deleteClusterSecret (createOrUpdateClusterSecret emptyClient testProfile).1
      ⟨testProfile.Namespace, testProfile.Name⟩).1.store
        (argoCDNamespace, testProfile.Namespace ++ "." ++ testProfile.Name) = none ∧
    (∀ k, k ≠ (argoCDNamespace, testProfile.Namespace ++ "." ++ testProfile.Name) →
      (deleteClusterSecret (createOrUpdateClusterSecret emptyClient testProfile).1
        ⟨testProfile.Namespace, testProfile.Name⟩).1.store k = emptyClient.store k)) :=
  ⟨⟨by decide, by decide⟩,
    create_then_delete emptyClient testProfile "https://test-server" (by decide) (by decide)⟩

end Syncer
